import Mathlib

/-!
Shallow embedding of `src/dungeonGen.js` (class `Dungeon`) and verification of
the specification claims about it.

Modelling conventions, fixed once here:

* JavaScript numbers are modelled as `Int`.  All arithmetic the generator
  performs on them is integer arithmetic except inside `randomInt`, whose
  `%` is JavaScript truncated remainder (`Int.tmod`) and whose
  `Math.floor(rnd * k)` with `rnd = seed / 233280` is the floor of an exact
  rational, i.e. `Int.fdiv (seed * k) 233280`.  (For every concrete run used
  below this agrees with the IEEE-double evaluation; this was checked draw by
  draw.)
* `Math.random()` (the unseeded branch of `randomInt`) is modelled by an
  oracle stream `ext : Nat → Int` packaged in the generator state; a draw
  `Math.floor(Math.random() * (hi - lo + 1)) + lo` can produce exactly the
  values `extDraw t lo hi` ranges over as `t` ranges over `Int`.
* A thrown `TypeError` (reading a property of `undefined`, or indexing into
  `undefined`) is modelled by `Option`: `none` means the run crashed.
* The board is an array of column arrays.  A column is modelled by its JS
  array `length` together with an association list of written indices, which
  faithfully supports JS writes at arbitrary integer indices (negative
  indices become plain properties and do not change `length`; writes past the
  end grow `length` leaving holes), reads of unwritten cells (`undefined`)
  and `Array.prototype.flat` (which skips holes and ignores non-index
  properties).
-/

namespace DG

/-- The tile values the generator actually stores in board cells: the number
`0` for walls, positive room/point-marker numbers, and the strings `'P'`,
`'ENTRY'`, `'EXIT'`. -/
inductive TileVal where
  | num (n : Int)
  | corr
  | entryT
  | exitT
deriving DecidableEq

/-- JS `tile.type > 0`: true only for positive numbers (a string compares via
`NaN` and yields `false`). -/
def TileVal.gtZero : TileVal → Bool
  | .num n => 0 < n
  | _ => false

/-- JS `tile.type !== 0`. -/
def TileVal.isNonZero : TileVal → Bool
  | .num n => n ≠ 0
  | _ => true

/-- JS `tile.type <= 0`: true only for non-positive numbers. -/
def TileVal.leZero : TileVal → Bool
  | .num n => n ≤ 0
  | _ => false

/-- The seeded PRNG step `seed = (seed * 9301 + 49297) % 233280` with JS `%`
(truncated remainder, sign of the dividend). -/
def nextSeedVal (s : Int) : Int := (s * 9301 + 49297).tmod 233280

/-- `Math.floor((s / 233280) * (hi - lo + 1)) + lo` as an exact rational
floor. -/
def seededVal (s lo hi : Int) : Int := (s * (hi - lo + 1)).fdiv 233280 + lo

/-- The value `Math.floor(r * (hi - lo + 1)) + lo` takes for some
`r ∈ [0, 1)`; as `t` ranges over `Int` this ranges over exactly the values
the unseeded draw can produce. -/
def extDraw (t lo hi : Int) : Int :=
  if 1 ≤ hi - lo + 1 then lo + t.emod (hi - lo + 1)
  else if hi - lo + 1 = 0 then lo
  else lo - t.emod (1 - (hi - lo + 1))

/-- PRNG state: the stored seed (`null` = `none`) plus the oracle for
`Math.random` and its read counter. -/
structure Rng where
  seed : Option Int
  ext : Nat → Int
  extIdx : Nat

/-- `randomInt(min, max)` of the source: unseeded draws consult the oracle,
seeded draws advance the linear-congruential state. -/
def Rng.randomInt (r : Rng) (lo hi : Int) : Int × Rng :=
  match r.seed with
  | none => (extDraw (r.ext r.extIdx) lo hi, { r with extIdx := r.extIdx + 1 })
  | some s => (seededVal (nextSeedVal s) lo hi, { r with seed := some (nextSeedVal s) })

/-- A bare coordinate pair, as produced by `#getPath` and used by the flood
fill. -/
structure Pt where
  x : Int
  y : Int
deriving DecidableEq

/-- A `PointObj` of the source: a per-grid connection point. -/
structure PointObj where
  x : Int
  y : Int
  gridIndex : Nat
deriving DecidableEq

/-- A `GridObj` of the source. -/
structure Grid where
  x : Int
  y : Int
  width : Int
  height : Int
  index : Nat
deriving DecidableEq

/-- A connection between two grid points. -/
structure Conn where
  point1 : PointObj
  point2 : PointObj
deriving DecidableEq

/-- The room types actually assigned by the generator (`room.type` is absent,
i.e. `none`, until a room is promoted). -/
inductive RoomType where
  | ENTRY
  | EXIT
deriving DecidableEq

/-- A `RoomObj` of the source. -/
structure Room where
  x : Int
  y : Int
  width : Int
  height : Int
  grid : Nat
  onPoint : Bool
  type : Option RoomType
deriving DecidableEq

/-- The `specialPoints` record. -/
structure SpecialPoints where
  entry : Option Pt
  exit : Option Pt
deriving DecidableEq

/-- A board column: the JS array `length`, the log of all writes (newest
first; later writes shadow earlier ones) and the initial hole-free array
contents. -/
structure Column where
  len : Nat
  writes : List (Int × TileVal)
  base : List TileVal
deriving DecidableEq

/-- Reading `col[y]`: the most recent write, else the initial contents,
`none` for `undefined`. -/
def Column.read (c : Column) (y : Int) : Option TileVal :=
  match c.writes.find? (fun e => e.1 = y) with
  | some e => some e.2
  | none => if 0 ≤ y then c.base.get? y.toNat else none

/-- Writing `col[y] = v`: JS grows `length` for writes at fresh nonnegative
indices past the end and treats negative indices as plain properties. -/
def Column.write (c : Column) (y : Int) (v : TileVal) : Column :=
  { len := if 0 ≤ y then max c.len (y.toNat + 1) else c.len,
    writes := (y, v) :: c.writes,
    base := c.base }

/-- The cells `Array.prototype.flat` would see in this column: indices
`0 … len-1`, skipping holes. -/
def Column.flatCells (c : Column) : List TileVal :=
  (List.range c.len).filterMap (fun i => c.read (i : Int))

/-- A fresh column of `rows` wall tiles (`{ type: 0 }`). -/
def Column.init (rows : Nat) : Column :=
  { len := rows, writes := [], base := List.replicate rows (TileVal.num 0) }

/-- The board: one column per x coordinate. -/
def Board : Type := List Column

instance : DecidableEq Board := by
  unfold Board
  infer_instance

/-- `this.board[x]`; `none` when that is `undefined`. -/
def Board.col? (b : Board) (x : Int) : Option Column :=
  if 0 ≤ x then List.get? b x.toNat else none

/-- `this.board[x][y]`: outer `none` = the read itself throws
(`this.board[x]` is `undefined`); `some none` = the cell is `undefined`. -/
def Board.read (b : Board) (x y : Int) : Option (Option TileVal) :=
  (b.col? x).map (fun c => c.read y)

/-- `this.board[x][y] = v`; `none` when `this.board[x]` is `undefined` and
the write throws. -/
def Board.write (b : Board) (x y : Int) (v : TileVal) : Option Board :=
  match b.col? x with
  | none => none
  | some c => some (b.set x.toNat (c.write y v))

/-- `this.board[x][y].type = v` (used for the entry/exit tiles): throws when
the column or the cell is `undefined`. -/
def Board.writeType (b : Board) (x y : Int) (v : TileVal) : Option Board :=
  match b.read x y with
  | none => none
  | some none => none
  | some (some _) => b.write x y v

/-- `board.flat().filter(tile => tile.type !== 0).length`. -/
def Board.floorCount (b : Board) : Nat :=
  (b.map (fun c => (c.flatCells.filter TileVal.isNonZero).length)).sum

/-- The all-wall `colCount × rowCount` board built at the start of every
attempt. -/
def Board.init (cols rows : Nat) : Board :=
  (List.range cols).map (fun _ => Column.init rows)

/-- `#getPath(point1, point2)` of the source, translated loop by loop.
The first half of the dominant axis runs `ceil(|diff| / 2)` times
(`for (i = 0; i < Math.abs(diff) / 2; i++)`); the secondary-axis loop and
the closing loop read `path[path.length - 1]`, which throws when the path
is still empty (modelled by `none`). -/
def getPath (point1 point2 : Pt) : Option (List Pt) :=
  let startX := point1.x
  let startY := point1.y
  let endX := point2.x
  let endY := point2.y
  let xDiff := endX - startX
  let yDiff := endY - startY
  if xDiff > yDiff then
    let leg1 : List Pt := (List.range ((xDiff.natAbs + 1) / 2)).map
      (fun i => if 0 < xDiff then ⟨startX + i, startY⟩ else ⟨startX - i, startY⟩)
    let withY : Option (List Pt) :=
      if yDiff ≠ 0 then
        match leg1.getLast? with
        | none => none
        | some lastP => some (leg1 ++ (List.range yDiff.natAbs).map
            (fun i => if 0 < yDiff then ⟨lastP.x, startY + (i + 1)⟩
              else ⟨lastP.x, startY - (i + 1)⟩))
      else some leg1
    match withY with
    | none => none
    | some path2 =>
      match path2.getLast? with
      | none => none
      | some lastP =>
        some (path2 ++ (List.range ((endX.natAbs : Int) - lastP.x).toNat).map
          (fun j => if 0 < xDiff then ⟨lastP.x + j + 1, endY⟩ else ⟨lastP.x + j - 1, endY⟩))
  else
    let leg1 : List Pt := (List.range ((yDiff.natAbs + 1) / 2)).map
      (fun i => if 0 < yDiff then ⟨startX, startY + i⟩ else ⟨startX, startY - i⟩)
    let withX : Option (List Pt) :=
      if xDiff ≠ 0 then
        match leg1.getLast? with
        | none => none
        | some lastP => some (leg1 ++ (List.range xDiff.natAbs).map
            (fun i => if 0 < xDiff then ⟨startX + (i + 1), lastP.y⟩
              else ⟨startX - (i + 1), lastP.y⟩))
      else some leg1
    match withX with
    | none => none
    | some path2 =>
      match path2.getLast? with
      | none => none
      | some lastP =>
        some (path2 ++ (List.range ((endY.natAbs : Int) - lastP.y).toNat).map
          (fun j => if 0 < yDiff then ⟨endX, lastP.y + j + 1⟩ else ⟨endX, lastP.y + j - 1⟩))

/-! ### Randomness-threading plumbing

Every generator step is a function of the PRNG state that can either crash
(a thrown `TypeError`, `none`) or return a value and the advanced state. -/

/-- A computation that threads the PRNG state and can crash. -/
def RandM (α : Type) : Type := Rng → Option (α × Rng)

/-- Return a pure value. -/
def rpure {α : Type} (a : α) : RandM α := fun r => some (a, r)

/-- Sequencing: a crash aborts the whole run. -/
def rbind {α β : Type} (m : RandM α) (f : α → RandM β) : RandM β := fun r =>
  match m r with
  | none => none
  | some (a, r2) => f a r2

/-- A crash (thrown exception). -/
def rfailM {α : Type} : RandM α := fun _ => none

/-- Lift a possibly-crashing pure computation. -/
def rofOption {α : Type} (o : Option α) : RandM α := fun r => o.map (fun a => (a, r))

/-- A single `this.randomInt(lo, hi)` call. -/
def rrand (lo hi : Int) : RandM Int := fun r => some (r.randomInt lo hi)

/-- A `for … of` loop accumulating state. -/
def rfoldl {α β : Type} (f : β → α → RandM β) : List α → β → RandM β
  | [], b => rpure b
  | a :: l, b => rbind (f b a) (fun b2 => rfoldl f l b2)

/-! ### Grid partitioner, point and path synthesis -/

/-- One auxiliary fact for the room-count adjustment loop: incrementing an
integer whose truncated remainder by 2 is nonzero makes it even. -/
theorem tmod_two_succ (n : Int) (h : n.tmod 2 ≠ 0) : (n + 1).tmod 2 = 0 := by
  rcases Int.even_or_odd n with he | ho
  · obtain ⟨k, hk⟩ := he
    exfalso
    apply h
    subst hk
    simpa [two_mul] using Int.mul_tmod_right 2 k
  · obtain ⟨k, hk⟩ := ho
    subst hk
    have h2 : (2 * k + 1 + 1) = 2 * (k + 1) := by ring
    rw [h2]
    simp [Int.mul_tmod_right]

/-- The loop `while (roomCount % 2 !== 0 && roomCount % 3 !== 0) roomCount++`
unrolled with fuel.  JS `%` is the truncated remainder. -/
def adjustRoomCountAux : Nat → Int → Int
  | 0, n => n
  | fuel + 1, n =>
    if n.tmod 2 ≠ 0 ∧ n.tmod 3 ≠ 0 then adjustRoomCountAux fuel (n + 1) else n

/-- The room-count adjustment loop.  Two units of fuel are exact: after one
increment the count is even (`tmod_two_succ`), so the source loop runs its
body at most once and the unrolling is faithful (see `adjustRoomCount_eq`). -/
def adjustRoomCount (n : Int) : Int := adjustRoomCountAux 2 n

/-- `#createGrid()`.  `roomCount / 2` (resp. `/ 3`) is JS real division but
exact in the branch where it is used, so plain integer division agrees;
`Math.floor(colCount / otherDivisor)` is a true floor (`Int.fdiv`).  When
`otherDivisor` is `0` JS produces `Infinity` but runs zero loop iterations,
as does this model (`Int.fdiv _ 0 = 0` is then never consumed).  Grids are
pushed with `index = gridList.length`. -/
def createGrid (roomCount : Int) (rowCount colCount : Nat) : List Grid :=
  if roomCount.tmod 2 = 0 then
    let otherDivisor : Int := roomCount / 2
    let splitRow : Int := (rowCount : Int) / 2
    let splitCol : Int := (colCount : Int).fdiv otherDivisor
    (List.range otherDivisor.toNat).foldl (fun acc i =>
      (List.range 2).foldl (fun acc2 j =>
        acc2 ++ [⟨(i : Int) * splitCol, (j : Int) * splitRow, splitCol, splitRow, acc2.length⟩])
        acc) []
  else
    let otherDivisor : Int := roomCount / 3
    let splitCol : Int := (colCount : Int) / 3
    let splitRow : Int := (rowCount : Int).fdiv otherDivisor
    (List.range otherDivisor.toNat).foldl (fun acc i =>
      (List.range 3).foldl (fun acc2 j =>
        acc2 ++ [⟨(j : Int) * splitCol, (i : Int) * splitRow, splitCol, splitRow, acc2.length⟩])
        acc) []

/-- `#getAdjacentGrids(gridList, grid)`: grids directly below or directly to
the right. -/
def getAdjacentGrids (gridList : List Grid) (grid : Grid) : List Grid :=
  gridList.filter (fun sg =>
    (sg.x = grid.x ∧ sg.y = grid.y + grid.height) ∨
    (sg.y = grid.y ∧ sg.x = grid.x + grid.width))

/-- The point-sampling loop of `#createPaths`: one point per grid with
inclusive bounds offset by the minimum room size, `gridIndex` = loop index. -/
def pointsPhase (minRoomSizeX minRoomSizeY : Int) (gridList : List Grid) :
    RandM (List PointObj) :=
  rfoldl (fun acc ig =>
    rbind (rrand (ig.2.x + minRoomSizeX) (ig.2.x + ig.2.width - minRoomSizeX)) (fun x =>
    rbind (rrand (ig.2.y + minRoomSizeY) (ig.2.y + ig.2.height - minRoomSizeY)) (fun y =>
    rpure (acc ++ [⟨x, y, ig.1⟩])))) gridList.enum []

/-- The marker loop of `#createPaths`:
`board[point.x][point.y] = { type: gridIndex + 1 }`. -/
def placeMarkers (b : Board) (points : List PointObj) : Option Board :=
  points.foldlM (fun bd p => bd.write p.x p.y (TileVal.num ((p.gridIndex : Int) + 1))) b

/-- The connection-rolling loop of `#createPaths`: for every adjacent grid
pair, keep the connection when `randomInt(1, 100) > pointLossChance`.
The source reads `pointList[grid.index]` before the roll; that read yields
`undefined` only if the index were out of range, which never happens because
grid indices are list positions — the model crashes eagerly there. -/
def connPhase (pointLossChance : Int) (gridList : List Grid) (points : List PointObj) :
    RandM (List Conn) :=
  rfoldl (fun acc grid =>
    rfoldl (fun acc2 ag =>
      match points.get? grid.index, points.get? ag.index with
      | some p1, some p2 =>
        rbind (rrand 1 100) (fun roll =>
          rpure (if roll > pointLossChance then acc2 ++ [⟨p1, p2⟩] else acc2))
      | _, _ => rfailM) (getAdjacentGrids gridList grid) acc) gridList []

/-- The path-stamping loop of `#createPaths`: every cell of every connection
path becomes `{ type: 'P' }`. -/
def stampPaths (b : Board) (conns : List Conn) : Option Board :=
  conns.foldlM (fun bd c =>
    match getPath ⟨c.point1.x, c.point1.y⟩ ⟨c.point2.x, c.point2.y⟩ with
    | none => none
    | some path => path.foldlM (fun bd2 p => bd2.write p.x p.y TileVal.corr) bd) b

/-- All of `#createPaths()`. -/
def createPaths (minRoomSizeX minRoomSizeY pointLossChance : Int) (gridList : List Grid)
    (b : Board) : RandM (List PointObj × List Conn × Board) :=
  rbind (pointsPhase minRoomSizeX minRoomSizeY gridList) (fun points =>
  rbind (rofOption (placeMarkers b points)) (fun b2 =>
  rbind (connPhase pointLossChance gridList points) (fun conns =>
  rbind (rofOption (stampPaths b2 conns)) (fun b3 =>
  rpure (points, conns, b3)))))

/-! ### Room placer -/

/-- The inner `for (y …)` loop of the candidate scan.  Checks in source
order: out-of-bounds breaks, `board[x][y].type > 0` breaks, touching the
grid border breaks (`break` leaves only this column), otherwise the cell may
switch `onPoint` on.  The returned first component is `false` exactly when
this column set `validPosition = false`.  Reading a hole would throw. -/
def scanColumn (b : Board) (colCount rowCount : Nat) (grid : Grid) (point : PointObj)
    (x : Int) : Nat → Int → Bool → Option (Bool × Bool)
  | 0, _, onPoint => some (true, onPoint)
  | k + 1, y, onPoint =>
    if x < 0 ∨ x ≥ (colCount : Int) ∨ y < 0 ∨ y ≥ (rowCount : Int) then some (false, onPoint)
    else match b.read x y with
      | none => none
      | some none => none
      | some (some t) =>
        if t.gtZero then some (false, onPoint)
        else if x = grid.x ∨ x = grid.x + grid.width - 1 ∨ y = grid.y ∨
            y = grid.y + grid.height - 1 then some (false, onPoint)
        else scanColumn b colCount rowCount grid point x k (y + 1)
          (onPoint || (x = point.x ∧ y = point.y : Bool))

/-- The outer `for (x …)` loop of the candidate scan: `validPosition` is
sticky across columns (an inner `break` does not leave the outer loop). -/
def scanCols (b : Board) (colCount rowCount : Nat) (grid : Grid) (point : PointObj)
    (roomY : Int) (h : Nat) : Nat → Int → Bool → Bool → Option (Bool × Bool)
  | 0, _, valid, onPoint => some (valid, onPoint)
  | k + 1, x, valid, onPoint =>
    match scanColumn b colCount rowCount grid point x h roomY onPoint with
    | none => none
    | some (colOk, onPoint2) =>
      scanCols b colCount rowCount grid point roomY h k (x + 1) (valid && colOk) onPoint2

/-- One full scan of a candidate rectangle, entered with
`validPosition = true`, `onPoint = false` as in the source. -/
def scanRect (b : Board) (colCount rowCount : Nat) (grid : Grid) (point : PointObj)
    (roomX roomY roomWidth roomHeight : Int) : Option (Bool × Bool) :=
  scanCols b colCount rowCount grid point roomY roomHeight.toNat roomWidth.toNat roomX true false

/-- Result of the placement loop: the flags and the last candidate. -/
structure AttemptResult where
  validPosition : Bool
  onPoint : Bool
  roomWidth : Int
  roomHeight : Int
  roomX : Int
  roomY : Int
deriving DecidableEq

/-- The `while (!validPosition && attempts < 1000)` loop.  Each iteration
scans the current candidate; on success it breaks, otherwise it resamples
size and position and clears both flags.  On exhaustion the state is the
freshly resampled, never-scanned candidate with both flags `false`. -/
def attemptLoop (b : Board) (colCount rowCount : Nat) (minX minY maxX maxY : Int)
    (grid : Grid) (point : PointObj) :
    Nat → Int → Int → Int → Int → RandM AttemptResult
  | 0, w, h, rx, ry => rpure ⟨false, false, w, h, rx, ry⟩
  | n + 1, w, h, rx, ry =>
    rbind (rofOption (scanRect b colCount rowCount grid point rx ry w h)) (fun vo =>
      if vo.1 && vo.2 then rpure ⟨true, true, w, h, rx, ry⟩
      else
        rbind (rrand minX maxX) (fun w2 =>
        rbind (rrand minY maxY) (fun h2 =>
        rbind (rrand grid.x (grid.x + grid.width - w2)) (fun rx2 =>
        rbind (rrand grid.y (grid.y + grid.height - h2)) (fun ry2 =>
        attemptLoop b colCount rowCount minX minY maxX maxY grid point n w2 h2 rx2 ry2)))))

/-- Stamping an accepted (or fallback) room onto the board:
`board[x][y] = { type: i + 1 }` over the rectangle. -/
def stampRoom (b : Board) (rx ry : Int) (w h : Nat) (v : TileVal) : Option Board :=
  (List.range w).foldlM (fun bd i =>
    (List.range h).foldlM (fun bd2 j => bd2.write (rx + i) (ry + j) v) bd) b

/-- Accumulator of the per-grid room loop.  `stampValid` records, for each
stamped room, the `validPosition` flag at the dice roll (instrumentation the
source computes but discards; it is used to state the safety claims). -/
structure RoomPhaseOut where
  board : Board
  roomList : List Room
  stampValid : List Bool
deriving DecidableEq

/-- One iteration of the per-grid loop of `#createRooms`: skip grids with no
surviving connection, search for a placement, roll the dice and stamp. -/
def roomPhaseStep (colCount rowCount : Nat) (minX minY maxX maxY roomLossChance : Int)
    (points : List PointObj) (conns : List Conn) (acc : RoomPhaseOut)
    (ig : Nat × Grid) : RandM RoomPhaseOut :=
  let i := ig.1
  let grid := ig.2
  let validConnections := conns.filter (fun c =>
    c.point1.gridIndex = grid.index ∨ c.point2.gridIndex = grid.index)
  if validConnections.length = 0 then rpure acc
  else
    match (points.filter (fun p => p.gridIndex = grid.index)).head? with
    | none => rfailM
    | some point =>
      rbind (rrand minX maxX) (fun w =>
      rbind (rrand minY maxY) (fun h =>
      rbind (rrand grid.x (grid.x + grid.width - w)) (fun rx =>
      rbind (rrand grid.y (grid.y + grid.height - h)) (fun ry =>
      rbind (attemptLoop acc.board colCount rowCount minX minY maxX maxY grid point
        1000 w h rx ry) (fun res =>
      rbind (rrand 1 100) (fun dice =>
      if dice ≥ roomLossChance then
        rbind (rofOption (stampRoom acc.board res.roomX res.roomY res.roomWidth.toNat
          res.roomHeight.toNat (TileVal.num ((i : Int) + 1)))) (fun b2 =>
        rpure ⟨b2, acc.roomList ++
          [⟨res.roomX, res.roomY, res.roomWidth, res.roomHeight, i, res.onPoint, none⟩],
          acc.stampValid ++ [res.validPosition]⟩)
      else rpure acc))))))

/-- The entry/exit promotion at the end of `#createRooms` (runs only with at
least two rooms).  `availableRooms` is a copy sharing the room objects, so
the `type` writes land at the corresponding positions of `roomList`;
`splice` interprets a negative index from the end; an out-of-range pick
makes the later `entryRoom.type = …` (after the exit index was drawn)
throw. -/
def entryExitPhase (rooms : List Room) (sp : SpecialPoints) (b : Board) :
    RandM (List Room × SpecialPoints × Board) :=
  if 2 ≤ rooms.length then
    rbind (rrand 0 ((rooms.length : Int) - 1)) (fun eIdx =>
    let entryRoom? := if 0 ≤ eIdx then rooms.get? eIdx.toNat else none
    let spliceIdx : Nat := if eIdx < 0 then (max 0 ((rooms.length : Int) + eIdx)).toNat
      else eIdx.toNat
    let avail := rooms.eraseIdx spliceIdx
    rbind (rrand 0 ((avail.length : Int) - 1)) (fun xIdx =>
    let exitRoom? := if 0 ≤ xIdx then avail.get? xIdx.toNat else none
    match entryRoom?, exitRoom? with
    | some eR, some xR =>
      let ePos := eIdx.toNat
      let xPos := if xIdx.toNat < ePos then xIdx.toNat else xIdx.toNat + 1
      let rooms2 := (rooms.set ePos { eR with type := some RoomType.ENTRY }).set xPos
        { xR with type := some RoomType.EXIT }
      rbind (rrand (eR.x + 1) (eR.x + eR.width - 2)) (fun ex =>
      rbind (rrand (eR.y + 1) (eR.y + eR.height - 2)) (fun ey =>
      rbind (rrand (xR.x + 1) (xR.x + xR.width - 2)) (fun xx =>
      rbind (rrand (xR.y + 1) (xR.y + xR.height - 2)) (fun xy =>
      rbind (rofOption (b.writeType ex ey TileVal.entryT)) (fun b2 =>
      rbind (rofOption (b2.writeType xx xy TileVal.exitT)) (fun b3 =>
      rpure (rooms2, ⟨some ⟨ex, ey⟩, some ⟨xx, xy⟩⟩, b3)))))))
    | _, _ => rfailM))
  else rpure (rooms, sp, b)

/-- All of `#createRooms()`. -/
def createRooms (colCount rowCount : Nat) (minX minY maxX maxY roomLossChance : Int)
    (gridList : List Grid) (points : List PointObj) (conns : List Conn) (b : Board)
    (sp : SpecialPoints) : RandM (RoomPhaseOut × List Room × SpecialPoints × Board) :=
  rbind (rfoldl (roomPhaseStep colCount rowCount minX minY maxX maxY roomLossChance
    points conns) gridList.enum ⟨b, [], []⟩) (fun phase =>
  rbind (entryExitPhase phase.roomList sp phase.board) (fun fin =>
  rpure (phase, fin.1, fin.2.1, fin.2.2)))

/-! ### Extra-path augmenter -/

/-- The corridor-tile collection of `#addRandomPaths`: all `'P'` cells, in
column-major order over the actual array extents. -/
def pathableTiles (b : Board) : Option (List Pt) :=
  b.enum.foldlM (fun acc xc =>
    (List.range xc.2.len).foldlM (fun acc2 y =>
      match xc.2.read (y : Int) with
      | none => none
      | some t => some (if t = TileVal.corr then acc2 ++ [(⟨xc.1, y⟩ : Pt)] else acc2)) acc) []

/-- The path-adding loop of `#addRandomPaths`: pick two corridor tiles, skip
pairs sharing an axis, else stamp the path onto cells with `type <= 0`.
An undefined pick (`pathableTiles` empty) throws at `start.x`. -/
def randomPathsLoop (tiles : List Pt) : Nat → Board → RandM Board
  | 0, b => rpure b
  | n + 1, b =>
    rbind (rrand 0 ((tiles.length : Int) - 1)) (fun si =>
    rbind (rrand 0 ((tiles.length : Int) - 1)) (fun ei =>
    match (if 0 ≤ si then tiles.get? si.toNat else none),
        (if 0 ≤ ei then tiles.get? ei.toNat else none) with
    | some s, some e =>
      if s.x = e.x ∨ s.y = e.y then randomPathsLoop tiles n b
      else
        match getPath s e with
        | none => rfailM
        | some path =>
          rbind (rofOption (path.foldlM (fun bd p =>
            match bd.read p.x p.y with
            | none => none
            | some none => none
            | some (some t) =>
              if t.leZero then bd.write p.x p.y TileVal.corr else some bd) b)) (fun b2 =>
          randomPathsLoop tiles n b2)
    | _, _ => rfailM))

/-- All of `#addRandomPaths()`. -/
def addRandomPaths (randomPathMax : Int) (b : Board) : RandM Board :=
  rbind (rrand 0 randomPathMax) (fun pathCount =>
  rbind (rofOption (pathableTiles b)) (fun tiles =>
  randomPathsLoop tiles pathCount.toNat b))

/-! ### Connectivity validator -/

/-- The eight neighbour offsets of `#getAdjacentTiles`, in `switch` order.
Reading a column that does not exist throws; a cell read of `undefined`
passes the `tile?.type !== 0` test and is pushed. -/
def adjOffsets : List (Int × Int) :=
  [(-1, -1), (0, -1), (1, -1), (1, 0), (1, 1), (0, 1), (-1, 1), (-1, 0)]

/-- `#getAdjacentTiles(point)`. -/
def getAdjacentTiles (b : Board) (p : Pt) : Option (List Pt) :=
  adjOffsets.foldlM (fun acc d =>
    match b.read (p.x + d.1) (p.y + d.2) with
    | none => none
    | some cell =>
      some (if (match cell with | none => true | some t => t.isNonZero) then
        acc ++ [(⟨p.x + d.1, p.y + d.2⟩ : Pt)] else acc)) []

/-- `checkedTiles` is a JS `Set` keyed by the `"x,y"` string, i.e. a
coordinate set; insertion is a no-op on members. -/
def insertChecked (checked : List Pt) (p : Pt) : List Pt :=
  if p ∈ checked then checked else checked ++ [p]

/-- Result of the flood fill. -/
inductive FloodRes where
  | ok (checked : List Pt)
  | crash
  | fuelOut
deriving DecidableEq

/-- The `while`/`for…of` flood fill of `#validateDungeon`.  The `for…of`
iterator walks `uncheckedTiles` by index while the body `splice`s the
current element (all queued objects are distinct references, so
`indexOf(tile)` is the current position) and pushes unchecked neighbours at
the end; the element shifted into the current position is therefore skipped
until the next `while` pass.  `fuelOut` is an artefact of the fuel-bounded
model; the source loop always terminates because every pass shortens the
queue or marks a new tile. -/
def floodLoop (b : Board) : Nat → List Pt → List Pt → Nat → FloodRes
  | 0, _, _, _ => .fuelOut
  | fuel + 1, checked, queue, i =>
    match queue.get? i with
    | some tile =>
      match getAdjacentTiles b tile with
      | none => .crash
      | some adj =>
        let checked2 := insertChecked checked tile
        floodLoop b fuel checked2
          (queue.eraseIdx i ++ adj.filter (fun t => decide (t ∉ checked2))) (i + 1)
    | none =>
      if queue.length = 0 then .ok checked
      else floodLoop b fuel checked queue 0

/-- The flood-fill part of `#validateDungeon()`: start from
`pointList[randomInt(0, pointList.length - 1)]` (an out-of-range pick makes
the first `tile.x` read throw) and run the worklist loop to completion. -/
def validationFlood (colCount rowCount : Nat) (b : Board) (points : List PointObj) :
    RandM (List Pt) :=
  rbind (rrand 0 ((points.length : Int) - 1)) (fun idx =>
  match (if 0 ≤ idx then points.get? idx.toNat else none) with
  | none => rfailM
  | some p0 =>
    match floodLoop b (9 * (colCount * rowCount) + 9) [] [⟨p0.x, p0.y⟩] 0 with
    | .crash => rfailM
    | .fuelOut => rfailM
    | .ok checked => rpure checked)

/-- `#validateDungeon()`: flood from a random point-list element, compare the
visited count with the floor-tile count, then require
`roomCount ≥ gridCount / 2` with JS real division (exact: rationals). -/
def validateDungeon (colCount rowCount : Nat) (b : Board) (points : List PointObj)
    (gridCount roomCount : Nat) : RandM Bool :=
  rbind (validationFlood colCount rowCount b points) (fun checked =>
  rpure (if checked.length = b.floorCount then
      (if (roomCount : ℚ) < (gridCount : ℚ) / 2 then false else true)
    else false))

/-! ### Dungeon controller -/

/-- The clamped configuration the constructor stores on the instance. -/
structure Settings where
  rowCount : Nat
  colCount : Nat
  roomCountMin : Int
  roomCountMax : Int
  minRoomSizeX : Int
  minRoomSizeY : Int
  maxRoomSizeX : Int
  maxRoomSizeY : Int
  pointLossChance : Int
  roomLossChance : Int
  randomPathMax : Int
deriving DecidableEq

/-- The generated state of a dungeon instance after an attempt. -/
structure DState where
  roomCount : Int
  board : Board
  gridList : List Grid
  pointList : List PointObj
  connectionList : List Conn
  roomList : List Room
  specialPoints : SpecialPoints
  validDungeon : Bool
deriving DecidableEq

/-- `regenerate()` with the stamp-validity instrumentation exposed.  Every
generated entity is rebuilt from the settings and the PRNG state alone —
except `specialPoints`, which the source does not reset and which therefore
flows in from the previous attempt. -/
def regenerateI (s : Settings) (sp : SpecialPoints) : RandM (DState × List Bool) :=
  rbind (rrand s.roomCountMin s.roomCountMax) (fun rc0 =>
  let rc := adjustRoomCount rc0
  let grids := createGrid rc s.rowCount s.colCount
  rbind (createPaths s.minRoomSizeX s.minRoomSizeY s.pointLossChance grids
    (Board.init s.colCount s.rowCount)) (fun pcb =>
  rbind (createRooms s.colCount s.rowCount s.minRoomSizeX s.minRoomSizeY s.maxRoomSizeX
    s.maxRoomSizeY s.roomLossChance grids pcb.1 pcb.2.1 pcb.2.2 sp) (fun rms =>
  rbind (addRandomPaths s.randomPathMax rms.2.2.2) (fun b4 =>
  rbind (validateDungeon s.colCount s.rowCount b4 pcb.1 grids.length rms.2.1.length)
    (fun valid =>
  rpure (⟨rc, b4, grids, pcb.1, pcb.2.1, rms.2.1, rms.2.2.1, valid⟩, rms.1.stampValid))))))

/-- `regenerate()` as the source exposes it. -/
def regenerate (s : Settings) (sp : SpecialPoints) : RandM DState :=
  rbind (regenerateI s sp) (fun p => rpure p.1)

/-- The raw configuration record (`null` seed allowed). -/
structure Config where
  rowCount : Int
  colCount : Int
  roomCountMin : Int
  roomCountMax : Int
  minRoomSizeX : Int
  minRoomSizeY : Int
  maxRoomSizeX : Int
  maxRoomSizeY : Int
  pointLossChance : Int
  roomLossChance : Int
  randomPathMax : Int
  seed : Option Int
deriving DecidableEq

/-- The constructor's clamping of the configuration. -/
def Settings.ofConfig (cfg : Config) : Settings :=
  { rowCount := (max 20 cfg.rowCount).toNat
    colCount := (max 20 cfg.colCount).toNat
    roomCountMin := cfg.roomCountMin
    roomCountMax := cfg.roomCountMax
    minRoomSizeX := max 3 cfg.minRoomSizeX
    minRoomSizeY := max 3 cfg.minRoomSizeY
    maxRoomSizeX := max (max 3 cfg.minRoomSizeX) cfg.maxRoomSizeX
    maxRoomSizeY := max (max 3 cfg.minRoomSizeY) cfg.maxRoomSizeY
    pointLossChance := cfg.pointLossChance
    roomLossChance := cfg.roomLossChance
    randomPathMax := cfg.randomPathMax }

/-- The emergency loop (`attempts >= 10`): loss chances are zeroed for each
attempt and restored afterwards.  The source loops until a valid dungeon
exists; the fuel bound is a model artefact (running out is a crash). -/
def forcedLoop (s : Settings) : Nat → SpecialPoints → RandM DState
  | 0, _ => rfailM
  | n + 1, sp =>
    rbind (regenerate { s with pointLossChance := 0, roomLossChance := 0 } sp) (fun st =>
      if st.validDungeon then rpure st else forcedLoop s n st.specialPoints)

/-- The first retry loop (`attempts < 10`), falling through to the forced
loop. -/
def tryLoop (s : Settings) (forcedFuel : Nat) : Nat → SpecialPoints → RandM DState
  | 0, sp => forcedLoop s forcedFuel sp
  | n + 1, sp =>
    rbind (regenerate s sp) (fun st =>
      if st.validDungeon then rpure st else tryLoop s forcedFuel n st.specialPoints)

/-- The constructor body after seeding: the initial `roomCount` sample
(one draw, immediately overwritten by the first `regenerate`) and the retry
loops. -/
def mkDungeon (cfg : Config) (forcedFuel : Nat) : RandM DState :=
  let s := Settings.ofConfig cfg
  rbind (rrand s.roomCountMin s.roomCountMax) (fun _ =>
  tryLoop s forcedFuel 10 ⟨none, none⟩)

/-- The PRNG state the constructor starts from: the configured seed and a
`Math.random` oracle. -/
def mkRng (cfg : Config) (ext : Nat → Int) : Rng := ⟨cfg.seed, ext, 0⟩

/-! ### Read-only accessors -/

/-- The tile kinds `getTileAt` reports. -/
inductive TileKind where
  | WALL
  | FLOOR
  | CORRIDOR
  | ENTRY
  | EXIT
deriving DecidableEq

/-- A JS value that is either a boolean or `null` (what `isWalkable`
returns). -/
inductive JsVal where
  | vNull
  | vBool (b : Bool)
deriving DecidableEq

/-- The `if`/`else if` chain of `getTileAt` classifying a stored tile value:
`0` is a wall, `'P'` a corridor, `'ENTRY'`/`'EXIT'` themselves, anything
else (any other number) a floor. -/
def tileKindOf : TileVal → TileKind
  | .num 0 => .WALL
  | .corr => .CORRIDOR
  | .entryT => .ENTRY
  | .exitT => .EXIT
  | .num _ => .FLOOR

/-- `getTileAt(x, y)`: `some none` models the JS `null` return, the outer
`none` a thrown `TypeError` (reading `.type` of an undefined cell). -/
def getTileAt (colCount rowCount : Nat) (b : Board) (x y : Int) :
    Option (Option TileKind) :=
  if x < 0 ∨ x ≥ (colCount : Int) ∨ y < 0 ∨ y ≥ (rowCount : Int) then some none
  else match b.read x y with
    | none => none
    | some none => none
    | some (some t) => some (some (tileKindOf t))

/-- `isWalkable(x, y)`: `return tile && tile.type !== 'WALL'` — for an
out-of-bounds position this evaluates to `null`, not `false`. -/
def isWalkable (colCount rowCount : Nat) (b : Board) (x y : Int) : Option JsVal :=
  match getTileAt colCount rowCount b x y with
  | none => none
  | some none => some .vNull
  | some (some k) => some (.vBool (decide (k ≠ .WALL)))

/-! ### Board access lemmas -/

/-- A board is filled for the given bounds when every in-range cell holds a
value (no holes, columns long enough) — true for every board the generator
builds from `Board.init` by writes. -/
def BoardFilled (b : Board) (cols rows : Nat) : Prop :=
  ∀ x y : Int, 0 ≤ x → x < (cols : Int) → 0 ≤ y → y < (rows : Int) →
    ∃ t, b.read x y = some (some t)

theorem Column.init_read (rows : Nat) (y : Int) (h0 : 0 ≤ y) (h1 : y < (rows : Int)) :
    (Column.init rows).read y = some (TileVal.num 0) := by
  have hy : y.toNat < rows := by omega
  simp [Column.init, Column.read, h0, List.get?_eq_getElem?, List.getElem?_replicate, hy]

theorem Board.col?_init (cols rows : Nat) (x : Int) (h0 : 0 ≤ x) (h1 : x < (cols : Int)) :
    (Board.init cols rows).col? x = some (Column.init rows) := by
  have hx : x.toNat < cols := by omega
  simp [Board.init, Board.col?, h0, List.get?_eq_getElem?, List.getElem?_map,
    List.getElem?_range, hx]

theorem Board.read_init (cols rows : Nat) (x y : Int) (h0 : 0 ≤ x) (h1 : x < (cols : Int))
    (h2 : 0 ≤ y) (h3 : y < (rows : Int)) :
    (Board.init cols rows).read x y = some (some (TileVal.num 0)) := by
  rw [Board.read, Board.col?_init cols rows x h0 h1]
  simp [Column.init_read rows y h2 h3]

theorem boardInit_filled (cols rows : Nat) : BoardFilled (Board.init cols rows) cols rows :=
  fun x y h0 h1 h2 h3 => ⟨TileVal.num 0, Board.read_init cols rows x y h0 h1 h2 h3⟩

theorem Column.read_write_self (c : Column) (y : Int) (v : TileVal) :
    (c.write y v).read y = some v := by
  simp [Column.write, Column.read, List.find?_cons]

theorem Column.read_write_other (c : Column) (y z : Int) (v : TileVal) (h : z ≠ y) :
    (c.write y v).read z = c.read z := by
  simp only [Column.write, Column.read, List.find?_cons]
  have hne : ¬ (y = z) := fun hh => h hh.symm
  simp [hne]

/-- `Board.write` succeeds exactly on existing columns. -/
theorem Board.write_isSome (b : Board) (x y : Int) (v : TileVal) :
    (b.write x y v).isSome ↔ (b.col? x).isSome := by
  unfold Board.write
  cases b.col? x <;> simp

theorem Board.col?_set (b : Board) (x : Int) (c : Column) (hx : 0 ≤ x)
    (h : b.col? x = some c) (z : Int) (v : TileVal) :
    ∀ b2, b.write x z v = some b2 →
      (b2.col? x = some (c.write z v) ∧ ∀ w : Int, w ≠ x → b2.col? w = b.col? w) := by
  intro b2 hw
  unfold Board.write at hw
  rw [h] at hw
  simp only [Option.some.injEq] at hw
  subst hw
  constructor
  · unfold Board.col? at h ⊢
    rw [if_pos hx] at h ⊢
    have hlen : x.toNat < b.length := (List.get?_eq_some.mp h).1
    simp [List.get?_eq_getElem?, List.getElem?_set_self, hlen,
      (List.get?_eq_getElem? b x.toNat) ▸ h]
  · intro w hwx
    unfold Board.col?
    by_cases hw0 : 0 ≤ w
    · rw [if_pos hw0, if_pos hw0]
      have hne : x.toNat ≠ w.toNat := by omega
      simp [List.get?_eq_getElem?, List.getElem?_set_ne, hne]
    · rw [if_neg hw0, if_neg hw0]

/-- Reads after a successful write: the written cell holds the value, all
other cells are unchanged. -/
theorem Board.read_write (b b2 : Board) (x y : Int) (v : TileVal)
    (hw : b.write x y v = some b2) :
    b2.read x y = some (some v) ∧
      ∀ z w : Int, ¬(z = x ∧ w = y) → b2.read z w = b.read z w := by
  have hx : 0 ≤ x := by
    by_contra hneg
    unfold Board.write Board.col? at hw
    rw [if_neg hneg] at hw
    simp at hw
  obtain ⟨c, hc⟩ : ∃ c, b.col? x = some c := by
    unfold Board.write at hw
    cases h : b.col? x
    · rw [h] at hw; simp at hw
    · exact ⟨_, rfl⟩
  obtain ⟨h1, h2⟩ := Board.col?_set b x c hx hc y v b2 hw
  constructor
  · rw [Board.read, h1]
    simp [Column.read_write_self]
  · intro z w hzw
    by_cases hz : z = x
    · subst hz
      have hwy : w ≠ y := fun hh => hzw ⟨rfl, hh⟩
      rw [Board.read, h1, Board.read, hc]
      simp [Column.read_write_other c y w v hwy]
    · rw [Board.read, h2 z hz, Board.read]

/-- A successful write preserves filledness. -/
theorem BoardFilled.write (b b2 : Board) (cols rows : Nat) (x y : Int) (v : TileVal)
    (hb : BoardFilled b cols rows) (hw : b.write x y v = some b2) :
    BoardFilled b2 cols rows := by
  intro z w h0 h1 h2 h3
  obtain ⟨hself, hother⟩ := Board.read_write b b2 x y v hw
  by_cases hzw : z = x ∧ w = y
  · exact ⟨v, hzw.1 ▸ hzw.2 ▸ hself⟩
  · obtain ⟨t, ht⟩ := hb z w h0 h1 h2 h3
    exact ⟨t, (hother z w hzw).trans ht⟩

/-! ## Claim C9 — `getTileAt` / `isWalkable` -/

/-- C9 (amended): for a hole-free board of the advertised dimensions,
`getTileAt` returns `null` exactly off the board and a tile kind exactly on
it; `isWalkable` returns the boolean `true` exactly for an in-bounds
non-wall tile, but for an out-of-bounds position it returns `null` (the JS
expression `tile && tile.type !== 'WALL'` evaluates to its first operand),
not the boolean `false` the claim asserts. -/
theorem c9_tile_queries (colCount rowCount : Nat) (b : Board)
    (hb : BoardFilled b colCount rowCount) (x y : Int) :
    (getTileAt colCount rowCount b x y = some none ↔
      (x < 0 ∨ (colCount : Int) ≤ x ∨ y < 0 ∨ (rowCount : Int) ≤ y)) ∧
    ((∃ k, getTileAt colCount rowCount b x y = some (some k)) ↔
      (0 ≤ x ∧ x < (colCount : Int) ∧ 0 ≤ y ∧ y < (rowCount : Int))) ∧
    (isWalkable colCount rowCount b x y = some (JsVal.vBool true) ↔
      (0 ≤ x ∧ x < (colCount : Int) ∧ 0 ≤ y ∧ y < (rowCount : Int) ∧
        ∃ t, b.read x y = some (some t) ∧ t ≠ TileVal.num 0)) ∧
    ((x < 0 ∨ (colCount : Int) ≤ x ∨ y < 0 ∨ (rowCount : Int) ≤ y) →
      isWalkable colCount rowCount b x y = some JsVal.vNull) := by
  by_cases hoob : x < 0 ∨ x ≥ (colCount : Int) ∨ y < 0 ∨ y ≥ (rowCount : Int)
  · have hg : getTileAt colCount rowCount b x y = some none := by
      unfold getTileAt
      rw [if_pos hoob]
    refine ⟨⟨fun _ => hoob, fun _ => hg⟩, ?_, ?_, ?_⟩
    · constructor
      · rintro ⟨k, hk⟩
        rw [hg] at hk
        exact absurd hk (by simp)
      · intro hin
        omega
    · constructor
      · intro hw
        unfold isWalkable at hw
        rw [hg] at hw
        exact absurd hw (by simp)
      · rintro ⟨_, _, _, _, _⟩
        omega
    · intro _
      unfold isWalkable
      rw [hg]
  · push_neg at hoob
    obtain ⟨h0, h1, h2, h3⟩ := hoob
    obtain ⟨t, ht⟩ := hb x y h0 h1 h2 h3
    have hcond : ¬ (x < 0 ∨ x ≥ (colCount : Int) ∨ y < 0 ∨ y ≥ (rowCount : Int)) := by omega
    have hg : getTileAt colCount rowCount b x y = some (some (tileKindOf t)) := by
      simp only [getTileAt, if_neg hcond, ht]
    have hkind_wall : tileKindOf t = TileKind.WALL ↔ t = TileVal.num 0 := by
      rcases t with n | _ | _ | _
      · rcases eq_or_ne n 0 with h | h
        · subst h; simp [tileKindOf]
        · have hfloor : tileKindOf (TileVal.num n) = TileKind.FLOOR := by
            rcases n with ⟨k⟩ | k
            · cases k
              · exact absurd rfl h
              · rfl
            · rfl
          simp [hfloor, h]
      · simp [tileKindOf]
      · simp [tileKindOf]
      · simp [tileKindOf]
    refine ⟨?_, ?_, ?_, ?_⟩
    · rw [hg]
      constructor
      · intro hh
        exact absurd hh (by simp)
      · intro hh
        omega
    · constructor
      · intro _
        exact ⟨h0, h1, h2, h3⟩
      · intro _
        exact ⟨_, hg⟩
    · unfold isWalkable
      rw [hg]
      simp only [Option.some.injEq]
      constructor
      · intro hv
        refine ⟨h0, h1, h2, h3, t, ht, ?_⟩
        intro hteq
        rw [← hkind_wall] at hteq
        simp [hteq] at hv
      · rintro ⟨_, _, _, _, t2, ht2, ht2ne⟩
        rw [ht] at ht2
        have ht2t : t2 = t := by
          injection ht2 with ht2a
          injection ht2a with ht2b
          exact ht2b.symm
        subst ht2t
        have : ¬ (tileKindOf t2 = TileKind.WALL) := fun hh => ht2ne (hkind_wall.mp hh)
        simp [this]
    · intro hh
      omega

/-- C9 counterexample: on the generator's initial board, `isWalkable(-1, 0)`
returns `null`, which is not the boolean `false` (nor `true`), refuting
"returns a boolean that is … false otherwise". -/
theorem c9_counterexample :
    isWalkable 20 20 (Board.init 20 20) (-1) 0 = some JsVal.vNull ∧
    JsVal.vNull ≠ JsVal.vBool false ∧ JsVal.vNull ≠ JsVal.vBool true := by
  refine ⟨rfl, by simp, by simp⟩

/-- C9 witness: the amended theorem applied to the initial 20×20 board at an
in-bounds and an out-of-bounds coordinate. -/
theorem c9_witness :
    (∃ k, getTileAt 20 20 (Board.init 20 20) 1 1 = some (some k)) ∧
    isWalkable 20 20 (Board.init 20 20) 25 3 = some JsVal.vNull := by
  constructor
  · exact (c9_tile_queries 20 20 (Board.init 20 20) (boardInit_filled 20 20) 1 1).2.1.mpr
      (by norm_num)
  · exact (c9_tile_queries 20 20 (Board.init 20 20) (boardInit_filled 20 20) 25 3).2.2.2
      (by norm_num)

/-! ## Claim C2 — the validator's acceptance predicate -/

/-- C2: a generation attempt is marked valid iff the flood fill started from
a uniformly random point-list element visits exactly as many tiles as there
are non-wall tiles on the board AND `roomCount ≥ gridCount / 2` holds with
real (rational) division — equivalently, `2 * roomCount ≥ gridCount`;
failing either predicate yields `false`. -/
theorem c2_validation_predicate (colCount rowCount : Nat) (b : Board)
    (points : List PointObj) (gridCount roomCount : Nat) (rng rng2 : Rng)
    (checked : List Pt)
    (h : validationFlood colCount rowCount b points rng = some (checked, rng2)) :
    validateDungeon colCount rowCount b points gridCount roomCount rng =
      some (((decide (checked.length = b.floorCount) &&
        decide ((roomCount : ℚ) ≥ (gridCount : ℚ) / 2)) : Bool), rng2) ∧
    ((decide (checked.length = b.floorCount) &&
        decide ((roomCount : ℚ) ≥ (gridCount : ℚ) / 2)) = true ↔
      (checked.length = b.floorCount ∧ 2 * roomCount ≥ gridCount)) := by
  have hdiv : ((roomCount : ℚ) ≥ (gridCount : ℚ) / 2) ↔ 2 * roomCount ≥ gridCount := by
    rw [ge_iff_le, div_le_iff₀ (by norm_num : (0 : ℚ) < 2)]
    constructor
    · intro hh
      have : (gridCount : ℚ) ≤ ((2 * roomCount : ℕ) : ℚ) := by
        push_cast
        linarith
      exact_mod_cast this
    · intro hh
      have : (gridCount : ℚ) ≤ ((2 * roomCount : ℕ) : ℚ) := by exact_mod_cast hh
      push_cast at this
      linarith
  constructor
  · unfold validateDungeon
    unfold rbind
    rw [h]
    dsimp only
    congr 2
    by_cases hc : checked.length = b.floorCount
    · rw [if_pos hc]
      by_cases hlt : (roomCount : ℚ) < (gridCount : ℚ) / 2
      · rw [if_pos hlt]
        have : ¬ ((roomCount : ℚ) ≥ (gridCount : ℚ) / 2) := not_le.mpr hlt
        simp [hc, this]
      · rw [if_neg hlt]
        have : (roomCount : ℚ) ≥ (gridCount : ℚ) / 2 := not_lt.mp hlt
        simp [hc, this]
    · rw [if_neg hc]
      simp [hc]
  · constructor
    · intro hh
      simp only [Bool.and_eq_true, decide_eq_true_eq] at hh
      exact ⟨hh.1, hdiv.mp hh.2⟩
    · intro hh
      simp only [Bool.and_eq_true, decide_eq_true_eq]
      exact ⟨hh.1, hdiv.mpr hh.2⟩

/-- The all-zeros `Math.random` oracle used by concrete witness runs (it is
never consulted in seeded runs). -/
def extZero : Nat → Int := fun _ => 0

/-- A seeded PRNG state. -/
def seededRng (s : Int) : Rng := ⟨some s, extZero, 0⟩

/-- A tiny concrete board for the C2 witness: 3×3, one corridor tile. -/
def tinyBoard : Board := ((Board.init 3 3).write 1 1 TileVal.corr).getD (Board.init 3 3)

/-- C2 witness: on the tiny board the flood from the single point visits one
tile, which equals the floor count, and `1 ≥ 2 / 2`, so the attempt is
valid. -/
theorem c2_witness :
    validateDungeon 3 3 tinyBoard [⟨1, 1, 0⟩] 2 1 (seededRng 5) =
      some (true, seededRng 95802) ∧ 2 * 1 ≥ 2 := by
  obtain ⟨h1, _⟩ := c2_validation_predicate 3 3 tinyBoard [⟨1, 1, 0⟩] 2 1 (seededRng 5)
    (seededRng 95802) [⟨1, 1⟩] rfl
  constructor
  · rw [h1]
    have hn : tinyBoard.floorCount = 1 := by rfl
    have hq : ((1 : ℕ) : ℚ) ≥ ((2 : ℕ) : ℚ) / 2 := by norm_num
    simp [hn, hq]
  · norm_num

/-! ## Claim C6 — room-count adjustment and grid partitioning -/

/-- The adjustment loop body runs at most once, so it is equivalent to a
single conditional increment; in particular the fuel never runs out and the
result satisfies the loop's negated guard. -/
theorem adjustRoomCount_eq (n : Int) :
    adjustRoomCount n = if n.tmod 2 ≠ 0 ∧ n.tmod 3 ≠ 0 then n + 1 else n := by
  by_cases h : n.tmod 2 ≠ 0 ∧ n.tmod 3 ≠ 0
  · have h2 : (n + 1).tmod 2 = 0 := tmod_two_succ n h.1
    have hc2 : ¬ ((n + 1).tmod 2 ≠ 0 ∧ (n + 1).tmod 3 ≠ 0) := by simp [h2]
    simp [adjustRoomCount, adjustRoomCountAux, h, hc2]
  · simp [adjustRoomCount, adjustRoomCountAux, h]

/-- One step of a fold that pushes an element carrying the current length. -/
theorem inner_fold_closed {A : Type} (g : Nat → Nat → A) (m : Nat) (acc : List A) :
    (List.range m).foldl (fun a2 j => a2 ++ [g j a2.length]) acc
      = acc ++ (List.range m).map (fun j => g j (acc.length + j)) := by
  induction m with
  | zero => simp
  | succ m ih =>
    rw [List.range_succ m, List.foldl_append, ih, List.map_append]
    simp [List.append_assoc]

/-- Length of the flattened band structure. -/
theorem flatten_map_length {A : Type} (f : Nat → List A) (m : Nat)
    (hf : ∀ i, (f i).length = m) (d : Nat) :
    ((List.range d).map f).flatten.length = d * m := by
  induction d with
  | zero => simp
  | succ d ih =>
    have hrs : List.range (d + 1) = List.range d ++ [d] := List.range_succ d
    rw [hrs, List.map_append, List.flatten_append, List.length_append, ih]
    simp [hf, Nat.succ_mul]

/-- Closed form of the nested push loops of `#createGrid`. -/
theorem double_fold_closed {A : Type} (g : Nat → Nat → Nat → A) (m : Nat) :
    ∀ (d : Nat) (acc : List A),
      (List.range d).foldl
          (fun a i => (List.range m).foldl (fun a2 j => a2 ++ [g i j a2.length]) a) acc
        = acc ++ ((List.range d).map (fun i =>
            (List.range m).map (fun j => g i j (acc.length + m * i + j)))).flatten := by
  intro d
  induction d with
  | zero => simp
  | succ d ih =>
    intro acc
    have hrs : List.range (d + 1) = List.range d ++ [d] := List.range_succ d
    rw [hrs, List.foldl_append]
    simp only [List.foldl_cons, List.foldl_nil]
    rw [ih acc]
    have hlen2 : ((List.range d).map (fun i =>
        (List.range m).map (fun j => g i j (acc.length + m * i + j)))).flatten.length
          = d * m :=
      flatten_map_length _ m (fun i => by simp) d
    have hlen : (acc ++ ((List.range d).map (fun i =>
        (List.range m).map (fun j => g i j (acc.length + m * i + j)))).flatten).length
        = acc.length + m * d := by
      rw [List.length_append, hlen2]
      ring
    rw [inner_fold_closed (g d) m _, hlen]
    rw [List.map_append, List.flatten_append]
    simp [List.append_assoc]

/-- Appending an element whose `index` is the current length preserves
position-correct indexing. -/
theorem push_preserves_index (l : List Grid) (gr : Grid)
    (h : ∀ k g2, l.get? k = some g2 → g2.index = k) (hg : gr.index = l.length) :
    ∀ k g2, (l ++ [gr]).get? k = some g2 → g2.index = k := by
  intro k g2 hk
  rcases Nat.lt_trichotomy k l.length with hlt | heq | hgt
  · rw [List.get?_eq_getElem?, List.getElem?_append_left hlt, ← List.get?_eq_getElem?] at hk
    exact h k g2 hk
  · subst heq
    rw [List.get?_eq_getElem?, List.getElem?_append_right (le_refl _)] at hk
    simp at hk
    rw [← hk]
    exact hg
  · rw [List.get?_eq_getElem?, List.getElem?_append_right (by omega : l.length ≤ k)] at hk
    rw [List.getElem?_eq_none (by simp; omega)] at hk
    exact absurd hk (by simp)

/-- The nested push loops of `#createGrid` index grids in creation order. -/
theorem double_fold_index (builder : Nat → Nat → Nat → Grid)
    (hb : ∀ i j L, (builder i j L).index = L) (m : Nat) :
    ∀ (d : Nat) (acc : List Grid),
      (∀ k g2, acc.get? k = some g2 → g2.index = k) →
      ∀ k g2, ((List.range d).foldl
          (fun a i => (List.range m).foldl (fun a2 j => a2 ++ [builder i j a2.length]) a)
          acc).get? k = some g2 → g2.index = k := by
  have inner : ∀ (i : Nat) (mm : Nat) (acc : List Grid),
      (∀ k g2, acc.get? k = some g2 → g2.index = k) →
      ∀ k g2, ((List.range mm).foldl (fun a2 j => a2 ++ [builder i j a2.length]) acc).get? k
          = some g2 → g2.index = k := by
    intro i mm
    induction mm with
    | zero => intro acc h; simpa using h
    | succ mm ih =>
      intro acc h
      have hrs : List.range (mm + 1) = List.range mm ++ [mm] := List.range_succ mm
      rw [hrs, List.foldl_append]
      simp only [List.foldl_cons, List.foldl_nil]
      exact push_preserves_index _ _ (ih acc h) (hb _ _ _)
  intro d
  induction d with
  | zero => intro acc h; simpa using h
  | succ d ih =>
    intro acc h
    have hrs : List.range (d + 1) = List.range d ++ [d] := List.range_succ d
    rw [hrs, List.foldl_append]
    simp only [List.foldl_cons, List.foldl_nil]
    exact inner d m _ (ih acc h)

/-- C6: the sampled room count is incremented until divisible by 2 or by 3
(at most one increment, minimally), and `#createGrid` then produces, for the
adjusted count `R`: when `R` is even, 2 row-bands of `R / 2` column-slices
(grid `(i, j)` at `x = i * floor(colCount / (R/2))`,
`y = j * floor(rowCount / 2)`); otherwise 3 column-bands of `R / 3`
row-slices — `R.toNat` grids in total for a nonnegative sample, indexed in
creation order. -/
theorem c6_room_count_and_grid (n : Int) (rows cols : Nat) :
    ((adjustRoomCount n).tmod 2 = 0 ∨ (adjustRoomCount n).tmod 3 = 0) ∧
    (n ≤ adjustRoomCount n) ∧
    (∀ m : Int, n ≤ m → m < adjustRoomCount n → (m.tmod 2 ≠ 0 ∧ m.tmod 3 ≠ 0)) ∧
    (∀ R : Int, R.tmod 2 = 0 →
      createGrid R rows cols = ((List.range (R / 2).toNat).map (fun (i : Nat) =>
        (List.range 2).map (fun (j : Nat) =>
          (⟨(i : Int) * ((cols : Int).fdiv (R / 2)), (j : Int) * ((rows : Int) / 2),
            (cols : Int).fdiv (R / 2), (rows : Int) / 2, 2 * i + j⟩ : Grid)))).flatten) ∧
    (∀ R : Int, R.tmod 2 ≠ 0 →
      createGrid R rows cols = ((List.range (R / 3).toNat).map (fun (i : Nat) =>
        (List.range 3).map (fun (j : Nat) =>
          (⟨(j : Int) * ((cols : Int) / 3), (i : Int) * ((rows : Int).fdiv (R / 3)),
            (cols : Int) / 3, (rows : Int).fdiv (R / 3), 3 * i + j⟩ : Grid)))).flatten) ∧
    (0 ≤ n → (createGrid (adjustRoomCount n) rows cols).length = (adjustRoomCount n).toNat) ∧
    (∀ R : Int, ∀ k g2, (createGrid R rows cols).get? k = some g2 → g2.index = k) := by
  have hadj := adjustRoomCount_eq n
  have heven : ∀ R : Int, R.tmod 2 = 0 →
      createGrid R rows cols = ((List.range (R / 2).toNat).map (fun (i : Nat) =>
        (List.range 2).map (fun (j : Nat) =>
          (⟨(i : Int) * ((cols : Int).fdiv (R / 2)), (j : Int) * ((rows : Int) / 2),
            (cols : Int).fdiv (R / 2), (rows : Int) / 2, 2 * i + j⟩ : Grid)))).flatten := by
    intro R hR
    unfold createGrid
    rw [if_pos hR]
    rw [double_fold_closed (fun i j L =>
      (⟨(i : Int) * ((cols : Int).fdiv (R / 2)), (j : Int) * ((rows : Int) / 2),
        (cols : Int).fdiv (R / 2), (rows : Int) / 2, L⟩ : Grid)) 2 (R / 2).toNat []]
    simp
  have hodd : ∀ R : Int, R.tmod 2 ≠ 0 →
      createGrid R rows cols = ((List.range (R / 3).toNat).map (fun (i : Nat) =>
        (List.range 3).map (fun (j : Nat) =>
          (⟨(j : Int) * ((cols : Int) / 3), (i : Int) * ((rows : Int).fdiv (R / 3)),
            (cols : Int) / 3, (rows : Int).fdiv (R / 3), 3 * i + j⟩ : Grid)))).flatten := by
    intro R hR
    unfold createGrid
    rw [if_neg hR]
    rw [double_fold_closed (fun i j L =>
      (⟨(j : Int) * ((cols : Int) / 3), (i : Int) * ((rows : Int).fdiv (R / 3)),
        (cols : Int) / 3, (rows : Int).fdiv (R / 3), L⟩ : Grid)) 3 (R / 3).toNat []]
    simp
  refine ⟨?_, ?_, ?_, heven, hodd, ?_, ?_⟩
  · rw [hadj]
    by_cases h : n.tmod 2 ≠ 0 ∧ n.tmod 3 ≠ 0
    · rw [if_pos h]
      exact Or.inl (tmod_two_succ n h.1)
    · rw [if_neg h]
      push_neg at h
      by_cases h2 : n.tmod 2 = 0
      · exact Or.inl h2
      · exact Or.inr (h h2)
  · rw [hadj]
    by_cases h : n.tmod 2 ≠ 0 ∧ n.tmod 3 ≠ 0
    · rw [if_pos h]; omega
    · rw [if_neg h]
  · intro m hm1 hm2
    rw [hadj] at hm2
    by_cases h : n.tmod 2 ≠ 0 ∧ n.tmod 3 ≠ 0
    · rw [if_pos h] at hm2
      have : m = n := by omega
      subst this
      exact h
    · rw [if_neg h] at hm2
      omega
  · intro hn
    set R := adjustRoomCount n with hR
    have hRnn : 0 ≤ R := by rw [hadj]; by_cases h : n.tmod 2 ≠ 0 ∧ n.tmod 3 ≠ 0
                            all_goals simp [h]; omega
    by_cases h2 : R.tmod 2 = 0
    · rw [heven R h2, flatten_map_length _ 2 (by intro i; simp) _]
      have hdvd : (2 : Int) ∣ R := Int.dvd_of_tmod_eq_zero h2
      have : 2 * (R / 2) = R := Int.mul_ediv_cancel' hdvd
      omega
    · have hdd : R.tmod 2 = 0 ∨ R.tmod 3 = 0 := by
        rw [hadj]
        by_cases h : n.tmod 2 ≠ 0 ∧ n.tmod 3 ≠ 0
        · rw [if_pos h]
          exact Or.inl (tmod_two_succ n h.1)
        · rw [if_neg h]
          push_neg at h
          by_cases hh2 : n.tmod 2 = 0
          · exact Or.inl hh2
          · exact Or.inr (h hh2)
      have h3 : R.tmod 3 = 0 := by
        rcases hdd with hh | hh
        · exact absurd hh h2
        · exact hh
      rw [hodd R h2, flatten_map_length _ 3 (by intro i; simp) _]
      have hdvd : (3 : Int) ∣ R := Int.dvd_of_tmod_eq_zero h3
      have : 3 * (R / 3) = R := Int.mul_ediv_cancel' hdvd
      omega
  · intro R
    unfold createGrid
    by_cases hR : R.tmod 2 = 0
    · rw [if_pos hR]
      exact double_fold_index _ (fun i j L => rfl) 2 (R / 2).toNat [] (by simp)
    · rw [if_neg hR]
      exact double_fold_index _ (fun i j L => rfl) 3 (R / 3).toNat [] (by simp)

/-- C6 witness: a sampled count of 5 is adjusted to 6 (even), and the grid
list for a 20×20 board has exactly `6` entries, indexed in creation
order. -/
theorem c6_witness :
    (adjustRoomCount 5).tmod 2 = 0 ∧
    (createGrid (adjustRoomCount 5) 20 20).length = (adjustRoomCount 5).toNat ∧
    (⟨6, 10, 6, 10, 3⟩ : Grid).index = 3 := by
  obtain ⟨_, _, _, _, _, hlen, hidx⟩ := c6_room_count_and_grid 5 20 20
  exact ⟨by decide, hlen (by norm_num),
    hidx (adjustRoomCount 5) 3 ⟨6, 10, 6, 10, 3⟩ (by decide)⟩

/-! ## Claim C3 — validity of a candidate room rectangle -/

/-- The overlap test the scan actually performs on a cell:
`board[x][y].type > 0` blocks (only positive numbers block; the corridor
string `'P'` compares `NaN > 0 = false` and does not). -/
def cellFreeB (b : Board) (x y : Int) : Bool :=
  match b.read x y with
  | some (some t) => ! t.gtZero
  | _ => true

/-- A cell passes all three checks of the scan: in bounds, not blocking, not
on the grid border. -/
def cellOkP (b : Board) (cc rc : Nat) (grid : Grid) (x y : Int) : Prop :=
  (0 ≤ x ∧ x < (cc : Int) ∧ 0 ≤ y ∧ y < (rc : Int)) ∧
  cellFreeB b x y = true ∧
  ¬(x = grid.x ∨ x = grid.x + grid.width - 1 ∨ y = grid.y ∨ y = grid.y + grid.height - 1)

instance (b : Board) (cc rc : Nat) (grid : Grid) (x y : Int) :
    Decidable (cellOkP b cc rc grid x y) := by
  unfold cellOkP
  infer_instance

/-- Under a filled board, a column scan always returns (no `TypeError`). -/
theorem scanColumn_total (b : Board) (cc rc : Nat) (grid : Grid) (point : PointObj)
    (x : Int) (hb : BoardFilled b cc rc) :
    ∀ (k : Nat) (y : Int) (op : Bool), ∃ r, scanColumn b cc rc grid point x k y op = some r := by
  intro k
  induction k with
  | zero => intro y op; exact ⟨(true, op), rfl⟩
  | succ k ih =>
    intro y op
    unfold scanColumn
    by_cases hoob : x < 0 ∨ x ≥ (cc : Int) ∨ y < 0 ∨ y ≥ (rc : Int)
    · rw [if_pos hoob]
      exact ⟨(false, op), rfl⟩
    · rw [if_neg hoob]
      push_neg at hoob
      obtain ⟨t, ht⟩ := hb x y hoob.1 hoob.2.1 hoob.2.2.1 hoob.2.2.2
      rw [ht]
      dsimp only
      by_cases hgt : t.gtZero
      · rw [if_pos hgt]
        exact ⟨(false, op), rfl⟩
      · rw [if_neg hgt]
        by_cases hbd : x = grid.x ∨ x = grid.x + grid.width - 1 ∨ y = grid.y ∨
            y = grid.y + grid.height - 1
        · rw [if_pos hbd]
          exact ⟨(false, op), rfl⟩
        · rw [if_neg hbd]
          exact ih (y + 1) _

/-- A column whose cells all pass scans to `(true, _)` and accumulates
`onPoint` over exactly its cells. -/
theorem scanColumn_pass (b : Board) (cc rc : Nat) (grid : Grid) (point : PointObj)
    (x : Int) (hb : BoardFilled b cc rc) :
    ∀ (k : Nat) (y : Int) (op : Bool),
      (∀ j : Nat, j < k → cellOkP b cc rc grid x (y + j)) →
      scanColumn b cc rc grid point x k y op =
        some (true, op || decide (∃ j : Nat, j < k ∧ x = point.x ∧ y + j = point.y)) := by
  intro k
  induction k with
  | zero =>
    intro y op hcell
    simp [scanColumn]
  | succ k ih =>
    intro y op hcell
    obtain ⟨hbounds, hfree, hborder⟩ := hcell 0 (by omega)
    simp only [Nat.cast_zero, add_zero] at hbounds hfree hborder
    have hoob : ¬ (x < 0 ∨ x ≥ (cc : Int) ∨ y < 0 ∨ y ≥ (rc : Int)) := by omega
    obtain ⟨t, ht⟩ := hb x y (by omega) (by omega) (by omega) (by omega)
    have hgt : t.gtZero = false := by
      unfold cellFreeB at hfree
      rw [ht] at hfree
      simpa using hfree
    unfold scanColumn
    rw [if_neg hoob, ht]
    dsimp only
    rw [if_neg (by simp [hgt]), if_neg hborder]
    rw [ih (y + 1) _ (fun j hj => by
      have := hcell (j + 1) (by omega)
      simpa [add_assoc, add_comm, add_left_comm] using this)]
    congr 1
    congr 1
    rw [Bool.or_assoc]
    congr 1
    have hiff : ((x = point.x ∧ y = point.y) ∨
        (∃ j : Nat, j < k ∧ x = point.x ∧ (y + 1) + j = point.y)) ↔
        (∃ j : Nat, j < k + 1 ∧ x = point.x ∧ y + j = point.y) := by
      constructor
      · rintro (⟨hx, hy⟩ | ⟨j, hj, hx, hy⟩)
        · exact ⟨0, by omega, hx, by omega⟩
        · exact ⟨j + 1, by omega, hx, by omega⟩
      · rintro ⟨j, hj, hx, hy⟩
        rcases Nat.eq_zero_or_pos j with h0 | hpos
        · subst h0
          exact Or.inl ⟨hx, by omega⟩
        · exact Or.inr ⟨j - 1, by omega, hx, by omega⟩
    by_cases h1 : x = point.x ∧ y = point.y
    · have h3 : ∃ j : Nat, j < k + 1 ∧ x = point.x ∧ y + (j : Int) = point.y :=
        hiff.mp (Or.inl h1)
      simp [h1, h3]
    · by_cases h2 : ∃ j : Nat, j < k ∧ x = point.x ∧ (y + 1) + (j : Int) = point.y
      · have h3 := hiff.mp (Or.inr h2)
        simp [h1, h2, h3]
      · have h3 : ¬ ∃ j : Nat, j < k + 1 ∧ x = point.x ∧ y + (j : Int) = point.y := fun hc =>
          (hiff.mpr hc).elim h1 h2
        simp [h1, h2, h3]

/-- A column with a failing cell scans to `(false, _)`. -/
theorem scanColumn_fail (b : Board) (cc rc : Nat) (grid : Grid) (point : PointObj)
    (x : Int) (hb : BoardFilled b cc rc) :
    ∀ (k : Nat) (y : Int) (op : Bool),
      (∃ j : Nat, j < k ∧ ¬ cellOkP b cc rc grid x (y + j)) →
      ∃ op2, scanColumn b cc rc grid point x k y op = some (false, op2) := by
  intro k
  induction k with
  | zero =>
    rintro y op ⟨j, hj, _⟩
    omega
  | succ k ih =>
    rintro y op ⟨j, hj, hfail⟩
    by_cases h0 : cellOkP b cc rc grid x y
    · obtain ⟨hbounds, hfree, hborder⟩ := h0
      have hoob : ¬ (x < 0 ∨ x ≥ (cc : Int) ∨ y < 0 ∨ y ≥ (rc : Int)) := by omega
      obtain ⟨t, ht⟩ := hb x y (by omega) (by omega) (by omega) (by omega)
      have hgt : t.gtZero = false := by
        unfold cellFreeB at hfree
        rw [ht] at hfree
        simpa using hfree
      unfold scanColumn
      rw [if_neg hoob, ht]
      dsimp only
      rw [if_neg (by simp [hgt]), if_neg hborder]
      apply ih (y + 1)
      have hjpos : j ≠ 0 := by
        intro hz
        subst hz
        simp only [Nat.cast_zero, add_zero] at hfail
        exact hfail ⟨hbounds, hfree, hborder⟩
      refine ⟨j - 1, by omega, ?_⟩
      have : (y + 1) + ((j : Nat) - 1 : Nat) = y + j := by
        have : 1 ≤ j := by omega
        push_cast [Nat.cast_sub this]
        ring
      rw [this]
      exact hfail
    · unfold scanColumn
      unfold cellOkP at h0
      push_neg at h0
      by_cases hoob : x < 0 ∨ x ≥ (cc : Int) ∨ y < 0 ∨ y ≥ (rc : Int)
      · rw [if_pos hoob]
        exact ⟨op, rfl⟩
      · rw [if_neg hoob]
        push_neg at hoob
        obtain ⟨t, ht⟩ := hb x y hoob.1 hoob.2.1 hoob.2.2.1 hoob.2.2.2
        rw [ht]
        dsimp only
        have hb2 := h0 (by omega)
        by_cases hgt : t.gtZero
        · rw [if_pos hgt]
          exact ⟨op, rfl⟩
        · have hfree : cellFreeB b x y = true := by
            unfold cellFreeB
            rw [ht]
            simp [hgt]
          have hbd := hb2 hfree
          rw [if_neg hgt, if_pos hbd]
          exact ⟨op, rfl⟩

/-- Once `validPosition` is false it stays false for the remaining columns
(an inner `break` does not stop the outer loop). -/
theorem scanCols_false (b : Board) (cc rc : Nat) (grid : Grid) (point : PointObj)
    (roomY : Int) (h : Nat) (hb : BoardFilled b cc rc) :
    ∀ (kw : Nat) (x : Int) (op : Bool),
      ∃ op2, scanCols b cc rc grid point roomY h kw x false op = some (false, op2) := by
  intro kw
  induction kw with
  | zero => intro x op; exact ⟨op, rfl⟩
  | succ kw ih =>
    intro x op
    obtain ⟨⟨colOk, op2⟩, hcol⟩ := scanColumn_total b cc rc grid point x hb h roomY op
    unfold scanCols
    rw [hcol]
    simpa using ih (x + 1) op2

/-- A rectangle whose cells all pass scans every cell and accumulates
`onPoint` over all of them. -/
theorem scanCols_pass (b : Board) (cc rc : Nat) (grid : Grid) (point : PointObj)
    (roomY : Int) (h : Nat) (hb : BoardFilled b cc rc) :
    ∀ (kw : Nat) (x : Int) (valid op : Bool),
      (∀ i j : Nat, i < kw → j < h → cellOkP b cc rc grid (x + i) (roomY + j)) →
      scanCols b cc rc grid point roomY h kw x valid op =
        some (valid, op || decide (∃ i : Nat, i < kw ∧ ∃ j : Nat, j < h ∧
          (x + i = point.x ∧ roomY + j = point.y))) := by
  intro kw
  induction kw with
  | zero =>
    intro x valid op hcell
    simp [scanCols]
  | succ kw ih =>
    intro x valid op hcell
    have hcol := scanColumn_pass b cc rc grid point x hb h roomY op
      (fun j hj => by simpa using hcell 0 j (by omega) hj)
    unfold scanCols
    rw [hcol]
    dsimp only
    rw [ih (x + 1) (valid && true) _ (fun i j hi hj => by
      have := hcell (i + 1) j (by omega) hj
      simpa [add_assoc, add_comm, add_left_comm] using this)]
    simp only [Bool.and_true]
    congr 1
    rw [Bool.or_assoc]
    congr 1
    have hiff : ((∃ j : Nat, j < h ∧ (x = point.x ∧ roomY + (j : Int) = point.y)) ∨
        (∃ i : Nat, i < kw ∧ ∃ j : Nat, j < h ∧
          ((x + 1) + (i : Int) = point.x ∧ roomY + (j : Int) = point.y))) ↔
        (∃ i : Nat, i < kw + 1 ∧ ∃ j : Nat, j < h ∧
          (x + (i : Int) = point.x ∧ roomY + (j : Int) = point.y)) := by
      constructor
      · rintro (⟨j, hj, hx, hy⟩ | ⟨i, hi, j, hj, hx, hy⟩)
        · exact ⟨0, by omega, j, hj, by omega, hy⟩
        · exact ⟨i + 1, by omega, j, hj, by push_cast; omega, hy⟩
      · rintro ⟨i, hi, j, hj, hx, hy⟩
        rcases Nat.eq_zero_or_pos i with h0 | hpos
        · subst h0
          exact Or.inl ⟨j, hj, by push_cast at hx; omega, hy⟩
        · exact Or.inr ⟨i - 1, by omega, j, hj, by omega, hy⟩
    by_cases h1 : ∃ j : Nat, j < h ∧ (x = point.x ∧ roomY + (j : Int) = point.y)
    · have h3 := hiff.mp (Or.inl h1)
      simp [h1, h3]
    · by_cases h2 : ∃ i : Nat, i < kw ∧ ∃ j : Nat, j < h ∧
          ((x + 1) + (i : Int) = point.x ∧ roomY + (j : Int) = point.y)
      · have h3 := hiff.mp (Or.inr h2)
        simp [h1, h2, h3]
      · have h3 : ¬ ∃ i : Nat, i < kw + 1 ∧ ∃ j : Nat, j < h ∧
            (x + (i : Int) = point.x ∧ roomY + (j : Int) = point.y) := fun hc =>
          (hiff.mpr hc).elim h1 h2
        simp [h1, h2, h3]

/-- A rectangle with any failing cell scans to `validPosition = false`. -/
theorem scanCols_fail (b : Board) (cc rc : Nat) (grid : Grid) (point : PointObj)
    (roomY : Int) (h : Nat) (hb : BoardFilled b cc rc) :
    ∀ (kw : Nat) (x : Int) (valid op : Bool),
      (∃ i : Nat, i < kw ∧ ∃ j : Nat, j < h ∧ ¬ cellOkP b cc rc grid (x + i) (roomY + j)) →
      ∃ op2, scanCols b cc rc grid point roomY h kw x valid op = some (false, op2) := by
  intro kw
  induction kw with
  | zero =>
    rintro x valid op ⟨i, hi, _⟩
    omega
  | succ kw ih =>
    rintro x valid op ⟨i, hi, j, hj, hfail⟩
    by_cases hcol0 : ∃ j2 : Nat, j2 < h ∧ ¬ cellOkP b cc rc grid x (roomY + j2)
    · obtain ⟨op2, hcol⟩ := scanColumn_fail b cc rc grid point x hb h roomY op hcol0
      unfold scanCols
      rw [hcol]
      dsimp only
      simpa using scanCols_false b cc rc grid point roomY h hb kw (x + 1) op2
    · push_neg at hcol0
      have hcolpass := scanColumn_pass b cc rc grid point x hb h roomY op
        (fun j2 hj2 => hcol0 j2 hj2)
      unfold scanCols
      rw [hcolpass]
      dsimp only
      apply ih (x + 1)
      have hipos : i ≠ 0 := by
        intro h0
        subst h0
        exact (hfail (by simpa using hcol0 j hj)).elim
      refine ⟨i - 1, by omega, j, hj, ?_⟩
      have heq : (x + 1) + ((i : Nat) - 1 : Nat) = x + i := by
        have h1 : 1 ≤ i := by omega
        push_cast [Nat.cast_sub h1]
        ring
      rw [heq]
      exact hfail

/-- C3 (amended): under a filled board, a candidate rectangle is accepted by
the placement scan (`validPosition && onPoint`) iff every one of its cells
is in bounds, holds no positive room/point-marker value — corridor `'P'`
tiles do not block, because the JS test is `type > 0` and `'P' > 0` is
false — and does not touch the grid border, and the rectangle covers the
grid's connection point. -/
theorem c3_candidate_acceptance (b : Board) (cc rc : Nat) (grid : Grid) (point : PointObj)
    (rx ry w h : Int) (hb : BoardFilled b cc rc) :
    ∃ v o, scanRect b cc rc grid point rx ry w h = some (v, o) ∧
      ((v && o) = true ↔
        ((∀ i j : Nat, i < w.toNat → j < h.toNat → cellOkP b cc rc grid (rx + i) (ry + j)) ∧
         (∃ i : Nat, i < w.toNat ∧ ∃ j : Nat, j < h.toNat ∧
            (rx + i = point.x ∧ ry + j = point.y)))) := by
  by_cases hall : ∀ i j : Nat, i < w.toNat → j < h.toNat → cellOkP b cc rc grid (rx + i) (ry + j)
  · have hpass := scanCols_pass b cc rc grid point ry h.toNat hb w.toNat rx true false
      (fun i j hi hj => hall i j hi hj)
    refine ⟨true, decide (∃ i : Nat, i < w.toNat ∧ ∃ j : Nat, j < h.toNat ∧
      (rx + i = point.x ∧ ry + j = point.y)), ?_, ?_⟩
    · unfold scanRect
      rw [hpass]
      simp
    · simp only [Bool.true_and, decide_eq_true_eq]
      constructor
      · intro hp
        exact ⟨hall, hp⟩
      · intro hp
        exact hp.2
  · push_neg at hall
    obtain ⟨i, j, hi, hj, hfail⟩ := hall
    obtain ⟨op2, hfl⟩ := scanCols_fail b cc rc grid point ry h.toNat hb w.toNat rx true false
      ⟨i, hi, j, hj, hfail⟩
    refine ⟨false, op2, hfl, ?_⟩
    simp only [Bool.false_and, Bool.false_eq_true, false_iff]
    rintro ⟨hall2, _⟩
    exact hfail (hall2 i j hi hj)

/-- The claim's own blocking test: "not already non-wall" — any non-wall
value would block.  This is the spec's wording, not the code's. -/
def cellWallOnlyB (b : Board) (x y : Int) : Bool :=
  match b.read x y with
  | some (some t) => ! t.isNonZero
  | _ => true

/-- The board for the C3 counterexample: all walls except a corridor tile at
(4, 4). -/
def c3pBoard : Board := ((Board.init 8 8).write 4 4 TileVal.corr).getD (Board.init 8 8)

/-- C3 counterexample: the 3×3 candidate at (2, 2) covering the point (3, 3)
contains the corridor tile at (4, 4) — "already non-wall" in the claim's
sense — yet the scan accepts it (`validPosition = true`, `onPoint = true`),
because `'P' > 0` is false in JS. -/
theorem c3_counterexample :
    scanRect c3pBoard 8 8 ⟨0, 0, 8, 8, 0⟩ ⟨3, 3, 0⟩ 2 2 3 3 = some (true, true) ∧
    c3pBoard.read 4 4 = some (some TileVal.corr) ∧
    cellWallOnlyB c3pBoard 4 4 = false ∧
    (2 : Int) ≤ 4 ∧ (4 : Int) < 2 + 3 ∧ (2 : Int) ≤ 4 ∧ (4 : Int) < 2 + 3 := by
  refine ⟨by decide, by decide, by decide, by decide, by decide, by decide, by decide⟩

/-- C3 witness: the amended acceptance theorem applied to the counterexample
board and candidate. -/
theorem c3_witness :
    scanRect c3pBoard 8 8 ⟨0, 0, 8, 8, 0⟩ ⟨3, 3, 0⟩ 2 2 3 3 = some (true, true) := by
  obtain ⟨v, o, heq, hiff⟩ := c3_candidate_acceptance c3pBoard 8 8 ⟨0, 0, 8, 8, 0⟩ ⟨3, 3, 0⟩
    2 2 3 3 (by
      intro x y h0 h1 h2 h3
      by_cases hc : x = 4 ∧ y = 4
      · exact ⟨TileVal.corr, by rw [hc.1, hc.2]; decide⟩
      · refine ⟨TileVal.num 0, ?_⟩
        have hw : (Board.init 8 8).write 4 4 TileVal.corr =
            some c3pBoard := by decide
        obtain ⟨_, hother⟩ := Board.read_write (Board.init 8 8) c3pBoard 4 4 TileVal.corr hw
        rw [hother x y hc]
        exact Board.read_init 8 8 x y h0 h1 h2 h3)
  have hvo : (v && o) = true := hiff.mpr (by
    constructor
    · intro i j hi hj
      have hi3 : i < 3 := by omega
      have hj3 : j < 3 := by omega
      interval_cases i <;> interval_cases j <;> decide
    · exact ⟨1, by omega, 1, by omega, by norm_num, by norm_num⟩)
  rw [heq]
  have hv : v = true := by
    cases v
    · simp at hvo
    · rfl
  have ho : o = true := by
    cases o
    · simp at hvo
    · rfl
  rw [hv, ho]

/-! ## Claim C4 — stamping after placement-loop exhaustion -/

/-- A nonnegative seed stays nonnegative across the LCG step. -/
theorem nextSeedVal_nonneg (s : Int) (h : 0 ≤ s) : 0 ≤ nextSeedVal s :=
  Int.tmod_nonneg 233280 (by omega)

/-- The LCG state is always below the modulus after a step from a
nonnegative seed. -/
theorem nextSeedVal_lt (s : Int) (_h : 0 ≤ s) : nextSeedVal s < 233280 :=
  Int.tmod_lt_of_pos _ (by norm_num)

/-- With the LCG state in range, a draw lies in the requested interval. -/
theorem seededVal_bounds (s lo hi : Int) (h0 : 0 ≤ s) (h1 : s < 233280) (hlh : lo ≤ hi) :
    lo ≤ seededVal s lo hi ∧ seededVal s lo hi ≤ hi := by
  unfold seededVal
  have hr : 0 < hi - lo + 1 := by omega
  have heq : (s * (hi - lo + 1)).fdiv 233280 = (s * (hi - lo + 1)) / 233280 :=
    Int.fdiv_eq_ediv _ (by norm_num)
  rw [heq]
  constructor
  · have hnn : 0 ≤ (s * (hi - lo + 1)) / 233280 :=
      Int.ediv_nonneg (mul_nonneg h0 (by omega)) (by norm_num)
    omega
  · have hlt : (s * (hi - lo + 1)) / 233280 < (hi - lo + 1) := by
      apply Int.ediv_lt_of_lt_mul (by norm_num)
      nlinarith [mul_lt_mul_of_pos_right h1 hr]
    omega

/-- `randomInt` on a seeded state, as an equation. -/
theorem randomInt_seeded (r : Rng) (s lo hi : Int) (hs : r.seed = some s) :
    r.randomInt lo hi = (seededVal (nextSeedVal s) lo hi,
      { r with seed := some (nextSeedVal s) }) := by
  unfold Rng.randomInt
  rw [hs]

/-- `randomInt` on a nonnegatively seeded state: the draw is in range and
the new state is again nonnegatively seeded and in range. -/
theorem randomInt_seeded_bounds (r : Rng) (s lo hi : Int) (hs : r.seed = some s)
    (h0 : 0 ≤ s) (hlh : lo ≤ hi) :
    lo ≤ (r.randomInt lo hi).1 ∧ (r.randomInt lo hi).1 ≤ hi ∧
    (r.randomInt lo hi).2.seed = some (nextSeedVal s) ∧ 0 ≤ nextSeedVal s ∧
    nextSeedVal s < 233280 := by
  rw [randomInt_seeded r s lo hi hs]
  have hb := seededVal_bounds (nextSeedVal s) lo hi (nextSeedVal_nonneg s h0)
    (nextSeedVal_lt s h0) hlh
  exact ⟨hb.1, hb.2, rfl, nextSeedVal_nonneg s h0, nextSeedVal_lt s h0⟩

/-- Binding a draw is just continuing with the draw's result. -/
theorem rbind_rrand {α : Type} (lo hi : Int) (k : Int → RandM α) (r : Rng) :
    rbind (rrand lo hi) k r = k (r.randomInt lo hi).1 (r.randomInt lo hi).2 := rfl


/-- Board, grid and point of the crafted placement scenario: the grid's
interior is `3 ≤ x,y ≤ 4` but its connection point sits at `(3, 3)`, so a
`3 × 3` candidate can never be strictly interior; every scan fails. -/
def c4Board : Board := Board.init 10 8

/-- Grid of the crafted scenario (`x`, `y`, `width`, `height`, `index`). -/
def c4Grid : Grid := ⟨2, 2, 4, 4, 0⟩

/-- Connection point of the crafted scenario. -/
def c4Pt : PointObj := ⟨3, 3, 0⟩

/-- Unfolding one `rbind` whose first computation is known to succeed. -/
theorem rbind_eval {α β : Type} {m : RandM α} {a : α} {r2 : Rng} (k : α → RandM β) (r : Rng)
    (h : m r = some (a, r2)) : rbind m k r = k a r2 := by
  unfold rbind
  rw [h]

/-- Unfolding an `rbind` of a lifted `Option` that is known to be `some`. -/
theorem rbind_rofOption_some {α β : Type} {o : Option α} (a : α) (k : α → RandM β) (r : Rng)
    (h : o = some a) : rbind (rofOption o) k r = k a r := by
  subst h
  rfl

/-- One failing iteration of the placement loop: the candidate is resampled
(size first, then position) and the loop recurses with one attempt less. -/
theorem attemptLoop_step (b : Board) (cc rc : Nat) (mx my mxx myy : Int) (g : Grid)
    (p : PointObj) (n : Nat) (w h rx ry : Int) (r : Rng) (op : Bool)
    (hscan : scanRect b cc rc g p rx ry w h = some (false, op)) :
    attemptLoop b cc rc mx my mxx myy g p (n + 1) w h rx ry r =
      attemptLoop b cc rc mx my mxx myy g p n
        (r.randomInt mx mxx).1
        ((r.randomInt mx mxx).2.randomInt my myy).1
        (((r.randomInt mx mxx).2.randomInt my myy).2.randomInt g.x
          (g.x + g.width - (r.randomInt mx mxx).1)).1
        ((((r.randomInt mx mxx).2.randomInt my myy).2.randomInt g.x
          (g.x + g.width - (r.randomInt mx mxx).1)).2.randomInt g.y
          (g.y + g.height - ((r.randomInt mx mxx).2.randomInt my myy).1)).1
        ((((r.randomInt mx mxx).2.randomInt my myy).2.randomInt g.x
          (g.x + g.width - (r.randomInt mx mxx).1)).2.randomInt g.y
          (g.y + g.height - ((r.randomInt mx mxx).2.randomInt my myy).1)).2 := by
  conv_lhs => rw [attemptLoop]
  exact (rbind_rofOption_some (false, op) _ r hscan).trans rfl

/-- In the crafted scenario every scan fails, so any amount of fuel is used
up and the loop ends with both flags `false` on an in-range candidate. -/
theorem c4_exhaust : ∀ (n : Nat) (rx ry : Int) (r : Rng) (s : Int),
    r.seed = some s → 0 ≤ s →
    2 ≤ rx → rx ≤ 3 → 2 ≤ ry → ry ≤ 3 →
    ∃ rx2 ry2 r2 s2,
      attemptLoop c4Board 10 8 3 3 3 3 c4Grid c4Pt n 3 3 rx ry r =
        some (⟨false, false, 3, 3, rx2, ry2⟩, r2) ∧
      2 ≤ rx2 ∧ rx2 ≤ 3 ∧ 2 ≤ ry2 ∧ ry2 ≤ 3 ∧ r2.seed = some s2 ∧ 0 ≤ s2 := by
  intro n
  induction n with
  | zero =>
    intro rx ry r s hs h0 ha hb hc hd
    exact ⟨rx, ry, r, s, rfl, ha, hb, hc, hd, hs, h0⟩
  | succ n ih =>
    intro rx ry r s hs h0 ha hb hc hd
    have hscan : ∃ op, scanRect c4Board 10 8 c4Grid c4Pt rx ry 3 3 = some (false, op) := by
      have hrx : rx = 2 ∨ rx = 3 := by omega
      have hry : ry = 2 ∨ ry = 3 := by omega
      rcases hrx with h | h <;> rcases hry with h2 | h2 <;> subst h <;> subst h2
      · exact ⟨false, by decide⟩
      · exact ⟨true, by decide⟩
      · exact ⟨false, by decide⟩
      · exact ⟨true, by decide⟩
    obtain ⟨op, hscan⟩ := hscan
    have h1 := randomInt_seeded_bounds r s 3 3 hs h0 (le_refl 3)
    have hw : (r.randomInt 3 3).1 = 3 := le_antisymm h1.2.1 h1.1
    have h2 := randomInt_seeded_bounds (r.randomInt 3 3).2 (nextSeedVal s) 3 3 h1.2.2.1
      h1.2.2.2.1 (le_refl 3)
    have hh : ((r.randomInt 3 3).2.randomInt 3 3).1 = 3 := le_antisymm h2.2.1 h2.1
    have hstep := attemptLoop_step c4Board 10 8 3 3 3 3 c4Grid c4Pt n 3 3 rx ry r op hscan
    rw [hw, hh] at hstep
    have h3 := randomInt_seeded_bounds ((r.randomInt 3 3).2.randomInt 3 3).2
      (nextSeedVal (nextSeedVal s)) c4Grid.x (c4Grid.x + c4Grid.width - 3) h2.2.2.1
      h2.2.2.2.1 (by decide)
    have h4 := randomInt_seeded_bounds
      (((r.randomInt 3 3).2.randomInt 3 3).2.randomInt c4Grid.x (c4Grid.x + c4Grid.width - 3)).2
      (nextSeedVal (nextSeedVal (nextSeedVal s))) c4Grid.y (c4Grid.y + c4Grid.height - 3)
      h3.2.2.1 h3.2.2.2.1 (by decide)
    obtain ⟨rx2, ry2, r2, s2, hloop, o1, o2, o3, o4, o5, o6⟩ := ih
      (((r.randomInt 3 3).2.randomInt 3 3).2.randomInt c4Grid.x (c4Grid.x + c4Grid.width - 3)).1
      ((((r.randomInt 3 3).2.randomInt 3 3).2.randomInt c4Grid.x
        (c4Grid.x + c4Grid.width - 3)).2.randomInt c4Grid.y (c4Grid.y + c4Grid.height - 3)).1
      ((((r.randomInt 3 3).2.randomInt 3 3).2.randomInt c4Grid.x
        (c4Grid.x + c4Grid.width - 3)).2.randomInt c4Grid.y (c4Grid.y + c4Grid.height - 3)).2
      (nextSeedVal (nextSeedVal (nextSeedVal (nextSeedVal s))))
      h4.2.2.1 h4.2.2.2.1 h3.1 h3.2.1 h4.1 h4.2.1
    exact ⟨rx2, ry2, r2, s2, hstep.trans hloop, o1, o2, o3, o4, o5, o6⟩

/-- A write to an existing column succeeds and keeps the column count. -/
theorem Board.write_some (b : Board) (x y : Int) (v : TileVal)
    (h0 : 0 ≤ x) (h1 : x.toNat < b.length) :
    ∃ b2, b.write x y v = some b2 ∧ b2.length = b.length := by
  unfold Board.write Board.col?
  rw [if_pos h0]
  cases hc : List.get? b x.toNat with
  | none =>
    rw [List.get?_eq_none] at hc
    omega
  | some c =>
    exact ⟨_, rfl, by simp⟩

/-- The inner (per-column) stamping fold succeeds on an existing column and
preserves the column count. -/
theorem stampCol_some (x ry : Int) (v : TileVal) (h0 : 0 ≤ x) :
    ∀ (js : List Int) (b : Board), x.toNat < b.length →
      ∃ b2, List.foldlM (fun (bd2 : Board) (j : Int) => bd2.write x (ry + j) v) b js =
        some b2 ∧ b2.length = b.length := by
  intro js
  induction js with
  | nil => intro b hx; exact ⟨b, rfl, rfl⟩
  | cons j js ih =>
    intro b hx
    obtain ⟨b1, hb1, hl1⟩ := Board.write_some b x (ry + j) v h0 hx
    obtain ⟨b2, hb2, hl2⟩ := ih b1 (by omega)
    refine ⟨b2, ?_, by omega⟩
    simp [List.foldlM_cons, hb1, hb2]

/-- The outer (per-column-of-the-rectangle) stamping fold succeeds when
every column index is in range. -/
theorem stampRows_some (rx ry : Int) (v : TileVal) (js : List Int) :
    ∀ (is : List Int) (b : Board),
      (∀ i ∈ is, 0 ≤ rx + i ∧ (rx + i).toNat < b.length) →
      ∃ b2, List.foldlM (fun (bd : Board) (i : Int) =>
          List.foldlM (fun (bd2 : Board) (j : Int) => bd2.write (rx + i) (ry + j) v) bd js)
          b is = some b2 ∧ b2.length = b.length := by
  intro is
  induction is with
  | nil => intro b hb; exact ⟨b, rfl, rfl⟩
  | cons i is ih =>
    intro b hb
    obtain ⟨hc0, hc1⟩ := hb i (List.mem_cons_self i is)
    obtain ⟨b1, hb1, hl1⟩ := stampCol_some (rx + i) ry v hc0 js b hc1
    obtain ⟨b2, hb2, hl2⟩ := ih b1 (fun i2 h2 => by
      obtain ⟨d0, d1⟩ := hb i2 (List.mem_cons_of_mem i h2)
      exact ⟨d0, by omega⟩)
    refine ⟨b2, ?_, by omega⟩
    simp [List.foldlM_cons, hb1, hb2]

/-- Stamping a rectangle whose columns all exist always succeeds. -/
theorem stampRoom_some (b : Board) (rx ry : Int) (w h : Nat) (v : TileVal)
    (hcols : ∀ i : Nat, i < w → 0 ≤ rx + (i : Int) ∧ (rx + (i : Int)).toNat < b.length) :
    ∃ b2, stampRoom b rx ry w h v = some b2 ∧ b2.length = b.length := by
  unfold stampRoom
  apply stampRows_some
  intro i hi
  simp only [List.pure_def, List.bind_eq_flatMap, List.mem_flatMap, List.mem_range,
    List.mem_singleton] at hi
  obtain ⟨n, hn, rfl⟩ := hi
  exact hcols n hn

/-- The whole per-grid room step, as one equation: once the placement loop
has returned `res`, the only branch left is the dice roll against
`roomLossChance`; `res.validPosition` is recorded but never consulted. -/
theorem roomPhaseStep_run (cc rc : Nat) (mx my mxx myy rlc : Int)
    (points : List PointObj) (conns : List Conn) (acc : RoomPhaseOut) (i : Nat) (grid : Grid)
    (point : PointObj) (r : Rng) (res : AttemptResult) (r5 : Rng)
    (hconn : (conns.filter (fun c => c.point1.gridIndex = grid.index ∨
      c.point2.gridIndex = grid.index)).length ≠ 0)
    (hpt : (points.filter (fun p => p.gridIndex = grid.index)).head? = some point)
    (hloop : attemptLoop acc.board cc rc mx my mxx myy grid point 1000
      (r.randomInt mx mxx).1
      ((r.randomInt mx mxx).2.randomInt my myy).1
      (((r.randomInt mx mxx).2.randomInt my myy).2.randomInt grid.x
        (grid.x + grid.width - (r.randomInt mx mxx).1)).1
      ((((r.randomInt mx mxx).2.randomInt my myy).2.randomInt grid.x
        (grid.x + grid.width - (r.randomInt mx mxx).1)).2.randomInt grid.y
        (grid.y + grid.height - ((r.randomInt mx mxx).2.randomInt my myy).1)).1
      ((((r.randomInt mx mxx).2.randomInt my myy).2.randomInt grid.x
        (grid.x + grid.width - (r.randomInt mx mxx).1)).2.randomInt grid.y
        (grid.y + grid.height - ((r.randomInt mx mxx).2.randomInt my myy).1)).2
      = some (res, r5)) :
    roomPhaseStep cc rc mx my mxx myy rlc points conns acc (i, grid) r =
      if (r5.randomInt 1 100).1 ≥ rlc then
        (stampRoom acc.board res.roomX res.roomY res.roomWidth.toNat res.roomHeight.toNat
          (TileVal.num ((i : Int) + 1))).map (fun b2 =>
          (⟨b2, acc.roomList ++ [⟨res.roomX, res.roomY, res.roomWidth, res.roomHeight, i,
            res.onPoint, none⟩], acc.stampValid ++ [res.validPosition]⟩,
            (r5.randomInt 1 100).2))
      else some (acc, (r5.randomInt 1 100).2) := by
  unfold roomPhaseStep
  try dsimp only
  rw [if_neg hconn, hpt]
  try dsimp only
  rw [rbind_rrand]
  try dsimp only
  rw [rbind_rrand]
  try dsimp only
  rw [rbind_rrand]
  try dsimp only
  rw [rbind_rrand]
  try dsimp only
  rw [rbind_eval _ _ hloop]
  try dsimp only
  rw [rbind_rrand]
  try dsimp only
  by_cases hd : (r5.randomInt 1 100).1 ≥ rlc
  · rw [if_pos hd, if_pos hd]
    cases hstamp : stampRoom acc.board res.roomX res.roomY res.roomWidth.toNat
        res.roomHeight.toNat (TileVal.num ((i : Int) + 1)) with
    | none => simp [rbind, rofOption, hstamp]
    | some b2 => simp [rbind, rofOption, rpure, hstamp]
  · rw [if_neg hd, if_neg hd]
    rfl

/-- C4, amended: when the dice roll passes, the final candidate of the
placement loop is stamped and appended to the room list even though its
`validPosition` flag is `false`; the flag is never consulted. -/
theorem c4_fallback_stamps (cc rc : Nat) (mx my mxx myy rlc : Int)
    (points : List PointObj) (conns : List Conn) (acc : RoomPhaseOut) (i : Nat) (grid : Grid)
    (point : PointObj) (r : Rng) (res : AttemptResult) (r5 : Rng) (b2 : Board)
    (hconn : (conns.filter (fun c => c.point1.gridIndex = grid.index ∨
      c.point2.gridIndex = grid.index)).length ≠ 0)
    (hpt : (points.filter (fun p => p.gridIndex = grid.index)).head? = some point)
    (hloop : attemptLoop acc.board cc rc mx my mxx myy grid point 1000
      (r.randomInt mx mxx).1
      ((r.randomInt mx mxx).2.randomInt my myy).1
      (((r.randomInt mx mxx).2.randomInt my myy).2.randomInt grid.x
        (grid.x + grid.width - (r.randomInt mx mxx).1)).1
      ((((r.randomInt mx mxx).2.randomInt my myy).2.randomInt grid.x
        (grid.x + grid.width - (r.randomInt mx mxx).1)).2.randomInt grid.y
        (grid.y + grid.height - ((r.randomInt mx mxx).2.randomInt my myy).1)).1
      ((((r.randomInt mx mxx).2.randomInt my myy).2.randomInt grid.x
        (grid.x + grid.width - (r.randomInt mx mxx).1)).2.randomInt grid.y
        (grid.y + grid.height - ((r.randomInt mx mxx).2.randomInt my myy).1)).2
      = some (res, r5))
    (hinvalid : res.validPosition = false)
    (hdice : (r5.randomInt 1 100).1 ≥ rlc)
    (hstamp : stampRoom acc.board res.roomX res.roomY res.roomWidth.toNat res.roomHeight.toNat
      (TileVal.num ((i : Int) + 1)) = some b2) :
    roomPhaseStep cc rc mx my mxx myy rlc points conns acc (i, grid) r =
      some (⟨b2, acc.roomList ++ [⟨res.roomX, res.roomY, res.roomWidth, res.roomHeight, i,
        res.onPoint, none⟩], acc.stampValid ++ [false]⟩, (r5.randomInt 1 100).2) := by
  rw [roomPhaseStep_run cc rc mx my mxx myy rlc points conns acc i grid point r res r5
    hconn hpt hloop]
  rw [if_pos hdice, hstamp, hinvalid]
  rfl

/-- C4, counterexample: in the crafted scenario from entry seed 7 the loop
exhausts all 1000 attempts without ever validating a candidate, yet a room
is stamped (the room list gains one entry, with `validPosition = false` at
the dice roll and `onPoint = false`). -/
theorem c4_counterexample :
    (roomPhaseStep 10 8 3 3 3 3 0 [c4Pt] [⟨c4Pt, c4Pt⟩] ⟨c4Board, [], []⟩ (0, c4Grid)
      (seededRng 7)).map (fun p => (p.1.stampValid, p.1.roomList.map Room.onPoint)) =
    some ([false], [false]) := by
  obtain ⟨rx2, ry2, r2, s2, hloop, hx1, hx2, hy1, hy2, hseed2, hs2⟩ :=
    c4_exhaust 1000 2 2 (seededRng 56915) 56915 rfl (by norm_num) (by norm_num) (by norm_num)
      (by norm_num) (by norm_num)
  have hd := randomInt_seeded_bounds r2 s2 1 100 hseed2 hs2 (by norm_num)
  have hlen : c4Board.length = 10 := rfl
  obtain ⟨b2, hstamp, hl2⟩ := stampRoom_some c4Board rx2 ry2 3 3 (TileVal.num 1)
    (fun i hi => ⟨by omega, by omega⟩)
  rw [roomPhaseStep_run 10 8 3 3 3 3 0 [c4Pt] [⟨c4Pt, c4Pt⟩] ⟨c4Board, [], []⟩ 0 c4Grid c4Pt
    (seededRng 7) ⟨false, false, 3, 3, rx2, ry2⟩ r2 (by decide) rfl hloop]
  rw [if_pos (le_trans (le_trans (by norm_num) hd.1) (le_refl _))]
  dsimp only
  have hstamp2 : stampRoom c4Board rx2 ry2 (Int.toNat 3) (Int.toNat 3)
      (TileVal.num (((0 : Nat) : Int) + 1)) = some b2 := hstamp
  rw [hstamp2]
  rfl

/-- C4, witness for the amended theorem: the crafted run satisfies all its
hypotheses and indeed ends with one stamped room recorded as unvalidated. -/
theorem c4_witness :
    ∃ out rOut, roomPhaseStep 10 8 3 3 3 3 0 [c4Pt] [⟨c4Pt, c4Pt⟩] ⟨c4Board, [], []⟩
      (0, c4Grid) (seededRng 7) = some (out, rOut) ∧ out.stampValid = [false] ∧
      out.roomList.length = 1 := by
  obtain ⟨rx2, ry2, r2, s2, hloop, hx1, hx2, hy1, hy2, hseed2, hs2⟩ :=
    c4_exhaust 1000 2 2 (seededRng 56915) 56915 rfl (by norm_num) (by norm_num) (by norm_num)
      (by norm_num) (by norm_num)
  have hd := randomInt_seeded_bounds r2 s2 1 100 hseed2 hs2 (by norm_num)
  have hlen : c4Board.length = 10 := rfl
  obtain ⟨b2, hstamp, hl2⟩ := stampRoom_some c4Board rx2 ry2 3 3 (TileVal.num 1)
    (fun i hi => ⟨by omega, by omega⟩)
  have hmain := c4_fallback_stamps 10 8 3 3 3 3 0 [c4Pt] [⟨c4Pt, c4Pt⟩] ⟨c4Board, [], []⟩ 0
    c4Grid c4Pt (seededRng 7) ⟨false, false, 3, 3, rx2, ry2⟩ r2 b2 (by decide) rfl hloop rfl
    (le_trans (by norm_num) hd.1) hstamp
  exact ⟨_, _, hmain, rfl, rfl⟩


/-! ## Claim C8 — persistence of `specialPoints` across `regenerate` -/

def c8S : Settings := ⟨20, 20, 4, 4, 3, 3, 3, 3, 50, 50, 0⟩

/-- Evaluation of one `rfoldl` step whose body is known to succeed. -/
theorem rfoldl_eval {α β : Type} (f : β → α → RandM β) (a : α) (l : List α)
    (b0 b1 b2 : β) (r0 r1 r2 : Rng)
    (h1 : f b0 a r0 = some (b1, r1)) (h2 : rfoldl f l b1 r1 = some (b2, r2)) :
    rfoldl f (a :: l) b0 r0 = some (b2, r2) := by
  show rbind (f b0 a) _ r0 = _
  rw [rbind_eval _ _ h1]
  exact h2

/-- Evaluation of one `foldlM` step whose body is known to succeed. -/
theorem foldlM_eval {α β : Type} (f : β → α → Option β) (a : α) (l : List α)
    (b0 b1 b2 : β) (h1 : f b0 a = some b1) (h2 : List.foldlM f b1 l = some b2) :
    List.foldlM f b0 (a :: l) = some b2 := by
  rw [List.foldlM_cons, h1]
  simpa using h2

/-- `#createPaths` as the composition of its four phases. -/
theorem createPaths_run {mX mY plc : Int} {gl : List Grid} {b : Board} {r r1 r2 : Rng}
    {pts : List PointObj} {b2 : Board} {conns : List Conn} {b3 : Board}
    (h0 : pointsPhase mX mY gl r = some (pts, r1))
    (h1 : placeMarkers b pts = some b2)
    (h2 : connPhase plc gl pts r1 = some (conns, r2))
    (h3 : stampPaths b2 conns = some b3) :
    createPaths mX mY plc gl b r = some ((pts, conns, b3), r2) := by
  unfold createPaths
  rw [rbind_eval _ _ h0]
  try dsimp only
  rw [rbind_rofOption_some b2 _ _ h1]
  try dsimp only
  rw [rbind_eval _ _ h2]
  try dsimp only
  rw [rbind_rofOption_some b3 _ _ h3]
  rfl

/-- `#createRooms` as the composition of the per-grid loop and the entry/exit
promotion. -/
theorem createRooms_run {cc rc : Nat} {mx my mxx myy rlc : Int} {gl : List Grid}
    {pts : List PointObj} {conns : List Conn} {b : Board} {sp : SpecialPoints}
    {r r1 r2 : Rng} {phase : RoomPhaseOut} {fin1 : List Room} {fin2 : SpecialPoints}
    {fin3 : Board}
    (h0 : rfoldl (roomPhaseStep cc rc mx my mxx myy rlc pts conns) gl.enum ⟨b, [], []⟩ r
      = some (phase, r1))
    (h1 : entryExitPhase phase.roomList sp phase.board r1 = some ((fin1, fin2, fin3), r2)) :
    createRooms cc rc mx my mxx myy rlc gl pts conns b sp r
      = some ((phase, fin1, fin2, fin3), r2) := by
  unfold createRooms
  rw [rbind_eval _ _ h0]
  try dsimp only
  rw [rbind_eval _ _ h1]
  rfl

/-- One full `regenerate` attempt as the composition of its phases. -/
theorem regenerateI_run {s : Settings} {sp : SpecialPoints} {r r1 r2 r3 r4 r5 : Rng}
    {rc0 rc : Int} {grids : List Grid} {pts : List PointObj} {conns : List Conn}
    {b3 : Board} {phase : RoomPhaseOut} {rooms2 : List Room} {sp2 : SpecialPoints}
    {bR b4 : Board} {valid : Bool}
    (h0 : r.randomInt s.roomCountMin s.roomCountMax = (rc0, r1))
    (hrc : adjustRoomCount rc0 = rc)
    (hg : createGrid rc s.rowCount s.colCount = grids)
    (h1 : createPaths s.minRoomSizeX s.minRoomSizeY s.pointLossChance grids
      (Board.init s.colCount s.rowCount) r1 = some ((pts, conns, b3), r2))
    (h2 : createRooms s.colCount s.rowCount s.minRoomSizeX s.minRoomSizeY s.maxRoomSizeX
      s.maxRoomSizeY s.roomLossChance grids pts conns b3 sp r2
      = some ((phase, rooms2, sp2, bR), r3))
    (h3 : addRandomPaths s.randomPathMax bR r3 = some (b4, r4))
    (h4 : validateDungeon s.colCount s.rowCount b4 pts grids.length rooms2.length r4
      = some (valid, r5)) :
    regenerateI s sp r = some ((⟨rc, b4, grids, pts, conns, rooms2, sp2, valid⟩,
      phase.stampValid), r5) := by
  subst hrc
  subst hg
  unfold regenerateI
  rw [rbind_eval _ _ (show rrand s.roomCountMin s.roomCountMax r = some (rc0, r1) from by
    unfold rrand; rw [h0])]
  try dsimp only
  rw [rbind_eval _ _ h1]
  try dsimp only
  rw [rbind_eval _ _ h2]
  try dsimp only
  rw [rbind_eval _ _ h3]
  try dsimp only
  rw [rbind_eval _ _ h4]
  rfl

/-- `regenerate` from its instrumented form. -/
theorem regenerate_run {s : Settings} {sp : SpecialPoints} {r r2 : Rng} {d : DState}
    {flags : List Bool} (h : regenerateI s sp r = some ((d, flags), r2)) :
    regenerate s sp r = some (d, r2) := by
  unfold regenerate
  rw [rbind_eval _ _ h]
  rfl

def c8r1_gl : List Grid := [⟨0, 0, 10, 10, 0⟩, ⟨0, 10, 10, 10, 1⟩, ⟨10, 0, 10, 10, 2⟩, ⟨10, 10, 10, 10, 3⟩]

theorem c8r1_grc : adjustRoomCount 4 = 4 ∧ createGrid 4 20 20 = c8r1_gl := by
  constructor
  · decide
  · decide

theorem c8r1_rcd : (seededRng 163170).randomInt 4 4 = (4, (seededRng 207067)) := by rfl

def c8r1_pl : List PointObj := [⟨3, 3, 0⟩, ⟨4, 14, 1⟩, ⟨16, 5, 2⟩, ⟨17, 15, 3⟩]

theorem c8r1_pts : pointsPhase 3 3 c8r1_gl (seededRng 207067) = some (c8r1_pl, (seededRng 106803)) := by
  unfold pointsPhase
  refine rfoldl_eval _ _ _ _ [⟨3, 3, 0⟩] _ _ (seededRng 2361) _ (by rfl) ?_
  refine rfoldl_eval _ _ _ _ [⟨3, 3, 0⟩, ⟨4, 14, 1⟩] _ _ (seededRng 68135) _ (by rfl) ?_
  refine rfoldl_eval _ _ _ _ [⟨3, 3, 0⟩, ⟨4, 14, 1⟩, ⟨16, 5, 2⟩] _ _ (seededRng 96229) _ (by rfl) ?_
  refine rfoldl_eval _ _ _ _ c8r1_pl _ _ (seededRng 106803) _ (by rfl) ?_
  rfl

def c8r1_b1 : Board :=
  [⟨20, [], List.replicate 20 (TileVal.num 0)⟩,
   ⟨20, [], List.replicate 20 (TileVal.num 0)⟩,
   ⟨20, [], List.replicate 20 (TileVal.num 0)⟩,
   ⟨20, [(3, (TileVal.num 1))], List.replicate 20 (TileVal.num 0)⟩,
   ⟨20, [(14, (TileVal.num 2))], List.replicate 20 (TileVal.num 0)⟩,
   ⟨20, [], List.replicate 20 (TileVal.num 0)⟩,
   ⟨20, [], List.replicate 20 (TileVal.num 0)⟩,
   ⟨20, [], List.replicate 20 (TileVal.num 0)⟩,
   ⟨20, [], List.replicate 20 (TileVal.num 0)⟩,
   ⟨20, [], List.replicate 20 (TileVal.num 0)⟩,
   ⟨20, [], List.replicate 20 (TileVal.num 0)⟩,
   ⟨20, [], List.replicate 20 (TileVal.num 0)⟩,
   ⟨20, [], List.replicate 20 (TileVal.num 0)⟩,
   ⟨20, [], List.replicate 20 (TileVal.num 0)⟩,
   ⟨20, [], List.replicate 20 (TileVal.num 0)⟩,
   ⟨20, [], List.replicate 20 (TileVal.num 0)⟩,
   ⟨20, [(5, (TileVal.num 3))], List.replicate 20 (TileVal.num 0)⟩,
   ⟨20, [(15, (TileVal.num 4))], List.replicate 20 (TileVal.num 0)⟩,
   ⟨20, [], List.replicate 20 (TileVal.num 0)⟩,
   ⟨20, [], List.replicate 20 (TileVal.num 0)⟩]

theorem c8r1_mark : placeMarkers (Board.init 20 20) c8r1_pl = some c8r1_b1 := by rfl

def c8r1_cl : List Conn := [⟨⟨3, 3, 0⟩, ⟨4, 14, 1⟩⟩]

theorem c8r1_conn : connPhase 50 c8r1_gl c8r1_pl (seededRng 106803) = some (c8r1_cl, (seededRng 9151)) := by
  unfold connPhase
  refine rfoldl_eval _ _ _ _ [⟨⟨3, 3, 0⟩, ⟨4, 14, 1⟩⟩] _ _ (seededRng 85457) _ (by rfl) ?_
  refine rfoldl_eval _ _ _ _ [⟨⟨3, 3, 0⟩, ⟨4, 14, 1⟩⟩] _ _ (seededRng 99894) _ (by rfl) ?_
  refine rfoldl_eval _ _ _ _ [⟨⟨3, 3, 0⟩, ⟨4, 14, 1⟩⟩] _ _ (seededRng 9151) _ (by rfl) ?_
  refine rfoldl_eval _ _ _ _ c8r1_cl _ _ (seededRng 9151) _ (by rfl) ?_
  rfl

def c8r1_b2 : Board :=
  [⟨20, [], List.replicate 20 (TileVal.num 0)⟩,
   ⟨20, [], List.replicate 20 (TileVal.num 0)⟩,
   ⟨20, [], List.replicate 20 (TileVal.num 0)⟩,
   ⟨20, [(8, TileVal.corr), (7, TileVal.corr), (6, TileVal.corr), (5, TileVal.corr), (4, TileVal.corr), (3, TileVal.corr), (3, (TileVal.num 1))], List.replicate 20 (TileVal.num 0)⟩,
   ⟨20, [(14, TileVal.corr), (13, TileVal.corr), (12, TileVal.corr), (11, TileVal.corr), (10, TileVal.corr), (9, TileVal.corr), (8, TileVal.corr), (14, (TileVal.num 2))], List.replicate 20 (TileVal.num 0)⟩,
   ⟨20, [], List.replicate 20 (TileVal.num 0)⟩,
   ⟨20, [], List.replicate 20 (TileVal.num 0)⟩,
   ⟨20, [], List.replicate 20 (TileVal.num 0)⟩,
   ⟨20, [], List.replicate 20 (TileVal.num 0)⟩,
   ⟨20, [], List.replicate 20 (TileVal.num 0)⟩,
   ⟨20, [], List.replicate 20 (TileVal.num 0)⟩,
   ⟨20, [], List.replicate 20 (TileVal.num 0)⟩,
   ⟨20, [], List.replicate 20 (TileVal.num 0)⟩,
   ⟨20, [], List.replicate 20 (TileVal.num 0)⟩,
   ⟨20, [], List.replicate 20 (TileVal.num 0)⟩,
   ⟨20, [], List.replicate 20 (TileVal.num 0)⟩,
   ⟨20, [(5, (TileVal.num 3))], List.replicate 20 (TileVal.num 0)⟩,
   ⟨20, [(15, (TileVal.num 4))], List.replicate 20 (TileVal.num 0)⟩,
   ⟨20, [], List.replicate 20 (TileVal.num 0)⟩,
   ⟨20, [], List.replicate 20 (TileVal.num 0)⟩]

theorem c8r1_paths : stampPaths c8r1_b1 c8r1_cl = some c8r1_b2 := by
  unfold stampPaths
  refine foldlM_eval _ _ _ _ c8r1_b2 _ (by rfl) ?_
  rfl

theorem c8r1_cp : createPaths 3 3 50 c8r1_gl (Board.init 20 20) (seededRng 207067) =
    some ((c8r1_pl, c8r1_cl, c8r1_b2), (seededRng 9151)) :=
  createPaths_run c8r1_pts c8r1_mark c8r1_conn c8r1_paths

def c8r1_b3 : Board :=
  [⟨20, [], List.replicate 20 (TileVal.num 0)⟩,
   ⟨20, [], List.replicate 20 (TileVal.num 0)⟩,
   ⟨20, [], List.replicate 20 (TileVal.num 0)⟩,
   ⟨20, [(5, (TileVal.num 1)), (4, (TileVal.num 1)), (3, (TileVal.num 1)), (8, TileVal.corr), (7, TileVal.corr), (6, TileVal.corr), (5, TileVal.corr), (4, TileVal.corr), (3, TileVal.corr), (3, (TileVal.num 1))], List.replicate 20 (TileVal.num 0)⟩,
   ⟨20, [(5, (TileVal.num 1)), (4, (TileVal.num 1)), (3, (TileVal.num 1)), (14, TileVal.corr), (13, TileVal.corr), (12, TileVal.corr), (11, TileVal.corr), (10, TileVal.corr), (9, TileVal.corr), (8, TileVal.corr), (14, (TileVal.num 2))], List.replicate 20 (TileVal.num 0)⟩,
   ⟨20, [(5, (TileVal.num 1)), (4, (TileVal.num 1)), (3, (TileVal.num 1))], List.replicate 20 (TileVal.num 0)⟩,
   ⟨20, [], List.replicate 20 (TileVal.num 0)⟩,
   ⟨20, [], List.replicate 20 (TileVal.num 0)⟩,
   ⟨20, [], List.replicate 20 (TileVal.num 0)⟩,
   ⟨20, [], List.replicate 20 (TileVal.num 0)⟩,
   ⟨20, [], List.replicate 20 (TileVal.num 0)⟩,
   ⟨20, [], List.replicate 20 (TileVal.num 0)⟩,
   ⟨20, [], List.replicate 20 (TileVal.num 0)⟩,
   ⟨20, [], List.replicate 20 (TileVal.num 0)⟩,
   ⟨20, [], List.replicate 20 (TileVal.num 0)⟩,
   ⟨20, [], List.replicate 20 (TileVal.num 0)⟩,
   ⟨20, [(5, (TileVal.num 3))], List.replicate 20 (TileVal.num 0)⟩,
   ⟨20, [(15, (TileVal.num 4))], List.replicate 20 (TileVal.num 0)⟩,
   ⟨20, [], List.replicate 20 (TileVal.num 0)⟩,
   ⟨20, [], List.replicate 20 (TileVal.num 0)⟩]

def c8r1_b4 : Board :=
  [⟨20, [], List.replicate 20 (TileVal.num 0)⟩,
   ⟨20, [], List.replicate 20 (TileVal.num 0)⟩,
   ⟨20, [(15, (TileVal.num 2)), (14, (TileVal.num 2)), (13, (TileVal.num 2))], List.replicate 20 (TileVal.num 0)⟩,
   ⟨20, [(15, (TileVal.num 2)), (14, (TileVal.num 2)), (13, (TileVal.num 2)), (5, (TileVal.num 1)), (4, (TileVal.num 1)), (3, (TileVal.num 1)), (8, TileVal.corr), (7, TileVal.corr), (6, TileVal.corr), (5, TileVal.corr), (4, TileVal.corr), (3, TileVal.corr), (3, (TileVal.num 1))], List.replicate 20 (TileVal.num 0)⟩,
   ⟨20, [(15, (TileVal.num 2)), (14, (TileVal.num 2)), (13, (TileVal.num 2)), (5, (TileVal.num 1)), (4, (TileVal.num 1)), (3, (TileVal.num 1)), (14, TileVal.corr), (13, TileVal.corr), (12, TileVal.corr), (11, TileVal.corr), (10, TileVal.corr), (9, TileVal.corr), (8, TileVal.corr), (14, (TileVal.num 2))], List.replicate 20 (TileVal.num 0)⟩,
   ⟨20, [(5, (TileVal.num 1)), (4, (TileVal.num 1)), (3, (TileVal.num 1))], List.replicate 20 (TileVal.num 0)⟩,
   ⟨20, [], List.replicate 20 (TileVal.num 0)⟩,
   ⟨20, [], List.replicate 20 (TileVal.num 0)⟩,
   ⟨20, [], List.replicate 20 (TileVal.num 0)⟩,
   ⟨20, [], List.replicate 20 (TileVal.num 0)⟩,
   ⟨20, [], List.replicate 20 (TileVal.num 0)⟩,
   ⟨20, [], List.replicate 20 (TileVal.num 0)⟩,
   ⟨20, [], List.replicate 20 (TileVal.num 0)⟩,
   ⟨20, [], List.replicate 20 (TileVal.num 0)⟩,
   ⟨20, [], List.replicate 20 (TileVal.num 0)⟩,
   ⟨20, [], List.replicate 20 (TileVal.num 0)⟩,
   ⟨20, [(5, (TileVal.num 3))], List.replicate 20 (TileVal.num 0)⟩,
   ⟨20, [(15, (TileVal.num 4))], List.replicate 20 (TileVal.num 0)⟩,
   ⟨20, [], List.replicate 20 (TileVal.num 0)⟩,
   ⟨20, [], List.replicate 20 (TileVal.num 0)⟩]

theorem c8r1_rp : rfoldl (roomPhaseStep 20 20 3 3 3 3 50 c8r1_pl c8r1_cl)
    (c8r1_gl.enum) ⟨c8r1_b2, [], []⟩ (seededRng 9151) = some ((⟨c8r1_b4, [⟨3, 3, 3, 3, 0, true, none⟩, ⟨2, 13, 3, 3, 1, true, none⟩], [true, true]⟩ : RoomPhaseOut), (seededRng 191381)) := by
  refine rfoldl_eval _ _ _ _ (⟨c8r1_b3, [⟨3, 3, 3, 3, 0, true, none⟩], [true]⟩ : RoomPhaseOut) _ _ (seededRng 220536) _ (by rfl) ?_
  refine rfoldl_eval _ _ _ _ (⟨c8r1_b4, [⟨3, 3, 3, 3, 0, true, none⟩, ⟨2, 13, 3, 3, 1, true, none⟩], [true, true]⟩ : RoomPhaseOut) _ _ (seededRng 191381) _ (by rfl) ?_
  refine rfoldl_eval _ _ _ _ (⟨c8r1_b4, [⟨3, 3, 3, 3, 0, true, none⟩, ⟨2, 13, 3, 3, 1, true, none⟩], [true, true]⟩ : RoomPhaseOut) _ _ (seededRng 191381) _ (by rfl) ?_
  refine rfoldl_eval _ _ _ _ (⟨c8r1_b4, [⟨3, 3, 3, 3, 0, true, none⟩, ⟨2, 13, 3, 3, 1, true, none⟩], [true, true]⟩ : RoomPhaseOut) _ _ (seededRng 191381) _ (by rfl) ?_
  rfl

def c8r1_b5 : Board :=
  [⟨20, [], List.replicate 20 (TileVal.num 0)⟩,
   ⟨20, [], List.replicate 20 (TileVal.num 0)⟩,
   ⟨20, [(15, (TileVal.num 2)), (14, (TileVal.num 2)), (13, (TileVal.num 2))], List.replicate 20 (TileVal.num 0)⟩,
   ⟨20, [(14, TileVal.entryT), (15, (TileVal.num 2)), (14, (TileVal.num 2)), (13, (TileVal.num 2)), (5, (TileVal.num 1)), (4, (TileVal.num 1)), (3, (TileVal.num 1)), (8, TileVal.corr), (7, TileVal.corr), (6, TileVal.corr), (5, TileVal.corr), (4, TileVal.corr), (3, TileVal.corr), (3, (TileVal.num 1))], List.replicate 20 (TileVal.num 0)⟩,
   ⟨20, [(4, TileVal.exitT), (15, (TileVal.num 2)), (14, (TileVal.num 2)), (13, (TileVal.num 2)), (5, (TileVal.num 1)), (4, (TileVal.num 1)), (3, (TileVal.num 1)), (14, TileVal.corr), (13, TileVal.corr), (12, TileVal.corr), (11, TileVal.corr), (10, TileVal.corr), (9, TileVal.corr), (8, TileVal.corr), (14, (TileVal.num 2))], List.replicate 20 (TileVal.num 0)⟩,
   ⟨20, [(5, (TileVal.num 1)), (4, (TileVal.num 1)), (3, (TileVal.num 1))], List.replicate 20 (TileVal.num 0)⟩,
   ⟨20, [], List.replicate 20 (TileVal.num 0)⟩,
   ⟨20, [], List.replicate 20 (TileVal.num 0)⟩,
   ⟨20, [], List.replicate 20 (TileVal.num 0)⟩,
   ⟨20, [], List.replicate 20 (TileVal.num 0)⟩,
   ⟨20, [], List.replicate 20 (TileVal.num 0)⟩,
   ⟨20, [], List.replicate 20 (TileVal.num 0)⟩,
   ⟨20, [], List.replicate 20 (TileVal.num 0)⟩,
   ⟨20, [], List.replicate 20 (TileVal.num 0)⟩,
   ⟨20, [], List.replicate 20 (TileVal.num 0)⟩,
   ⟨20, [], List.replicate 20 (TileVal.num 0)⟩,
   ⟨20, [(5, (TileVal.num 3))], List.replicate 20 (TileVal.num 0)⟩,
   ⟨20, [(15, (TileVal.num 4))], List.replicate 20 (TileVal.num 0)⟩,
   ⟨20, [], List.replicate 20 (TileVal.num 0)⟩,
   ⟨20, [], List.replicate 20 (TileVal.num 0)⟩]

theorem c8r1_ee : entryExitPhase [⟨3, 3, 3, 3, 0, true, none⟩, ⟨2, 13, 3, 3, 1, true, none⟩] ⟨none, none⟩ c8r1_b4 (seededRng 191381) =
    some (([⟨3, 3, 3, 3, 0, true, some RoomType.EXIT⟩, ⟨2, 13, 3, 3, 1, true, some RoomType.ENTRY⟩], ⟨some ⟨3, 14⟩, some ⟨4, 4⟩⟩, c8r1_b5), (seededRng 202223)) := by rfl

theorem c8r1_cr : createRooms 20 20 3 3 3 3 50 c8r1_gl c8r1_pl c8r1_cl c8r1_b2 ⟨none, none⟩ (seededRng 9151) =
    some (((⟨c8r1_b4, [⟨3, 3, 3, 3, 0, true, none⟩, ⟨2, 13, 3, 3, 1, true, none⟩], [true, true]⟩ : RoomPhaseOut), [⟨3, 3, 3, 3, 0, true, some RoomType.EXIT⟩, ⟨2, 13, 3, 3, 1, true, some RoomType.ENTRY⟩], ⟨some ⟨3, 14⟩, some ⟨4, 4⟩⟩, c8r1_b5), (seededRng 202223)) :=
  createRooms_run c8r1_rp c8r1_ee

theorem c8r1_arp : addRandomPaths 0 c8r1_b5 (seededRng 202223) = some (c8r1_b5, (seededRng 222060)) := by rfl

theorem c8r1_val : validateDungeon 20 20 c8r1_b5 c8r1_pl 4 2 (seededRng 222060) =
    some (false, (seededRng 201517)) := by rfl

theorem c8r1_run : regenerate c8S ⟨none, none⟩ (seededRng 163170) = some (⟨4, c8r1_b5, c8r1_gl, c8r1_pl, c8r1_cl, [⟨3, 3, 3, 3, 0, true, some RoomType.EXIT⟩, ⟨2, 13, 3, 3, 1, true, some RoomType.ENTRY⟩], ⟨some ⟨3, 14⟩, some ⟨4, 4⟩⟩, false⟩, (seededRng 201517)) :=
  regenerate_run
    (regenerateI_run c8r1_rcd c8r1_grc.1 c8r1_grc.2 c8r1_cp c8r1_cr c8r1_arp c8r1_val)
def c8r2_gl : List Grid := [⟨0, 0, 10, 10, 0⟩, ⟨0, 10, 10, 10, 1⟩, ⟨10, 0, 10, 10, 2⟩, ⟨10, 10, 10, 10, 3⟩]

theorem c8r2_grc : adjustRoomCount 4 = 4 ∧ createGrid 4 20 20 = c8r2_gl := by
  constructor
  · decide
  · decide

theorem c8r2_rcd : (seededRng 201517).randomInt 4 4 = (4, (seededRng 187394)) := by rfl

def c8r2_pl : List PointObj := [⟨6, 3, 0⟩, ⟨7, 13, 1⟩, ⟨14, 5, 2⟩, ⟨15, 15, 3⟩]

theorem c8r2_pts : pointsPhase 3 3 c8r2_gl (seededRng 187394) = some (c8r2_pl, (seededRng 115450)) := by
  unfold pointsPhase
  refine rfoldl_eval _ _ _ _ [⟨6, 3, 0⟩] _ _ (seededRng 37288) _ (by rfl) ?_
  refine rfoldl_eval _ _ _ _ [⟨6, 3, 0⟩, ⟨7, 13, 1⟩] _ _ (seededRng 25182) _ (by rfl) ?_
  refine rfoldl_eval _ _ _ _ [⟨6, 3, 0⟩, ⟨7, 13, 1⟩, ⟨14, 5, 2⟩] _ _ (seededRng 136676) _ (by rfl) ?_
  refine rfoldl_eval _ _ _ _ c8r2_pl _ _ (seededRng 115450) _ (by rfl) ?_
  rfl

def c8r2_b1 : Board :=
  [⟨20, [], List.replicate 20 (TileVal.num 0)⟩,
   ⟨20, [], List.replicate 20 (TileVal.num 0)⟩,
   ⟨20, [], List.replicate 20 (TileVal.num 0)⟩,
   ⟨20, [], List.replicate 20 (TileVal.num 0)⟩,
   ⟨20, [], List.replicate 20 (TileVal.num 0)⟩,
   ⟨20, [], List.replicate 20 (TileVal.num 0)⟩,
   ⟨20, [(3, (TileVal.num 1))], List.replicate 20 (TileVal.num 0)⟩,
   ⟨20, [(13, (TileVal.num 2))], List.replicate 20 (TileVal.num 0)⟩,
   ⟨20, [], List.replicate 20 (TileVal.num 0)⟩,
   ⟨20, [], List.replicate 20 (TileVal.num 0)⟩,
   ⟨20, [], List.replicate 20 (TileVal.num 0)⟩,
   ⟨20, [], List.replicate 20 (TileVal.num 0)⟩,
   ⟨20, [], List.replicate 20 (TileVal.num 0)⟩,
   ⟨20, [], List.replicate 20 (TileVal.num 0)⟩,
   ⟨20, [(5, (TileVal.num 3))], List.replicate 20 (TileVal.num 0)⟩,
   ⟨20, [(15, (TileVal.num 4))], List.replicate 20 (TileVal.num 0)⟩,
   ⟨20, [], List.replicate 20 (TileVal.num 0)⟩,
   ⟨20, [], List.replicate 20 (TileVal.num 0)⟩,
   ⟨20, [], List.replicate 20 (TileVal.num 0)⟩,
   ⟨20, [], List.replicate 20 (TileVal.num 0)⟩]

theorem c8r2_mark : placeMarkers (Board.init 20 20) c8r2_pl = some c8r2_b1 := by rfl

def c8r2_cl : List Conn := []

theorem c8r2_conn : connPhase 50 c8r2_gl c8r2_pl (seededRng 115450) = some (c8r2_cl, (seededRng 83798)) := by
  unfold connPhase
  refine rfoldl_eval _ _ _ _ [] _ _ (seededRng 111264) _ (by rfl) ?_
  refine rfoldl_eval _ _ _ _ [] _ _ (seededRng 85681) _ (by rfl) ?_
  refine rfoldl_eval _ _ _ _ [] _ _ (seededRng 83798) _ (by rfl) ?_
  refine rfoldl_eval _ _ _ _ c8r2_cl _ _ (seededRng 83798) _ (by rfl) ?_
  rfl

def c8r2_b2 : Board :=
  [⟨20, [], List.replicate 20 (TileVal.num 0)⟩,
   ⟨20, [], List.replicate 20 (TileVal.num 0)⟩,
   ⟨20, [], List.replicate 20 (TileVal.num 0)⟩,
   ⟨20, [], List.replicate 20 (TileVal.num 0)⟩,
   ⟨20, [], List.replicate 20 (TileVal.num 0)⟩,
   ⟨20, [], List.replicate 20 (TileVal.num 0)⟩,
   ⟨20, [(3, (TileVal.num 1))], List.replicate 20 (TileVal.num 0)⟩,
   ⟨20, [(13, (TileVal.num 2))], List.replicate 20 (TileVal.num 0)⟩,
   ⟨20, [], List.replicate 20 (TileVal.num 0)⟩,
   ⟨20, [], List.replicate 20 (TileVal.num 0)⟩,
   ⟨20, [], List.replicate 20 (TileVal.num 0)⟩,
   ⟨20, [], List.replicate 20 (TileVal.num 0)⟩,
   ⟨20, [], List.replicate 20 (TileVal.num 0)⟩,
   ⟨20, [], List.replicate 20 (TileVal.num 0)⟩,
   ⟨20, [(5, (TileVal.num 3))], List.replicate 20 (TileVal.num 0)⟩,
   ⟨20, [(15, (TileVal.num 4))], List.replicate 20 (TileVal.num 0)⟩,
   ⟨20, [], List.replicate 20 (TileVal.num 0)⟩,
   ⟨20, [], List.replicate 20 (TileVal.num 0)⟩,
   ⟨20, [], List.replicate 20 (TileVal.num 0)⟩,
   ⟨20, [], List.replicate 20 (TileVal.num 0)⟩]

theorem c8r2_paths : stampPaths c8r2_b1 c8r2_cl = some c8r2_b2 := by
  unfold stampPaths
  rfl

theorem c8r2_cp : createPaths 3 3 50 c8r2_gl (Board.init 20 20) (seededRng 187394) =
    some ((c8r2_pl, c8r2_cl, c8r2_b2), (seededRng 83798)) :=
  createPaths_run c8r2_pts c8r2_mark c8r2_conn c8r2_paths

theorem c8r2_rp : rfoldl (roomPhaseStep 20 20 3 3 3 3 50 c8r2_pl c8r2_cl)
    (c8r2_gl.enum) ⟨c8r2_b2, [], []⟩ (seededRng 83798) = some ((⟨c8r2_b2, [], []⟩ : RoomPhaseOut), (seededRng 83798)) := by
  refine rfoldl_eval _ _ _ _ (⟨c8r2_b2, [], []⟩ : RoomPhaseOut) _ _ (seededRng 83798) _ (by rfl) ?_
  refine rfoldl_eval _ _ _ _ (⟨c8r2_b2, [], []⟩ : RoomPhaseOut) _ _ (seededRng 83798) _ (by rfl) ?_
  refine rfoldl_eval _ _ _ _ (⟨c8r2_b2, [], []⟩ : RoomPhaseOut) _ _ (seededRng 83798) _ (by rfl) ?_
  refine rfoldl_eval _ _ _ _ (⟨c8r2_b2, [], []⟩ : RoomPhaseOut) _ _ (seededRng 83798) _ (by rfl) ?_
  rfl

theorem c8r2_ee : entryExitPhase [] ⟨some ⟨3, 14⟩, some ⟨4, 4⟩⟩ c8r2_b2 (seededRng 83798) =
    some (([], ⟨some ⟨3, 14⟩, some ⟨4, 4⟩⟩, c8r2_b2), (seededRng 83798)) := by rfl

theorem c8r2_cr : createRooms 20 20 3 3 3 3 50 c8r2_gl c8r2_pl c8r2_cl c8r2_b2 ⟨some ⟨3, 14⟩, some ⟨4, 4⟩⟩ (seededRng 83798) =
    some (((⟨c8r2_b2, [], []⟩ : RoomPhaseOut), [], ⟨some ⟨3, 14⟩, some ⟨4, 4⟩⟩, c8r2_b2), (seededRng 83798)) :=
  createRooms_run c8r2_rp c8r2_ee

theorem c8r2_arp : addRandomPaths 0 c8r2_b2 (seededRng 83798) = some (c8r2_b2, (seededRng 66015)) := by rfl

theorem c8r2_val : validateDungeon 20 20 c8r2_b2 c8r2_pl 4 0 (seededRng 66015) =
    some (false, (seededRng 61852)) := by rfl

theorem c8r2_run : regenerate c8S ⟨some ⟨3, 14⟩, some ⟨4, 4⟩⟩ (seededRng 201517) = some (⟨4, c8r2_b2, c8r2_gl, c8r2_pl, c8r2_cl, [], ⟨some ⟨3, 14⟩, some ⟨4, 4⟩⟩, false⟩, (seededRng 61852)) :=
  regenerate_run
    (regenerateI_run c8r2_rcd c8r2_grc.1 c8r2_grc.2 c8r2_cp c8r2_cr c8r2_arp c8r2_val)
/-- Inverting a successful `rbind`. -/
theorem rbind_some_inv {α β : Type} {m : RandM α} {k : α → RandM β} {r : Rng}
    {z : β × Rng} (h : rbind m k r = some z) :
    ∃ a r1, m r = some (a, r1) ∧ k a r1 = some z := by
  unfold rbind at h
  cases hm : m r with
  | none => rw [hm] at h; exact absurd h (by simp)
  | some p =>
    rw [hm] at h
    exact ⟨p.1, p.2, rfl, h⟩

/-- Inverting a successful `rpure`. -/
theorem rpure_inv {α : Type} {a : α} {r : Rng} {z : α × Rng} (h : rpure a r = some z) :
    z = (a, r) := by
  unfold rpure at h
  injection h with h
  exact h.symm

/-- The entry/exit phase leaves fewer than two rooms only through its
passthrough branch, which returns the incoming `specialPoints` unchanged. -/
theorem entryExitPhase_retain (rooms : List Room) (sp : SpecialPoints) (b : Board)
    (r : Rng) (x : (List Room × SpecialPoints × Board) × Rng)
    (h : entryExitPhase rooms sp b r = some x) (hlen : x.1.1.length < 2) :
    x.1.2.1 = sp := by
  unfold entryExitPhase at h
  by_cases h2 : 2 ≤ rooms.length
  · rw [if_pos h2] at h
    exfalso
    obtain ⟨eIdx, r1, -, h⟩ := rbind_some_inv h
    try dsimp only at h
    obtain ⟨xIdx, r2, -, h⟩ := rbind_some_inv h
    try dsimp only at h
    cases hE : (if 0 ≤ eIdx then rooms.get? eIdx.toNat else none) with
    | none =>
      rw [hE] at h
      cases hX : (if 0 ≤ xIdx then
          (rooms.eraseIdx (if eIdx < 0 then (max 0 ((rooms.length : Int) + eIdx)).toNat
            else eIdx.toNat)).get? xIdx.toNat else none) with
      | none => rw [hX] at h; simp [rfailM] at h
      | some xR => rw [hX] at h; simp [rfailM] at h
    | some eR =>
      rw [hE] at h
      cases hX : (if 0 ≤ xIdx then
          (rooms.eraseIdx (if eIdx < 0 then (max 0 ((rooms.length : Int) + eIdx)).toNat
            else eIdx.toNat)).get? xIdx.toNat else none) with
      | none => rw [hX] at h; simp [rfailM] at h
      | some xR =>
        rw [hX] at h
        try dsimp only at h
        obtain ⟨ex, r3, -, h⟩ := rbind_some_inv h
        try dsimp only at h
        obtain ⟨ey, r4, -, h⟩ := rbind_some_inv h
        try dsimp only at h
        obtain ⟨xx, r5, -, h⟩ := rbind_some_inv h
        try dsimp only at h
        obtain ⟨xy, r6, -, h⟩ := rbind_some_inv h
        try dsimp only at h
        obtain ⟨b2, r7, -, h⟩ := rbind_some_inv h
        try dsimp only at h
        obtain ⟨b3, r8, -, h⟩ := rbind_some_inv h
        try dsimp only at h
        have hx := rpure_inv h
        have h11 : x.1.1 = (rooms.set eIdx.toNat { eR with type := some RoomType.ENTRY }).set
            (if xIdx.toNat < eIdx.toNat then xIdx.toNat else xIdx.toNat + 1)
            { xR with type := some RoomType.EXIT } := congrArg (fun q => q.1.1) hx
        rw [h11] at hlen
        simp only [List.length_set] at hlen
        omega
  · rw [if_neg h2] at h
    exact congrArg (fun q => q.1.2.1) (rpure_inv h)

/-- `#createRooms` with fewer than two rooms in the result keeps the
incoming `specialPoints`. -/
theorem createRooms_retain (cc rc : Nat) (mx my mxx myy rlc : Int) (gl : List Grid)
    (pts : List PointObj) (conns : List Conn) (b : Board) (sp : SpecialPoints) (r : Rng)
    (x : (RoomPhaseOut × List Room × SpecialPoints × Board) × Rng)
    (h : createRooms cc rc mx my mxx myy rlc gl pts conns b sp r = some x)
    (hlen : x.1.2.1.length < 2) : x.1.2.2.1 = sp := by
  unfold createRooms at h
  obtain ⟨phase, r1, -, h⟩ := rbind_some_inv h
  try dsimp only at h
  obtain ⟨fin, r2, hee, h⟩ := rbind_some_inv h
  try dsimp only at h
  have hx := rpure_inv h
  have h1 : x.1.2.1 = fin.1 := congrArg (fun q => q.1.2.1) hx
  have h2 : x.1.2.2.1 = fin.2.1 := congrArg (fun q => q.1.2.2.1) hx
  rw [h2]
  exact entryExitPhase_retain phase.roomList sp phase.board r1 (fin, r2) hee
    (by rw [h1] at hlen; exact hlen)

/-- A completed `regenerate` with fewer than two rooms returns the incoming
`specialPoints` unchanged. -/
theorem regenerate_retain (s : Settings) (sp : SpecialPoints) (r : Rng)
    (d : DState) (r2 : Rng) (h : regenerate s sp r = some (d, r2))
    (hlen : d.roomList.length < 2) : d.specialPoints = sp := by
  unfold regenerate at h
  obtain ⟨df, r1, hI, h⟩ := rbind_some_inv h
  have hd : d = df.1 := congrArg Prod.fst (rpure_inv h)
  unfold regenerateI at hI
  obtain ⟨rc0, ra, -, hI⟩ := rbind_some_inv hI
  try dsimp only at hI
  obtain ⟨pcb, rb, -, hI⟩ := rbind_some_inv hI
  try dsimp only at hI
  obtain ⟨rms, rcc, hcr, hI⟩ := rbind_some_inv hI
  try dsimp only at hI
  obtain ⟨b4, rd, -, hI⟩ := rbind_some_inv hI
  try dsimp only at hI
  obtain ⟨valid, re, -, hI⟩ := rbind_some_inv hI
  have hdf := rpure_inv hI
  have hsp : d.specialPoints = rms.2.2.1 := by
    rw [hd]
    exact congrArg (fun q => q.1.1.specialPoints) hdf
  have hrl : d.roomList = rms.2.1 := by
    rw [hd]
    exact congrArg (fun q => q.1.1.roomList) hdf
  rw [hsp]
  rw [hrl] at hlen
  exact createRooms_retain _ _ _ _ _ _ _ _ _ _ _ _ _ (rms, rcc) hcr hlen

/-- A crashing first computation crashes the whole `rbind`. -/
theorem rbind_none {α β : Type} {m : RandM α} (k : α → RandM β) (r : Rng)
    (h : m r = none) : rbind m k r = none := by
  unfold rbind
  rw [h]

/-- The entry/exit phase reads the incoming `specialPoints` in neither
branch: rooms, board and PRNG state are independent of it. -/
theorem entryExitPhase_indep (rooms : List Room) (sp sp' : SpecialPoints) (b : Board)
    (r : Rng) :
    (entryExitPhase rooms sp b r).map (fun p => (p.1.1, p.1.2.2, p.2)) =
    (entryExitPhase rooms sp' b r).map (fun p => (p.1.1, p.1.2.2, p.2)) := by
  unfold entryExitPhase
  by_cases h2 : 2 ≤ rooms.length
  · rw [if_pos h2, if_pos h2]
  · rw [if_neg h2, if_neg h2]
    rfl

/-- `#createRooms` output other than `specialPoints` is independent of the
incoming `specialPoints`. -/
theorem createRooms_indep (cc rc : Nat) (mx my mxx myy rlc : Int) (gl : List Grid)
    (pts : List PointObj) (conns : List Conn) (b : Board) (sp sp' : SpecialPoints)
    (r : Rng) :
    (createRooms cc rc mx my mxx myy rlc gl pts conns b sp r).map
      (fun p => (p.1.1, p.1.2.1, p.1.2.2.2, p.2)) =
    (createRooms cc rc mx my mxx myy rlc gl pts conns b sp' r).map
      (fun p => (p.1.1, p.1.2.1, p.1.2.2.2, p.2)) := by
  unfold createRooms
  cases hf : rfoldl (roomPhaseStep cc rc mx my mxx myy rlc pts conns) gl.enum
      ⟨b, [], []⟩ r with
  | none =>
    rw [rbind_none _ _ hf, rbind_none _ _ hf]
  | some pr =>
    obtain ⟨phase, r1⟩ := pr
    rw [rbind_eval _ r hf, rbind_eval _ r hf]
    try dsimp only
    have hee := entryExitPhase_indep phase.roomList sp sp' phase.board r1
    cases he : entryExitPhase phase.roomList sp phase.board r1 with
    | none =>
      cases he' : entryExitPhase phase.roomList sp' phase.board r1 with
      | none => rw [rbind_none _ _ he, rbind_none _ _ he']
      | some q => rw [he, he'] at hee; simp at hee
    | some q =>
      cases he' : entryExitPhase phase.roomList sp' phase.board r1 with
      | none => rw [he, he'] at hee; simp at hee
      | some q' =>
        rw [he, he'] at hee
        simp only [Option.map_some'] at hee
        injection hee with hee
        have e1 : q.1.1 = q'.1.1 := congrArg (fun t => t.1) hee
        have e2 : q.1.2.2 = q'.1.2.2 := congrArg (fun t => t.2.1) hee
        have e3 : q.2 = q'.2 := congrArg (fun t => t.2.2) hee
        rw [rbind_eval _ r1 (show _ = some (q.1, q.2) from he),
            rbind_eval _ r1 (show _ = some (q'.1, q'.2) from he')]
        try dsimp only
        simp only [rpure, Option.map_some']
        rw [e1, e2, e3]

/-- `regenerateI` output other than `specialPoints` is independent of the
incoming `specialPoints`. -/
theorem regenerateI_indep (s : Settings) (sp sp' : SpecialPoints) (r : Rng) :
    (regenerateI s sp r).map (fun p => (p.1.1.roomCount, p.1.1.board, p.1.1.gridList,
      p.1.1.pointList, p.1.1.connectionList, p.1.1.roomList, p.1.1.validDungeon,
      p.1.2, p.2)) =
    (regenerateI s sp' r).map (fun p => (p.1.1.roomCount, p.1.1.board, p.1.1.gridList,
      p.1.1.pointList, p.1.1.connectionList, p.1.1.roomList, p.1.1.validDungeon,
      p.1.2, p.2)) := by
  unfold regenerateI
  rw [rbind_rrand, rbind_rrand]
  try dsimp only
  cases hcp : createPaths s.minRoomSizeX s.minRoomSizeY s.pointLossChance
      (createGrid (adjustRoomCount (r.randomInt s.roomCountMin s.roomCountMax).1)
        s.rowCount s.colCount) (Board.init s.colCount s.rowCount)
      (r.randomInt s.roomCountMin s.roomCountMax).2 with
  | none => rw [rbind_none _ _ hcp, rbind_none _ _ hcp]
  | some pc =>
    obtain ⟨pcb, r2⟩ := pc
    rw [rbind_eval _ _ hcp, rbind_eval _ _ hcp]
    try dsimp only
    have hcr := createRooms_indep s.colCount s.rowCount s.minRoomSizeX s.minRoomSizeY
      s.maxRoomSizeX s.maxRoomSizeY s.roomLossChance
      (createGrid (adjustRoomCount (r.randomInt s.roomCountMin s.roomCountMax).1)
        s.rowCount s.colCount) pcb.1 pcb.2.1 pcb.2.2 sp sp' r2
    cases hc : createRooms s.colCount s.rowCount s.minRoomSizeX s.minRoomSizeY
        s.maxRoomSizeX s.maxRoomSizeY s.roomLossChance
        (createGrid (adjustRoomCount (r.randomInt s.roomCountMin s.roomCountMax).1)
          s.rowCount s.colCount) pcb.1 pcb.2.1 pcb.2.2 sp r2 with
    | none =>
      cases hc' : createRooms s.colCount s.rowCount s.minRoomSizeX s.minRoomSizeY
          s.maxRoomSizeX s.maxRoomSizeY s.roomLossChance
          (createGrid (adjustRoomCount (r.randomInt s.roomCountMin s.roomCountMax).1)
            s.rowCount s.colCount) pcb.1 pcb.2.1 pcb.2.2 sp' r2 with
      | none => rw [rbind_none _ _ hc, rbind_none _ _ hc']
      | some q => rw [hc, hc'] at hcr; simp at hcr
    | some q =>
      cases hc' : createRooms s.colCount s.rowCount s.minRoomSizeX s.minRoomSizeY
          s.maxRoomSizeX s.maxRoomSizeY s.roomLossChance
          (createGrid (adjustRoomCount (r.randomInt s.roomCountMin s.roomCountMax).1)
            s.rowCount s.colCount) pcb.1 pcb.2.1 pcb.2.2 sp' r2 with
      | none => rw [hc, hc'] at hcr; simp at hcr
      | some q' =>
        rw [hc, hc'] at hcr
        simp only [Option.map_some'] at hcr
        injection hcr with hcr
        have e1 : q.1.1 = q'.1.1 := congrArg (fun t => t.1) hcr
        have e2 : q.1.2.1 = q'.1.2.1 := congrArg (fun t => t.2.1) hcr
        have e3 : q.1.2.2.2 = q'.1.2.2.2 := congrArg (fun t => t.2.2.1) hcr
        have e4 : q.2 = q'.2 := congrArg (fun t => t.2.2.2) hcr
        rw [rbind_eval _ r2 (show _ = some (q.1, q.2) from hc),
            rbind_eval _ r2 (show _ = some (q'.1, q'.2) from hc')]
        try dsimp only
        rw [← e3, ← e4]
        cases ha : addRandomPaths s.randomPathMax q.1.2.2.2 q.2 with
        | none => rw [rbind_none _ _ ha, rbind_none _ _ ha]
        | some ab =>
          obtain ⟨b4, r4⟩ := ab
          rw [rbind_eval _ _ ha, rbind_eval _ _ ha]
          try dsimp only
          rw [← e2]
          cases hv : validateDungeon s.colCount s.rowCount b4 pcb.1
              (createGrid (adjustRoomCount (r.randomInt s.roomCountMin s.roomCountMax).1)
                s.rowCount s.colCount).length q.1.2.1.length r4 with
          | none => rw [rbind_none _ _ hv, rbind_none _ _ hv]
          | some vb =>
            obtain ⟨valid, r5⟩ := vb
            rw [rbind_eval _ _ hv, rbind_eval _ _ hv]
            simp only [rpure, Option.map_some']
            rw [← e1]

/-- A completed `regenerate` rebuilds everything except `specialPoints` from
the settings and the PRNG state alone. -/
theorem regenerate_indep (s : Settings) (sp sp' : SpecialPoints) (r : Rng) :
    (regenerate s sp r).map (fun p => (p.1.roomCount, p.1.board, p.1.gridList,
      p.1.pointList, p.1.connectionList, p.1.roomList, p.1.validDungeon, p.2)) =
    (regenerate s sp' r).map (fun p => (p.1.roomCount, p.1.board, p.1.gridList,
      p.1.pointList, p.1.connectionList, p.1.roomList, p.1.validDungeon, p.2)) := by
  unfold regenerate
  have hI := regenerateI_indep s sp sp' r
  cases hi : regenerateI s sp r with
  | none =>
    cases hi' : regenerateI s sp' r with
    | none => rw [rbind_none _ _ hi, rbind_none _ _ hi']
    | some q => rw [hi, hi'] at hI; simp at hI
  | some q =>
    cases hi' : regenerateI s sp' r with
    | none => rw [hi, hi'] at hI; simp at hI
    | some q' =>
      rw [hi, hi'] at hI
      simp only [Option.map_some'] at hI
      injection hI with hI
      rw [rbind_eval _ r (show _ = some (q.1, q.2) from hi),
          rbind_eval _ r (show _ = some (q'.1, q'.2) from hi')]
      simp only [rpure, Option.map_some']
      have e1 : q.1.1.roomCount = q'.1.1.roomCount := congrArg (fun t => t.1) hI
      have e2 : q.1.1.board = q'.1.1.board := congrArg (fun t => t.2.1) hI
      have e3 : q.1.1.gridList = q'.1.1.gridList := congrArg (fun t => t.2.2.1) hI
      have e4 : q.1.1.pointList = q'.1.1.pointList := congrArg (fun t => t.2.2.2.1) hI
      have e5 : q.1.1.connectionList = q'.1.1.connectionList :=
        congrArg (fun t => t.2.2.2.2.1) hI
      have e6 : q.1.1.roomList = q'.1.1.roomList := congrArg (fun t => t.2.2.2.2.2.1) hI
      have e7 : q.1.1.validDungeon = q'.1.1.validDungeon :=
        congrArg (fun t => t.2.2.2.2.2.2.1) hI
      have e9 : q.2 = q'.2 := congrArg (fun t => t.2.2.2.2.2.2.2.2) hI
      rw [e1, e2, e3, e4, e5, e6, e7, e9]

/-- C8: `regenerate()` rebuilds board, grid list, point list, connection
list, room list and validity from the settings and the PRNG state alone,
independently of the previous attempt — but `specialPoints` is NOT rebuilt:
it is never reset, and whenever the attempt ends with fewer than two rooms
the previous attempt's `specialPoints` is returned unchanged. -/
theorem c8_special_points_frame (s : Settings) (sp sp' : SpecialPoints) (r : Rng) :
    ((regenerate s sp r).map (fun p => (p.1.roomCount, p.1.board, p.1.gridList,
        p.1.pointList, p.1.connectionList, p.1.roomList, p.1.validDungeon, p.2)) =
      (regenerate s sp' r).map (fun p => (p.1.roomCount, p.1.board, p.1.gridList,
        p.1.pointList, p.1.connectionList, p.1.roomList, p.1.validDungeon, p.2))) ∧
    (∀ d r2, regenerate s sp r = some (d, r2) → d.roomList.length < 2 →
      d.specialPoints = sp) :=
  ⟨regenerate_indep s sp sp' r,
   fun d r2 h hlen => regenerate_retain s sp r d r2 h hlen⟩

/-- C8, counterexample: starting from entry seed 163170 the first attempt
produces two rooms and `specialPoints` entry (3, 14) / exit (4, 4); the
second attempt produces zero rooms yet returns exactly the same
`specialPoints`, retained from the earlier attempt. -/
theorem c8_counterexample :
    ((regenerate c8S ⟨none, none⟩ (seededRng 163170)).bind (fun p1 =>
      (regenerate c8S p1.1.specialPoints p1.2).map (fun p2 =>
        (p1.1.roomList.length, p1.1.specialPoints, p2.1.roomList.length,
          p2.1.specialPoints)))) =
    some (2, ⟨some ⟨3, 14⟩, some ⟨4, 4⟩⟩, 0, ⟨some ⟨3, 14⟩, some ⟨4, 4⟩⟩) := by
  rw [c8r1_run, Option.some_bind]
  try dsimp only
  rw [c8r2_run]
  rfl

/-- C8, witness: the concrete second attempt satisfies the hypotheses of the
retention part of the frame theorem, which then yields the retained
`specialPoints`. -/
theorem c8_witness :
    ∃ d r2, regenerate c8S ⟨some ⟨3, 14⟩, some ⟨4, 4⟩⟩ (seededRng 201517) =
        some (d, r2) ∧ d.roomList.length < 2 ∧
      d.specialPoints = ⟨some ⟨3, 14⟩, some ⟨4, 4⟩⟩ := by
  refine ⟨_, _, c8r2_run, ?_, ?_⟩
  · decide
  · exact (c8_special_points_frame c8S ⟨some ⟨3, 14⟩, some ⟨4, 4⟩⟩ ⟨none, none⟩
      (seededRng 201517)).2 _ _ c8r2_run (by decide)


/-! ## Claim C1 — `#getPath` round-trip -/

/-- One path step: the two points differ by exactly one in exactly one
axis (no diagonal jump, no gap). -/
def stepOk (a b : Pt) : Prop :=
  (a.x = b.x ∧ (b.y - a.y).natAbs = 1) ∨ (a.y = b.y ∧ (b.x - a.x).natAbs = 1)

instance (a b : Pt) : Decidable (stepOk a b) := by
  unfold stepOk
  infer_instance

/-- A mapped range is a chain when consecutive images are steps. -/
theorem seg_chain (f : Nat → Pt) (n : Nat)
    (hstep : ∀ i : Nat, i + 1 < n → stepOk (f i) (f (i + 1))) :
    List.Chain' stepOk ((List.range n).map f) := by
  rw [List.chain'_map]
  cases n with
  | zero => simp
  | succ m =>
    rw [List.chain'_range_succ]
    intro i hi
    exact hstep i (by omega)

/-- Head of a nonempty mapped range. -/
theorem seg_head (f : Nat → Pt) (n : Nat) (h : 0 < n) :
    ((List.range n).map f).head? = some (f 0) := by
  cases n with
  | zero => omega
  | succ m =>
    rw [List.range_succ_eq_map]
    simp

/-- Last element of a nonempty mapped range. -/
theorem seg_last (f : Nat → Pt) (n : Nat) (h : 0 < n) :
    ((List.range n).map f).getLast? = some (f (n - 1)) := by
  cases n with
  | zero => omega
  | succ m =>
    have hr : List.range (m + 1) = List.range m ++ [m] := List.range_succ m
    rw [hr, List.map_append]
    simp

/-- A nonempty mapped range is not nil. -/
theorem seg_ne_nil (f : Nat → Pt) (n : Nat) (h : 0 < n) :
    (List.range n).map f ≠ [] := by
  cases n with
  | zero => omega
  | succ m => simp [List.range_succ_eq_map]

/-- Head of an append whose first part has a head. -/
theorem head?_append_left {l1 l2 : List Pt} {a : Pt} (h : l1.head? = some a) :
    (l1 ++ l2).head? = some a := by
  cases l1 with
  | nil => simp at h
  | cons x xs => simpa using h

/-- The coerced list produced by `do`-notation is a plain `map`. -/
theorem bind_pure_map {α β : Type} (f : α → β) (l : List α) :
    (do let a ← l
        pure (f a)) = l.map f := by
  induction l with
  | nil => rfl
  | cons x xs ih =>
    simp only [List.pure_def, List.bind_eq_flatMap, List.flatMap_cons] at ih ⊢
    rw [ih]
    rfl

theorem c1_case1 (sx sy ex ey : Int) (hbr : ex - sx > ey - sy) (hxd : 0 < ex - sx)
    (hy0 : ey - sy = 0) (hex : 0 ≤ ex) :
    ∃ path : List Pt, getPath ⟨sx, sy⟩ ⟨ex, ey⟩ = some path ∧
      path.head? = some ⟨sx, sy⟩ ∧ path.getLast? = some ⟨ex, ey⟩ ∧
      List.Chain' stepOk path := by
  have hk1 : 0 < ((ex - sx).natAbs + 1) / 2 := by omega
  have hlx : sx + (((((ex - sx).natAbs + 1) / 2 : Nat) - 1 : Nat) : Int) < ex := by omega
  have hcnt : 0 < ((ex.natAbs : Int) -
      (sx + (((((ex - sx).natAbs + 1) / 2 : Nat) - 1 : Nat) : Int))).toNat := by omega
  refine ⟨((List.range (((ex - sx).natAbs + 1) / 2)).map
        (fun i : Nat => (⟨sx + (i : Int), sy⟩ : Pt))) ++
      ((List.range (((ex.natAbs : Int) -
          (sx + (((((ex - sx).natAbs + 1) / 2 : Nat) - 1 : Nat) : Int))).toNat)).map
        (fun j : Nat => (⟨sx + (((((ex - sx).natAbs + 1) / 2 : Nat) - 1 : Nat) : Int) +
          (j : Int) + 1, ey⟩ : Pt))), ?_, ?_, ?_, ?_⟩
  · unfold getPath
    dsimp only
    rw [if_pos hbr]
    simp only [if_pos hxd, bind_pure_map, List.map_map]
    rw [if_neg (by omega : ¬(ey - sy ≠ 0))]
    dsimp only
    rw [seg_last _ _ hk1]
    rfl
  · rw [head?_append_left (seg_head _ _ hk1)]
    simp
  · rw [List.getLast?_append_of_ne_nil _ (seg_ne_nil _ _ hcnt), seg_last _ _ hcnt]
    simp only [Option.some.injEq, Pt.mk.injEq]
    try simp only [true_and, and_true]
    try dsimp only
    omega
  · refine List.chain'_append.mpr ⟨seg_chain _ _ ?_, seg_chain _ _ ?_, ?_⟩
    · intro i hi
      simp only [stepOk]
      try simp only [true_and, and_true]
      try dsimp only
      omega
    · intro i hi
      simp only [stepOk]
      try simp only [true_and, and_true]
      try dsimp only
      omega
    · rw [seg_last _ _ hk1, seg_head _ _ hcnt]
      intro x hx y hy
      simp only [Option.mem_def, Option.some.injEq] at hx hy
      subst hx
      subst hy
      simp only [stepOk]
      try simp only [true_and, and_true]
      try dsimp only
      omega

theorem c1_case2 (sx sy ex ey : Int) (hbr : ex - sx > ey - sy) (hxd : 0 < ex - sx)
    (hyd : 0 < ey - sy) (hex : 0 ≤ ex) :
    ∃ path : List Pt, getPath ⟨sx, sy⟩ ⟨ex, ey⟩ = some path ∧
      path.head? = some ⟨sx, sy⟩ ∧ path.getLast? = some ⟨ex, ey⟩ ∧
      List.Chain' stepOk path := by
  have hk1 : 0 < ((ex - sx).natAbs + 1) / 2 := by omega
  have hyn : 0 < (ey - sy).natAbs := by omega
  have hlx : sx + (((((ex - sx).natAbs + 1) / 2 : Nat) - 1 : Nat) : Int) < ex := by omega
  have hcnt : 0 < ((ex.natAbs : Int) -
      (sx + (((((ex - sx).natAbs + 1) / 2 : Nat) - 1 : Nat) : Int))).toNat := by omega
  refine ⟨(((List.range (((ex - sx).natAbs + 1) / 2)).map
        (fun i : Nat => (⟨sx + (i : Int), sy⟩ : Pt))) ++
      ((List.range (ey - sy).natAbs).map
        (fun i : Nat => (⟨sx + (((((ex - sx).natAbs + 1) / 2 : Nat) - 1 : Nat) : Int),
          sy + ((i : Int) + 1)⟩ : Pt)))) ++
      ((List.range (((ex.natAbs : Int) -
          (sx + (((((ex - sx).natAbs + 1) / 2 : Nat) - 1 : Nat) : Int))).toNat)).map
        (fun j : Nat => (⟨sx + (((((ex - sx).natAbs + 1) / 2 : Nat) - 1 : Nat) : Int) +
          (j : Int) + 1, ey⟩ : Pt))), ?_, ?_, ?_, ?_⟩
  · unfold getPath
    dsimp only
    rw [if_pos hbr]
    simp only [if_pos hxd, if_pos hyd, bind_pure_map, List.map_map]
    rw [if_pos (by omega : ey - sy ≠ 0)]
    rw [seg_last _ _ hk1]
    dsimp only
    rw [List.getLast?_append_of_ne_nil _ (seg_ne_nil _ _ hyn), seg_last _ _ hyn]
    rfl
  · rw [head?_append_left (head?_append_left (seg_head _ _ hk1))]
    simp
  · rw [List.getLast?_append_of_ne_nil _ (seg_ne_nil _ _ hcnt), seg_last _ _ hcnt]
    simp only [Option.some.injEq, Pt.mk.injEq]
    try simp only [true_and, and_true]
    try dsimp only
    omega
  · refine List.chain'_append.mpr ⟨List.chain'_append.mpr
      ⟨seg_chain _ _ ?_, seg_chain _ _ ?_, ?_⟩, seg_chain _ _ ?_, ?_⟩
    · intro i hi
      simp only [stepOk]
      try simp only [true_and, and_true]
      try dsimp only
      omega
    · intro i hi
      simp only [stepOk]
      try simp only [true_and, and_true]
      try dsimp only
      omega
    · rw [seg_last _ _ hk1, seg_head _ _ hyn]
      intro x hx y hy
      simp only [Option.mem_def, Option.some.injEq] at hx hy
      subst hx
      subst hy
      simp only [stepOk]
      try simp only [true_and, and_true]
      try dsimp only
      omega
    · intro i hi
      simp only [stepOk]
      try simp only [true_and, and_true]
      try dsimp only
      omega
    · rw [List.getLast?_append_of_ne_nil _ (seg_ne_nil _ _ hyn), seg_last _ _ hyn,
        seg_head _ _ hcnt]
      intro x hx y hy
      simp only [Option.mem_def, Option.some.injEq] at hx hy
      subst hx
      subst hy
      simp only [stepOk]
      try simp only [true_and, and_true]
      try dsimp only
      omega

theorem c1_case3 (sx sy ex ey : Int) (hbr : ex - sx > ey - sy) (hxd : 0 < ex - sx)
    (hyd : ey - sy < 0) (hex : 0 ≤ ex) :
    ∃ path : List Pt, getPath ⟨sx, sy⟩ ⟨ex, ey⟩ = some path ∧
      path.head? = some ⟨sx, sy⟩ ∧ path.getLast? = some ⟨ex, ey⟩ ∧
      List.Chain' stepOk path := by
  have hk1 : 0 < ((ex - sx).natAbs + 1) / 2 := by omega
  have hyn : 0 < (ey - sy).natAbs := by omega
  have hlx : sx + (((((ex - sx).natAbs + 1) / 2 : Nat) - 1 : Nat) : Int) < ex := by omega
  have hcnt : 0 < ((ex.natAbs : Int) -
      (sx + (((((ex - sx).natAbs + 1) / 2 : Nat) - 1 : Nat) : Int))).toNat := by omega
  refine ⟨(((List.range (((ex - sx).natAbs + 1) / 2)).map
        (fun i : Nat => (⟨sx + (i : Int), sy⟩ : Pt))) ++
      ((List.range (ey - sy).natAbs).map
        (fun i : Nat => (⟨sx + (((((ex - sx).natAbs + 1) / 2 : Nat) - 1 : Nat) : Int),
          sy - ((i : Int) + 1)⟩ : Pt)))) ++
      ((List.range (((ex.natAbs : Int) -
          (sx + (((((ex - sx).natAbs + 1) / 2 : Nat) - 1 : Nat) : Int))).toNat)).map
        (fun j : Nat => (⟨sx + (((((ex - sx).natAbs + 1) / 2 : Nat) - 1 : Nat) : Int) +
          (j : Int) + 1, ey⟩ : Pt))), ?_, ?_, ?_, ?_⟩
  · unfold getPath
    dsimp only
    rw [if_pos hbr]
    simp only [if_pos hxd, if_neg (by omega : ¬(0 < ey - sy)), bind_pure_map, List.map_map]
    rw [if_pos (by omega : ey - sy ≠ 0)]
    rw [seg_last _ _ hk1]
    dsimp only
    rw [List.getLast?_append_of_ne_nil _ (seg_ne_nil _ _ hyn), seg_last _ _ hyn]
    rfl
  · rw [head?_append_left (head?_append_left (seg_head _ _ hk1))]
    simp
  · rw [List.getLast?_append_of_ne_nil _ (seg_ne_nil _ _ hcnt), seg_last _ _ hcnt]
    simp only [Option.some.injEq, Pt.mk.injEq]
    try simp only [true_and, and_true]
    try dsimp only
    omega
  · refine List.chain'_append.mpr ⟨List.chain'_append.mpr
      ⟨seg_chain _ _ ?_, seg_chain _ _ ?_, ?_⟩, seg_chain _ _ ?_, ?_⟩
    · intro i hi
      simp only [stepOk]
      try simp only [true_and, and_true]
      try dsimp only
      omega
    · intro i hi
      simp only [stepOk]
      try simp only [true_and, and_true]
      try dsimp only
      omega
    · rw [seg_last _ _ hk1, seg_head _ _ hyn]
      intro x hx y hy
      simp only [Option.mem_def, Option.some.injEq] at hx hy
      subst hx
      subst hy
      simp only [stepOk]
      try simp only [true_and, and_true]
      try dsimp only
      omega
    · intro i hi
      simp only [stepOk]
      try simp only [true_and, and_true]
      try dsimp only
      omega
    · rw [List.getLast?_append_of_ne_nil _ (seg_ne_nil _ _ hyn), seg_last _ _ hyn,
        seg_head _ _ hcnt]
      intro x hx y hy
      simp only [Option.mem_def, Option.some.injEq] at hx hy
      subst hx
      subst hy
      simp only [stepOk]
      try simp only [true_and, and_true]
      try dsimp only
      omega


theorem c1_case4 (sx sy ex ey : Int) (hbr : ¬(ex - sx > ey - sy)) (hyd : 0 < ey - sy)
    (hx0 : ex - sx = 0) (hey : 0 ≤ ey) :
    ∃ path : List Pt, getPath ⟨sx, sy⟩ ⟨ex, ey⟩ = some path ∧
      path.head? = some ⟨sx, sy⟩ ∧ path.getLast? = some ⟨ex, ey⟩ ∧
      List.Chain' stepOk path := by
  have hk1 : 0 < ((ey - sy).natAbs + 1) / 2 := by omega
  have hly : sy + (((((ey - sy).natAbs + 1) / 2 : Nat) - 1 : Nat) : Int) < ey := by omega
  have hcnt : 0 < ((ey.natAbs : Int) -
      (sy + (((((ey - sy).natAbs + 1) / 2 : Nat) - 1 : Nat) : Int))).toNat := by omega
  refine ⟨((List.range (((ey - sy).natAbs + 1) / 2)).map
        (fun i : Nat => (⟨sx, sy + (i : Int)⟩ : Pt))) ++
      ((List.range (((ey.natAbs : Int) -
          (sy + (((((ey - sy).natAbs + 1) / 2 : Nat) - 1 : Nat) : Int))).toNat)).map
        (fun j : Nat => (⟨ex, sy + (((((ey - sy).natAbs + 1) / 2 : Nat) - 1 : Nat) : Int) +
          (j : Int) + 1⟩ : Pt))), ?_, ?_, ?_, ?_⟩
  · unfold getPath
    dsimp only
    rw [if_neg hbr]
    simp only [if_pos hyd, bind_pure_map, List.map_map]
    rw [if_neg (by omega : ¬(ex - sx ≠ 0))]
    dsimp only
    rw [seg_last _ _ hk1]
    rfl
  · rw [head?_append_left (seg_head _ _ hk1)]
    simp
  · rw [List.getLast?_append_of_ne_nil _ (seg_ne_nil _ _ hcnt), seg_last _ _ hcnt]
    simp only [Option.some.injEq, Pt.mk.injEq]
    try simp only [true_and, and_true]
    try dsimp only
    omega
  · refine List.chain'_append.mpr ⟨seg_chain _ _ ?_, seg_chain _ _ ?_, ?_⟩
    · intro i hi
      simp only [stepOk]
      try simp only [true_and, and_true]
      try dsimp only
      omega
    · intro i hi
      simp only [stepOk]
      try simp only [true_and, and_true]
      try dsimp only
      omega
    · rw [seg_last _ _ hk1, seg_head _ _ hcnt]
      intro x hx y hy
      simp only [Option.mem_def, Option.some.injEq] at hx hy
      subst hx
      subst hy
      simp only [stepOk]
      try simp only [true_and, and_true]
      try dsimp only
      omega

theorem c1_case5 (sx sy ex ey : Int) (hbr : ¬(ex - sx > ey - sy)) (hyd : 0 < ey - sy)
    (hxd : 0 < ex - sx) (hey : 0 ≤ ey) :
    ∃ path : List Pt, getPath ⟨sx, sy⟩ ⟨ex, ey⟩ = some path ∧
      path.head? = some ⟨sx, sy⟩ ∧ path.getLast? = some ⟨ex, ey⟩ ∧
      List.Chain' stepOk path := by
  have hk1 : 0 < ((ey - sy).natAbs + 1) / 2 := by omega
  have hxn : 0 < (ex - sx).natAbs := by omega
  have hly : sy + (((((ey - sy).natAbs + 1) / 2 : Nat) - 1 : Nat) : Int) < ey := by omega
  have hcnt : 0 < ((ey.natAbs : Int) -
      (sy + (((((ey - sy).natAbs + 1) / 2 : Nat) - 1 : Nat) : Int))).toNat := by omega
  refine ⟨(((List.range (((ey - sy).natAbs + 1) / 2)).map
        (fun i : Nat => (⟨sx, sy + (i : Int)⟩ : Pt))) ++
      ((List.range (ex - sx).natAbs).map
        (fun i : Nat => (⟨sx + ((i : Int) + 1),
          sy + (((((ey - sy).natAbs + 1) / 2 : Nat) - 1 : Nat) : Int)⟩ : Pt)))) ++
      ((List.range (((ey.natAbs : Int) -
          (sy + (((((ey - sy).natAbs + 1) / 2 : Nat) - 1 : Nat) : Int))).toNat)).map
        (fun j : Nat => (⟨ex, sy + (((((ey - sy).natAbs + 1) / 2 : Nat) - 1 : Nat) : Int) +
          (j : Int) + 1⟩ : Pt))), ?_, ?_, ?_, ?_⟩
  · unfold getPath
    dsimp only
    rw [if_neg hbr]
    simp only [if_pos hyd, if_pos hxd, bind_pure_map, List.map_map]
    rw [if_pos (by omega : ex - sx ≠ 0)]
    rw [seg_last _ _ hk1]
    dsimp only
    rw [List.getLast?_append_of_ne_nil _ (seg_ne_nil _ _ hxn), seg_last _ _ hxn]
    rfl
  · rw [head?_append_left (head?_append_left (seg_head _ _ hk1))]
    simp
  · rw [List.getLast?_append_of_ne_nil _ (seg_ne_nil _ _ hcnt), seg_last _ _ hcnt]
    simp only [Option.some.injEq, Pt.mk.injEq]
    try simp only [true_and, and_true]
    try dsimp only
    omega
  · refine List.chain'_append.mpr ⟨List.chain'_append.mpr
      ⟨seg_chain _ _ ?_, seg_chain _ _ ?_, ?_⟩, seg_chain _ _ ?_, ?_⟩
    · intro i hi
      simp only [stepOk]
      try simp only [true_and, and_true]
      try dsimp only
      omega
    · intro i hi
      simp only [stepOk]
      try simp only [true_and, and_true]
      try dsimp only
      omega
    · rw [seg_last _ _ hk1, seg_head _ _ hxn]
      intro x hx y hy
      simp only [Option.mem_def, Option.some.injEq] at hx hy
      subst hx
      subst hy
      simp only [stepOk]
      try simp only [true_and, and_true]
      try dsimp only
      omega
    · intro i hi
      simp only [stepOk]
      try simp only [true_and, and_true]
      try dsimp only
      omega
    · rw [List.getLast?_append_of_ne_nil _ (seg_ne_nil _ _ hxn), seg_last _ _ hxn,
        seg_head _ _ hcnt]
      intro x hx y hy
      simp only [Option.mem_def, Option.some.injEq] at hx hy
      subst hx
      subst hy
      simp only [stepOk]
      try simp only [true_and, and_true]
      try dsimp only
      omega

theorem c1_case6 (sx sy ex ey : Int) (hbr : ¬(ex - sx > ey - sy)) (hyd : 0 < ey - sy)
    (hxd : ex - sx < 0) (hey : 0 ≤ ey) :
    ∃ path : List Pt, getPath ⟨sx, sy⟩ ⟨ex, ey⟩ = some path ∧
      path.head? = some ⟨sx, sy⟩ ∧ path.getLast? = some ⟨ex, ey⟩ ∧
      List.Chain' stepOk path := by
  have hk1 : 0 < ((ey - sy).natAbs + 1) / 2 := by omega
  have hxn : 0 < (ex - sx).natAbs := by omega
  have hly : sy + (((((ey - sy).natAbs + 1) / 2 : Nat) - 1 : Nat) : Int) < ey := by omega
  have hcnt : 0 < ((ey.natAbs : Int) -
      (sy + (((((ey - sy).natAbs + 1) / 2 : Nat) - 1 : Nat) : Int))).toNat := by omega
  refine ⟨(((List.range (((ey - sy).natAbs + 1) / 2)).map
        (fun i : Nat => (⟨sx, sy + (i : Int)⟩ : Pt))) ++
      ((List.range (ex - sx).natAbs).map
        (fun i : Nat => (⟨sx - ((i : Int) + 1),
          sy + (((((ey - sy).natAbs + 1) / 2 : Nat) - 1 : Nat) : Int)⟩ : Pt)))) ++
      ((List.range (((ey.natAbs : Int) -
          (sy + (((((ey - sy).natAbs + 1) / 2 : Nat) - 1 : Nat) : Int))).toNat)).map
        (fun j : Nat => (⟨ex, sy + (((((ey - sy).natAbs + 1) / 2 : Nat) - 1 : Nat) : Int) +
          (j : Int) + 1⟩ : Pt))), ?_, ?_, ?_, ?_⟩
  · unfold getPath
    dsimp only
    rw [if_neg hbr]
    simp only [if_pos hyd, if_neg (by omega : ¬(0 < ex - sx)), bind_pure_map, List.map_map]
    rw [if_pos (by omega : ex - sx ≠ 0)]
    rw [seg_last _ _ hk1]
    dsimp only
    rw [List.getLast?_append_of_ne_nil _ (seg_ne_nil _ _ hxn), seg_last _ _ hxn]
    rfl
  · rw [head?_append_left (head?_append_left (seg_head _ _ hk1))]
    simp
  · rw [List.getLast?_append_of_ne_nil _ (seg_ne_nil _ _ hcnt), seg_last _ _ hcnt]
    simp only [Option.some.injEq, Pt.mk.injEq]
    try simp only [true_and, and_true]
    try dsimp only
    omega
  · refine List.chain'_append.mpr ⟨List.chain'_append.mpr
      ⟨seg_chain _ _ ?_, seg_chain _ _ ?_, ?_⟩, seg_chain _ _ ?_, ?_⟩
    · intro i hi
      simp only [stepOk]
      try simp only [true_and, and_true]
      try dsimp only
      omega
    · intro i hi
      simp only [stepOk]
      try simp only [true_and, and_true]
      try dsimp only
      omega
    · rw [seg_last _ _ hk1, seg_head _ _ hxn]
      intro x hx y hy
      simp only [Option.mem_def, Option.some.injEq] at hx hy
      subst hx
      subst hy
      simp only [stepOk]
      try simp only [true_and, and_true]
      try dsimp only
      omega
    · intro i hi
      simp only [stepOk]
      try simp only [true_and, and_true]
      try dsimp only
      omega
    · rw [List.getLast?_append_of_ne_nil _ (seg_ne_nil _ _ hxn), seg_last _ _ hxn,
        seg_head _ _ hcnt]
      intro x hx y hy
      simp only [Option.mem_def, Option.some.injEq] at hx hy
      subst hx
      subst hy
      simp only [stepOk]
      try simp only [true_and, and_true]
      try dsimp only
      omega

/-- C1, amended: when the dominant difference `max(xDiff, yDiff)` is
positive, the synthesized path starts at the start point, ends exactly at
the destination and moves one tile in one axis per step.  (When the
dominant difference is nonpositive the closing loop of the source runs
zero times and the path stops short — see the counterexample.) -/
theorem c1_path_roundtrip (p1 p2 : Pt)
    (h1x : 3 ≤ p1.x) (h1y : 3 ≤ p1.y) (h2x : 3 ≤ p2.x) (h2y : 3 ≤ p2.y)
    (hmax : 0 < max (p2.x - p1.x) (p2.y - p1.y)) :
    ∃ path : List Pt, getPath p1 p2 = some path ∧ path.head? = some p1 ∧
      path.getLast? = some p2 ∧ List.Chain' stepOk path := by
  obtain ⟨sx, sy⟩ := p1
  obtain ⟨ex, ey⟩ := p2
  try dsimp only at h1x h1y h2x h2y hmax ⊢
  by_cases hbr : ex - sx > ey - sy
  · have hxd : 0 < ex - sx := by
      rcases max_choice (ex - sx) (ey - sy) with h | h <;> rw [h] at hmax <;> omega
    rcases lt_trichotomy (ey - sy) 0 with hy | hy | hy
    · exact c1_case3 sx sy ex ey hbr hxd hy (by omega)
    · exact c1_case1 sx sy ex ey hbr hxd hy (by omega)
    · exact c1_case2 sx sy ex ey hbr hxd hy (by omega)
  · have hyd : 0 < ey - sy := by
      rcases max_choice (ex - sx) (ey - sy) with h | h <;> rw [h] at hmax <;> omega
    rcases lt_trichotomy (ex - sx) 0 with hx | hx | hx
    · exact c1_case6 sx sy ex ey hbr hyd hx (by omega)
    · exact c1_case4 sx sy ex ey hbr hyd hx (by omega)
    · exact c1_case5 sx sy ex ey hbr hyd hx (by omega)

/-- C1, counterexample: for the distinct points (10, 5) and (3, 4) — both
with minRoomSize-respecting coordinates — the returned path ends at (3, 5),
not at the destination (3, 4): the closing loop `while (i < Math.abs(endY))`
runs zero times because the dominant difference is negative. -/
theorem c1_counterexample :
    (getPath ⟨10, 5⟩ ⟨3, 4⟩).map (fun p => p.getLast?) = some (some ⟨3, 5⟩) ∧
    ((⟨10, 5⟩ : Pt) ≠ ⟨3, 4⟩) ∧ ((⟨3, 5⟩ : Pt) ≠ ⟨3, 4⟩) ∧
    (3 : Int) ≤ 10 ∧ (3 : Int) ≤ 5 ∧ (3 : Int) ≤ 3 ∧ (3 : Int) ≤ 4 := by
  refine ⟨by decide, by decide, by decide, by norm_num, by norm_num, by norm_num,
    by norm_num⟩

/-- C1, witness: the amended round-trip theorem applied to the concrete
pair (3, 3) → (10, 4). -/
theorem c1_witness :
    0 < max ((10 : Int) - 3) ((4 : Int) - 3) ∧
    ∃ path : List Pt, getPath ⟨3, 3⟩ ⟨10, 4⟩ = some path ∧
      path.head? = some ⟨3, 3⟩ ∧ path.getLast? = some ⟨10, 4⟩ ∧
      List.Chain' stepOk path :=
  ⟨by norm_num, c1_path_roundtrip ⟨3, 3⟩ ⟨10, 4⟩ (by norm_num) (by norm_num)
    (by norm_num) (by norm_num) (by norm_num)⟩


/-! ## Claim C5 — seed determinism -/

/-- Two PRNG states agreeing on a present seed. -/
def SimR (a b : Rng) : Prop := ∃ s : Int, a.seed = some s ∧ b.seed = some s

/-- A randomized computation whose behaviour depends on the state only
through a present seed: on related states it crashes on both or returns the
same value with related states. -/
def SimM {α : Type} (m : RandM α) : Prop :=
  ∀ a b, SimR a b →
    (m a = none ∧ m b = none) ∨
    (∃ x a2 b2, m a = some (x, a2) ∧ m b = some (x, b2) ∧ SimR a2 b2)

/-- A seeded draw yields the same value and related successor states. -/
theorem simR_randomInt (a b : Rng) (lo hi : Int) (h : SimR a b) :
    (a.randomInt lo hi).1 = (b.randomInt lo hi).1 ∧
    SimR (a.randomInt lo hi).2 (b.randomInt lo hi).2 := by
  obtain ⟨s, ha, hb⟩ := h
  rw [randomInt_seeded a s lo hi ha, randomInt_seeded b s lo hi hb]
  exact ⟨rfl, ⟨nextSeedVal s, rfl, rfl⟩⟩

theorem simM_pure {α : Type} (x : α) : SimM (rpure x) := fun a b h =>
  Or.inr ⟨x, a, b, rfl, rfl, h⟩

theorem simM_fail {α : Type} : SimM (rfailM : RandM α) := fun _ _ _ =>
  Or.inl ⟨rfl, rfl⟩

theorem simM_ofOption {α : Type} (o : Option α) : SimM (rofOption o) := by
  intro a b h
  cases o with
  | none => exact Or.inl ⟨rfl, rfl⟩
  | some x => exact Or.inr ⟨x, a, b, rfl, rfl, h⟩

theorem simM_rand (lo hi : Int) : SimM (rrand lo hi) := by
  intro a b h
  obtain ⟨hv, h2⟩ := simR_randomInt a b lo hi h
  refine Or.inr ⟨(a.randomInt lo hi).1, (a.randomInt lo hi).2, (b.randomInt lo hi).2,
    rfl, ?_, h2⟩
  show some (b.randomInt lo hi) = some ((a.randomInt lo hi).1, (b.randomInt lo hi).2)
  rw [hv]

theorem simM_bind {α β : Type} {m : RandM α} {k : α → RandM β}
    (hm : SimM m) (hk : ∀ x, SimM (k x)) : SimM (rbind m k) := by
  intro a b h
  rcases hm a b h with ⟨h1, h2⟩ | ⟨x, a2, b2, h1, h2, h3⟩
  · exact Or.inl ⟨by unfold rbind; rw [h1], by unfold rbind; rw [h2]⟩
  · rcases hk x a2 b2 h3 with ⟨h4, h5⟩ | ⟨y, a3, b3, h4, h5, h6⟩
    · exact Or.inl ⟨by unfold rbind; rw [h1]; exact h4, by unfold rbind; rw [h2]; exact h5⟩
    · exact Or.inr ⟨y, a3, b3, by unfold rbind; rw [h1]; exact h4,
        by unfold rbind; rw [h2]; exact h5, h6⟩

theorem simM_foldl {α β : Type} {f : β → α → RandM β}
    (hf : ∀ acc x, SimM (f acc x)) (l : List α) : ∀ acc, SimM (rfoldl f l acc) := by
  induction l with
  | nil => intro acc; exact simM_pure acc
  | cons x xs ih => intro acc; exact simM_bind (hf acc x) (fun b2 => ih b2)
theorem simM_pointsPhase (mX mY : Int) (gl : List Grid) :
    SimM (pointsPhase mX mY gl) := by
  unfold pointsPhase
  apply simM_foldl
  intro acc ig
  exact simM_bind (simM_rand _ _) (fun x =>
    simM_bind (simM_rand _ _) (fun y => simM_pure _))

theorem simM_connPhase (plc : Int) (gl : List Grid) (pts : List PointObj) :
    SimM (connPhase plc gl pts) := by
  unfold connPhase
  apply simM_foldl
  intro acc grid
  apply simM_foldl
  intro acc2 ag
  cases pts.get? grid.index with
  | none =>
    cases pts.get? ag.index with
    | some p2 => exact simM_fail
    | none => exact simM_fail
  | some p1 =>
    cases pts.get? ag.index with
    | none => exact simM_fail
    | some p2 => exact simM_bind (simM_rand _ _) (fun roll => simM_pure _)

theorem simM_createPaths (mX mY plc : Int) (gl : List Grid) (b : Board) :
    SimM (createPaths mX mY plc gl b) := by
  unfold createPaths
  exact simM_bind (simM_pointsPhase mX mY gl) (fun pts =>
    simM_bind (simM_ofOption _) (fun b2 =>
    simM_bind (simM_connPhase plc gl pts) (fun conns =>
    simM_bind (simM_ofOption _) (fun b3 => simM_pure _))))

theorem simM_attemptLoop (b : Board) (cc rc : Nat) (mx my mxx myy : Int)
    (g : Grid) (p : PointObj) (n : Nat) :
    ∀ w h rx ry, SimM (attemptLoop b cc rc mx my mxx myy g p n w h rx ry) := by
  induction n with
  | zero => intro w h rx ry; exact simM_pure _
  | succ m ih =>
    intro w h rx ry
    apply simM_bind (simM_ofOption _)
    intro vo
    by_cases hvo : (vo.1 && vo.2) = true
    · rw [if_pos hvo]
      exact simM_pure _
    · rw [if_neg hvo]
      exact simM_bind (simM_rand _ _) (fun w2 =>
        simM_bind (simM_rand _ _) (fun h2 =>
        simM_bind (simM_rand _ _) (fun rx2 =>
        simM_bind (simM_rand _ _) (fun ry2 => ih w2 h2 rx2 ry2))))

theorem simM_roomPhaseStep (cc rc : Nat) (mx my mxx myy rlc : Int)
    (pts : List PointObj) (conns : List Conn) (acc : RoomPhaseOut) (ig : Nat × Grid) :
    SimM (roomPhaseStep cc rc mx my mxx myy rlc pts conns acc ig) := by
  unfold roomPhaseStep
  try dsimp only
  by_cases hc : (conns.filter (fun c => c.point1.gridIndex = ig.2.index ∨
      c.point2.gridIndex = ig.2.index)).length = 0
  · rw [if_pos hc]
    exact simM_pure _
  · rw [if_neg hc]
    cases (pts.filter (fun p => p.gridIndex = ig.2.index)).head? with
    | none => exact simM_fail
    | some point =>
      refine simM_bind (simM_rand _ _) (fun w => simM_bind (simM_rand _ _) (fun h =>
        simM_bind (simM_rand _ _) (fun rx => simM_bind (simM_rand _ _) (fun ry =>
        simM_bind (simM_attemptLoop _ _ _ _ _ _ _ _ _ 1000 w h rx ry) (fun res =>
        simM_bind (simM_rand _ _) (fun dice => ?_))))))
      by_cases hd : dice ≥ rlc
      · rw [if_pos hd]
        exact simM_bind (simM_ofOption _) (fun b2 => simM_pure _)
      · rw [if_neg hd]
        exact simM_pure _

theorem simM_entryExitPhase (rooms : List Room) (sp : SpecialPoints) (b : Board) :
    SimM (entryExitPhase rooms sp b) := by
  unfold entryExitPhase
  by_cases h2 : 2 ≤ rooms.length
  · rw [if_pos h2]
    refine simM_bind (simM_rand _ _) (fun eIdx => ?_)
    try dsimp only
    refine simM_bind (simM_rand _ _) (fun xIdx => ?_)
    try dsimp only
    cases (if 0 ≤ eIdx then rooms.get? eIdx.toNat else none) with
    | none =>
      cases (if 0 ≤ xIdx then (rooms.eraseIdx (if eIdx < 0 then
          (max 0 ((rooms.length : Int) + eIdx)).toNat else eIdx.toNat)).get? xIdx.toNat
          else none) with
      | none => exact simM_fail
      | some xR => exact simM_fail
    | some eR =>
      cases (if 0 ≤ xIdx then (rooms.eraseIdx (if eIdx < 0 then
          (max 0 ((rooms.length : Int) + eIdx)).toNat else eIdx.toNat)).get? xIdx.toNat
          else none) with
      | none => exact simM_fail
      | some xR =>
        exact simM_bind (simM_rand _ _) (fun ex =>
          simM_bind (simM_rand _ _) (fun ey =>
          simM_bind (simM_rand _ _) (fun xx =>
          simM_bind (simM_rand _ _) (fun xy =>
          simM_bind (simM_ofOption _) (fun b2 =>
          simM_bind (simM_ofOption _) (fun b3 => simM_pure _))))))
  · rw [if_neg h2]
    exact simM_pure _

theorem simM_createRooms (cc rc : Nat) (mx my mxx myy rlc : Int) (gl : List Grid)
    (pts : List PointObj) (conns : List Conn) (b : Board) (sp : SpecialPoints) :
    SimM (createRooms cc rc mx my mxx myy rlc gl pts conns b sp) := by
  unfold createRooms
  exact simM_bind (simM_foldl (fun acc ig => simM_roomPhaseStep cc rc mx my mxx myy rlc
      pts conns acc ig) gl.enum _) (fun phase =>
    simM_bind (simM_entryExitPhase _ _ _) (fun fin => simM_pure _))

theorem simM_randomPathsLoop (tiles : List Pt) (n : Nat) :
    ∀ b, SimM (randomPathsLoop tiles n b) := by
  induction n with
  | zero => intro b; exact simM_pure _
  | succ m ih =>
    intro b
    refine simM_bind (simM_rand _ _) (fun si => simM_bind (simM_rand _ _) (fun ei => ?_))
    cases (if 0 ≤ si then tiles.get? si.toNat else none) with
    | none =>
      cases (if 0 ≤ ei then tiles.get? ei.toNat else none) with
      | none => exact simM_fail
      | some e => exact simM_fail
    | some s =>
      cases (if 0 ≤ ei then tiles.get? ei.toNat else none) with
      | none => exact simM_fail
      | some e =>
        try dsimp only
        by_cases hax : s.x = e.x ∨ s.y = e.y
        · rw [if_pos hax]
          exact ih b
        · rw [if_neg hax]
          cases getPath s e with
          | none => exact simM_fail
          | some path => exact simM_bind (simM_ofOption _) (fun b2 => ih b2)

theorem simM_addRandomPaths (rpm : Int) (b : Board) : SimM (addRandomPaths rpm b) := by
  unfold addRandomPaths
  exact simM_bind (simM_rand _ _) (fun pathCount =>
    simM_bind (simM_ofOption _) (fun tiles => simM_randomPathsLoop tiles _ b))

theorem simM_validationFlood (cc rc : Nat) (b : Board) (pts : List PointObj) :
    SimM (validationFlood cc rc b pts) := by
  unfold validationFlood
  refine simM_bind (simM_rand _ _) (fun idx => ?_)
  cases (if 0 ≤ idx then pts.get? idx.toNat else none) with
  | none => exact simM_fail
  | some p0 =>
    try dsimp only
    cases floodLoop b (9 * (cc * rc) + 9) [] [⟨p0.x, p0.y⟩] 0 with
    | crash => exact simM_fail
    | fuelOut => exact simM_fail
    | ok checked => exact simM_pure _

theorem simM_validateDungeon (cc rc : Nat) (b : Board) (pts : List PointObj)
    (gc rcnt : Nat) : SimM (validateDungeon cc rc b pts gc rcnt) := by
  unfold validateDungeon
  exact simM_bind (simM_validationFlood cc rc b pts) (fun checked => simM_pure _)

theorem simM_regenerate (s : Settings) (sp : SpecialPoints) :
    SimM (regenerate s sp) := by
  unfold regenerate regenerateI
  exact simM_bind (simM_bind (simM_rand _ _) (fun rc0 =>
    simM_bind (simM_createPaths _ _ _ _ _) (fun pcb =>
    simM_bind (simM_createRooms _ _ _ _ _ _ _ _ _ _ _ _) (fun rms =>
    simM_bind (simM_addRandomPaths _ _) (fun b4 =>
    simM_bind (simM_validateDungeon _ _ _ _ _ _) (fun valid =>
    simM_pure _)))))) (fun p => simM_pure _)

theorem simM_forcedLoop (s : Settings) (n : Nat) :
    ∀ sp, SimM (forcedLoop s n sp) := by
  induction n with
  | zero => intro sp; exact simM_fail
  | succ m ih =>
    intro sp
    refine simM_bind (simM_regenerate _ _) (fun st => ?_)
    by_cases hv : st.validDungeon = true
    · rw [if_pos hv]
      exact simM_pure _
    · rw [if_neg hv]
      exact ih st.specialPoints

theorem simM_tryLoop (s : Settings) (ff : Nat) (n : Nat) :
    ∀ sp, SimM (tryLoop s ff n sp) := by
  induction n with
  | zero => intro sp; exact simM_forcedLoop s ff sp
  | succ m ih =>
    intro sp
    refine simM_bind (simM_regenerate _ _) (fun st => ?_)
    by_cases hv : st.validDungeon = true
    · rw [if_pos hv]
      exact simM_pure _
    · rw [if_neg hv]
      exact ih st.specialPoints

theorem simM_mkDungeon (cfg : Config) (ff : Nat) : SimM (mkDungeon cfg ff) := by
  unfold mkDungeon
  exact simM_bind (simM_rand _ _) (fun _ => simM_tryLoop _ ff 10 ⟨none, none⟩)

/-- C5: with a non-null integer seed, the whole construction is a function
of the seed and the configuration alone: two instances built from the same
seed and configuration — each with its own `Math.random` oracle — produce
the same board (indeed the same full dungeon state), or both fail. -/
theorem c5_seed_determinism (cfg : Config) (s : Int) (forcedFuel : Nat)
    (e1 e2 : Nat → Int) :
    (mkDungeon { cfg with seed := some s } forcedFuel
        (mkRng { cfg with seed := some s } e1)).map (fun p => p.1.board) =
    (mkDungeon { cfg with seed := some s } forcedFuel
        (mkRng { cfg with seed := some s } e2)).map (fun p => p.1.board) := by
  have h := simM_mkDungeon { cfg with seed := some s } forcedFuel
    (mkRng { cfg with seed := some s } e1) (mkRng { cfg with seed := some s } e2)
    ⟨s, rfl, rfl⟩
  rcases h with ⟨h1, h2⟩ | ⟨x, a2, b2, h1, h2, h3⟩
  · rw [h1, h2]
  · rw [h1, h2]
    rfl


/-! ### C7: entry and exit rooms -/

/-- A PRNG state whose draws are always in range: either unseeded (the
`Math.random` oracle is range-clamped by construction) or seeded with a
nonnegative value. -/
def RngOk (r : Rng) : Prop := ∀ s, r.seed = some s → 0 ≤ s

/-- The oracle-backed draw lies in the requested interval. -/
theorem extDraw_bounds (t lo hi : Int) (h : lo ≤ hi) :
    lo ≤ extDraw t lo hi ∧ extDraw t lo hi ≤ hi := by
  unfold extDraw
  rw [if_pos (by omega : 1 ≤ hi - lo + 1)]
  have h1 : 0 ≤ t.emod (hi - lo + 1) := Int.emod_nonneg t (by omega)
  have h2 : t.emod (hi - lo + 1) < hi - lo + 1 := Int.emod_lt_of_pos t (by omega)
  omega

/-- In-range draws from a well-formed state, and preservation. -/
theorem randomInt_ok (r : Rng) (lo hi : Int) (hok : RngOk r) (hlh : lo ≤ hi) :
    lo ≤ (r.randomInt lo hi).1 ∧ (r.randomInt lo hi).1 ≤ hi ∧
    RngOk (r.randomInt lo hi).2 := by
  unfold Rng.randomInt
  cases hs : r.seed with
  | none =>
    obtain ⟨h1, h2⟩ := extDraw_bounds (r.ext r.extIdx) lo hi hlh
    exact ⟨h1, h2, fun s h => absurd h (by simp [hs])⟩
  | some s =>
    have h0 : 0 ≤ s := hok s hs
    obtain ⟨h1, h2⟩ := seededVal_bounds (nextSeedVal s) lo hi (nextSeedVal_nonneg s h0)
      (nextSeedVal_lt s h0) hlh
    refine ⟨h1, h2, fun s2 h => ?_⟩
    simp only [Option.some.injEq] at h
    rw [← h]
    exact nextSeedVal_nonneg s h0

/-- Any draw preserves well-formedness of the state. -/
theorem randomInt_pres (r : Rng) (lo hi : Int) (hok : RngOk r) :
    RngOk (r.randomInt lo hi).2 := by
  unfold Rng.randomInt
  cases hs : r.seed with
  | none => exact fun s h => absurd h (by simp [hs])
  | some s =>
    intro s2 h
    simp only [Option.some.injEq] at h
    rw [← h]
    exact nextSeedVal_nonneg s (hok s hs)

/-- A positive roll certifies the state was (or became) well-formed: a
negatively seeded state can only produce nonpositive values on `(1, 100)`. -/
theorem roll_pos_ok (r : Rng) (h : 1 ≤ (r.randomInt 1 100).1) :
    RngOk (r.randomInt 1 100).2 := by
  unfold Rng.randomInt at h ⊢
  cases hs : r.seed with
  | none => exact fun s hx => absurd hx (by simp [hs])
  | some s =>
    rw [hs] at h
    intro s2 hx
    simp only [Option.some.injEq] at hx
    rw [← hx]
    by_contra hneg
    push_neg at hneg
    have hlt : seededVal (nextSeedVal s) 1 100 ≤ 0 := by
      unfold seededVal
      have : (nextSeedVal s * (100 - 1 + 1)).fdiv 233280 ≤ -1 := by
        rw [Int.fdiv_eq_ediv _ (by norm_num)]
        have hneg2 : nextSeedVal s * (100 - 1 + 1) ≤ -100 := by nlinarith
        omega
      omega
    simp only [seededVal] at h hlt
    omega

/-- A state-indexed invariant preserved by every step of an `rfoldl` is
preserved by the whole fold. -/
theorem rfoldl_inv {α β : Type} {f : β → α → RandM β} (P : β → Rng → Prop)
    (hstep : ∀ acc x r out, f acc x r = some out → P acc r → P out.1 out.2) :
    ∀ (l : List α) (acc : β) (r : Rng) (out : β × Rng),
      rfoldl f l acc r = some out → P acc r → P out.1 out.2 := by
  intro l
  induction l with
  | nil =>
    intro acc r out h hP
    have hx := rpure_inv h
    rw [hx]
    exact hP
  | cons x xs ih =>
    intro acc r out h hP
    obtain ⟨b1, r1, h1, h2⟩ := rbind_some_inv h
    exact ih b1 r1 out h2 (hstep acc x r (b1, r1) h1 hP)

/-- Dissecting a successful `rrand`. -/
theorem rrand_inv {lo hi : Int} {r r2 : Rng} {v : Int}
    (h : rrand lo hi r = some (v, r2)) :
    v = (r.randomInt lo hi).1 ∧ r2 = (r.randomInt lo hi).2 := by
  unfold rrand at h
  injection h with h
  exact ⟨congrArg Prod.fst h.symm, congrArg Prod.snd h.symm⟩

/-- If the connection phase kept at least one connection then (with a
nonnegative `pointLossChance`) the final PRNG state is well-formed: the
surviving roll was positive, which forces a nonnegative stored seed. -/
theorem connPhase_ok (plc : Int) (hplc : 0 ≤ plc) (gl : List Grid) (pts : List PointObj)
    (r : Rng) (out : List Conn × Rng)
    (h : connPhase plc gl pts r = some out) (hne : out.1 ≠ []) : RngOk out.2 := by
  unfold connPhase at h
  refine rfoldl_inv (fun acc rr => acc ≠ [] → RngOk rr) ?_ gl [] r out h
    (fun hx => absurd rfl hx) hne
  intro acc grid r1 out1 hstep hinv
  refine rfoldl_inv (fun acc2 rr => acc2 ≠ [] → RngOk rr) ?_
    (getAdjacentGrids gl grid) acc r1 out1 hstep hinv
  intro acc2 ag r2 out2 histep hinv2
  cases hA : pts.get? grid.index with
  | none =>
    rw [hA] at histep
    cases hB : pts.get? ag.index with
    | none => rw [hB] at histep; simp [rfailM] at histep
    | some p2 => rw [hB] at histep; simp [rfailM] at histep
  | some p1 =>
    rw [hA] at histep
    cases hB : pts.get? ag.index with
    | none => rw [hB] at histep; simp [rfailM] at histep
    | some p2 =>
      rw [hB] at histep
      obtain ⟨roll, r3, hr, hp⟩ := rbind_some_inv histep
      obtain ⟨hv, hr3⟩ := rrand_inv hr
      have hx := rpure_inv hp
      rw [hx]
      by_cases hroll : roll > plc
      · rw [if_pos hroll]
        intro _
        rw [hr3]
        exact roll_pos_ok r2 (by omega)
      · rw [if_neg hroll]
        intro hne2
        rw [hr3]
        exact randomInt_pres r2 1 100 (hinv2 hne2)

/-- Dissecting a successful `rofOption`: the option was `some` and the PRNG
state is untouched. -/
theorem rofOption_inv {α : Type} {o : Option α} {r r2 : Rng} {a : α}
    (h : rofOption o r = some (a, r2)) : o = some a ∧ r2 = r := by
  unfold rofOption at h
  cases o with
  | none => simp at h
  | some b =>
    simp only [Option.map_some'] at h
    injection h with h
    rw [Prod.mk.injEq] at h
    exact ⟨by rw [h.1], h.2.symm⟩

/-- `countP` after a single in-range `set`: the old element leaves the count,
the new one enters it. -/
theorem countP_set {α : Type} (p : α → Bool) :
    ∀ (l : List α) (j : Nat) (hj : j < l.length) (b : α),
      (l.set j b).countP p + (if p (l.get ⟨j, hj⟩) then 1 else 0) =
        l.countP p + (if p b then 1 else 0)
  | [], j, hj, b => absurd hj (by simp)
  | hd :: tl, 0, hj, b => by
    simp only [List.set, List.countP_cons, List.get]
    omega
  | hd :: tl, j + 1, hj, b => by
    simp only [List.set, List.countP_cons, List.get]
    have := countP_set p tl j (by simpa using hj) b
    omega

/-- `countP` of a list of all-`false` elements after one `set`. -/
theorem countP_set_all_false {α : Type} (p : α → Bool) (l : List α)
    (hall : ∀ x ∈ l, p x = false) (j : Nat) (hj : j < l.length) (b : α) :
    (l.set j b).countP p = if p b then 1 else 0 := by
  have h0 : l.countP p = 0 := List.countP_eq_zero.mpr (by
    intro a ha
    simp [hall a ha])
  have hget : p (l.get ⟨j, hj⟩) = false := hall _ (l.get_mem j hj)
  have hcs := countP_set p l j hj b
  rw [hget, h0] at hcs
  simpa using hcs

/-- `countP` of a list of all-`false` elements after two `set`s at distinct
in-range positions. -/
theorem countP_set2 {α : Type} (p : α → Bool) (l : List α)
    (hall : ∀ x ∈ l, p x = false) (i j : Nat) (hij : i ≠ j)
    (hi : i < l.length) (hj : j < l.length) (a b : α) :
    ((l.set i a).set j b).countP p = (if p a then 1 else 0) + (if p b then 1 else 0) := by
  have hj2 : j < (l.set i a).length := by simpa using hj
  have hcs := countP_set p (l.set i a) j hj2 b
  have hne : (l.set i a).get ⟨j, hj2⟩ = l.get ⟨j, hj⟩ := by
    have := List.getElem_set_ne (l := l) (a := a) hij (by simpa using hj)
    simpa using this
  have hget : p ((l.set i a).get ⟨j, hj2⟩) = false := by
    rw [hne]
    exact hall _ (l.get_mem j hj)
  have h1 : (l.set i a).countP p = if p a then 1 else 0 :=
    countP_set_all_false p l hall i hi a
  rw [hget, h1] at hcs
  simpa using hcs

/-- Every exit of the placement loop carries a candidate whose size fields
were drawn from (or initialised within) the configured ranges, and a
well-formed PRNG state stays well-formed. -/
theorem attemptLoop_ok (b : Board) (cc rc : Nat) (mX mY mxX mxY : Int) (grid : Grid)
    (point : PointObj) (hx : mX ≤ mxX) (hy : mY ≤ mxY) :
    ∀ (fuel : Nat) (w h rx ry : Int) (r : Rng) (out : AttemptResult × Rng),
      attemptLoop b cc rc mX mY mxX mxY grid point fuel w h rx ry r = some out →
      RngOk r → mX ≤ w → mY ≤ h →
      mX ≤ out.1.roomWidth ∧ mY ≤ out.1.roomHeight ∧ RngOk out.2 := by
  intro fuel
  induction fuel with
  | zero =>
    intro w h rx ry r out hrun hok hw hh
    have hz := rpure_inv hrun
    rw [hz]
    exact ⟨hw, hh, hok⟩
  | succ n ih =>
    intro w h rx ry r out hrun hok hw hh
    simp only [attemptLoop] at hrun
    obtain ⟨vo, r1, hscan, hk⟩ := rbind_some_inv hrun
    obtain ⟨-, hr1⟩ := rofOption_inv hscan
    have hok1 : RngOk r1 := by rw [hr1]; exact hok
    by_cases hvo : (vo.1 && vo.2) = true
    · rw [if_pos hvo] at hk
      have hz := rpure_inv hk
      rw [hz]
      exact ⟨hw, hh, hok1⟩
    · rw [if_neg hvo] at hk
      obtain ⟨w2, r2, hwd, hk⟩ := rbind_some_inv hk
      obtain ⟨hw2, hr2⟩ := rrand_inv hwd
      have hbw := randomInt_ok r1 mX mxX hok1 hx
      have hok2 : RngOk r2 := by rw [hr2]; exact randomInt_pres r1 mX mxX hok1
      obtain ⟨h2, r3, hhd, hk⟩ := rbind_some_inv hk
      obtain ⟨hh2, hr3⟩ := rrand_inv hhd
      have hbh := randomInt_ok r2 mY mxY hok2 hy
      have hok3 : RngOk r3 := by rw [hr3]; exact randomInt_pres r2 mY mxY hok2
      obtain ⟨rx2, r4, hxd, hk⟩ := rbind_some_inv hk
      obtain ⟨-, hr4⟩ := rrand_inv hxd
      have hok4 : RngOk r4 := by rw [hr4]; exact randomInt_pres r3 _ _ hok3
      obtain ⟨ry2, r5, hyd, hk⟩ := rbind_some_inv hk
      obtain ⟨-, hr5⟩ := rrand_inv hyd
      have hok5 : RngOk r5 := by rw [hr5]; exact randomInt_pres r4 _ _ hok4
      refine ih w2 h2 rx2 ry2 r5 out hk hok5 ?_ ?_
      · rw [hw2]; exact hbw.1
      · rw [hh2]; exact hbh.1

/-- With no surviving connections the per-grid room loop is a no-op on the
room list: every grid's connection filter is empty. -/
theorem roomFold_conns_nil (cc rc : Nat) (mX mY mxX mxY rlc : Int) (pts : List PointObj)
    (l : List (Nat × Grid)) (acc : RoomPhaseOut) (r : Rng) (out : RoomPhaseOut × Rng)
    (h : rfoldl (roomPhaseStep cc rc mX mY mxX mxY rlc pts []) l acc r = some out) :
    out.1.roomList = acc.roomList := by
  refine rfoldl_inv (fun a _ => a.roomList = acc.roomList) ?_ l acc r out h rfl
  intro a x rr o hs hinv
  unfold roomPhaseStep at hs
  try dsimp only at hs
  simp only [List.filter_nil, List.length_nil, if_true] at hs
  have hz := rpure_inv hs
  rw [hz]
  exact hinv

/-- One step of the per-grid room loop preserves PRNG well-formedness and
the shape facts about every room kept so far: no type yet, and sizes at
least the configured minima. -/
theorem roomPhaseStep_ok (cc rc : Nat) (mX mY mxX mxY rlc : Int) (pts : List PointObj)
    (conns : List Conn) (hx : mX ≤ mxX) (hy : mY ≤ mxY)
    (acc : RoomPhaseOut) (ig : Nat × Grid) (r : Rng) (out : RoomPhaseOut × Rng)
    (h : roomPhaseStep cc rc mX mY mxX mxY rlc pts conns acc ig r = some out)
    (hok : RngOk r)
    (hrm : ∀ rm ∈ acc.roomList, rm.type = none ∧ mX ≤ rm.width ∧ mY ≤ rm.height) :
    RngOk out.2 ∧
      ∀ rm ∈ out.1.roomList, rm.type = none ∧ mX ≤ rm.width ∧ mY ≤ rm.height := by
  obtain ⟨i, grid⟩ := ig
  unfold roomPhaseStep at h
  try dsimp only at h
  by_cases hvc : (conns.filter (fun c => c.point1.gridIndex = grid.index ∨
      c.point2.gridIndex = grid.index)).length = 0
  · rw [if_pos hvc] at h
    have hz := rpure_inv h
    rw [hz]
    exact ⟨hok, hrm⟩
  · rw [if_neg hvc] at h
    cases hpt : (pts.filter (fun p => p.gridIndex = grid.index)).head? with
    | none => rw [hpt] at h; simp [rfailM] at h
    | some point =>
      rw [hpt] at h
      try dsimp only at h
      obtain ⟨w, r1, hwd, h⟩ := rbind_some_inv h
      obtain ⟨hw, hr1⟩ := rrand_inv hwd
      have hbw := randomInt_ok r mX mxX hok hx
      have hok1 : RngOk r1 := by rw [hr1]; exact randomInt_pres r mX mxX hok
      obtain ⟨hh, r2, hhd, h⟩ := rbind_some_inv h
      obtain ⟨hh2, hr2⟩ := rrand_inv hhd
      have hbh := randomInt_ok r1 mY mxY hok1 hy
      have hok2 : RngOk r2 := by rw [hr2]; exact randomInt_pres r1 mY mxY hok1
      obtain ⟨rx, r3, hxd, h⟩ := rbind_some_inv h
      obtain ⟨-, hr3⟩ := rrand_inv hxd
      have hok3 : RngOk r3 := by rw [hr3]; exact randomInt_pres r2 _ _ hok2
      obtain ⟨ry, r4, hyd, h⟩ := rbind_some_inv h
      obtain ⟨-, hr4⟩ := rrand_inv hyd
      have hok4 : RngOk r4 := by rw [hr4]; exact randomInt_pres r3 _ _ hok3
      obtain ⟨res, r5, hal, h⟩ := rbind_some_inv h
      obtain ⟨hresW, hresH, hok5⟩ := attemptLoop_ok acc.board cc rc mX mY mxX mxY
        grid point hx hy 1000 w hh rx ry r4 (res, r5) hal hok4
        (by rw [hw]; exact hbw.1) (by rw [hh2]; exact hbh.1)
      obtain ⟨dice, r6, hdd, h⟩ := rbind_some_inv h
      obtain ⟨-, hr6⟩ := rrand_inv hdd
      have hok6 : RngOk r6 := by rw [hr6]; exact randomInt_pres r5 1 100 hok5
      by_cases hdc : dice ≥ rlc
      · rw [if_pos hdc] at h
        obtain ⟨b2, r7, hst, h⟩ := rbind_some_inv h
        obtain ⟨-, hr7⟩ := rofOption_inv hst
        have hz := rpure_inv h
        rw [hz]
        refine ⟨by rw [hr7]; exact hok6, ?_⟩
        intro rm hm
        rw [List.mem_append] at hm
        cases hm with
        | inl hold => exact hrm rm hold
        | inr hnew =>
          rw [List.mem_singleton] at hnew
          rw [hnew]
          exact ⟨rfl, hresW, hresH⟩
      · rw [if_neg hdc] at h
        have hz := rpure_inv h
        rw [hz]
        exact ⟨hok6, hrm⟩

/-- The whole per-grid room loop preserves PRNG well-formedness and the room
shape facts. -/
theorem roomFold_ok (cc rc : Nat) (mX mY mxX mxY rlc : Int) (pts : List PointObj)
    (conns : List Conn) (hx : mX ≤ mxX) (hy : mY ≤ mxY)
    (l : List (Nat × Grid)) (acc : RoomPhaseOut) (r : Rng) (out : RoomPhaseOut × Rng)
    (h : rfoldl (roomPhaseStep cc rc mX mY mxX mxY rlc pts conns) l acc r = some out)
    (hok : RngOk r)
    (hrm : ∀ rm ∈ acc.roomList, rm.type = none ∧ mX ≤ rm.width ∧ mY ≤ rm.height) :
    RngOk out.2 ∧
      ∀ rm ∈ out.1.roomList, rm.type = none ∧ mX ≤ rm.width ∧ mY ≤ rm.height := by
  refine rfoldl_inv (fun a rr => RngOk rr ∧
    ∀ rm ∈ a.roomList, rm.type = none ∧ mX ≤ rm.width ∧ mY ≤ rm.height) ?_
    l acc r out h ⟨hok, hrm⟩
  intro a x rr o hs hinv
  exact roomPhaseStep_ok cc rc mX mY mxX mxY rlc pts conns hx hy a x rr o hs hinv.1 hinv.2

/-- A successful entry/exit promotion on a list of at least two typeless
rooms of size at least 3×3, entered with a well-formed PRNG state, marks
exactly one room `ENTRY` and one distinct room `EXIT` and stores special
points strictly inside the respective rooms. -/
theorem entryExitPhase_props (rooms : List Room) (sp : SpecialPoints) (b : Board)
    (r : Rng) (out : (List Room × SpecialPoints × Board) × Rng)
    (h : entryExitPhase rooms sp b r = some out)
    (hok : RngOk r) (h2 : 2 ≤ rooms.length)
    (hall : ∀ rm ∈ rooms, rm.type = none ∧ 3 ≤ rm.width ∧ 3 ≤ rm.height) :
    (out.1.1.filter (fun rm => rm.type = some RoomType.ENTRY)).length = 1 ∧
    (out.1.1.filter (fun rm => rm.type = some RoomType.EXIT)).length = 1 ∧
    ∃ ei xi eR xR ep xp, ei ≠ xi ∧
      out.1.1.get? ei = some eR ∧ eR.type = some RoomType.ENTRY ∧
      out.1.1.get? xi = some xR ∧ xR.type = some RoomType.EXIT ∧
      out.1.2.1.entry = some ep ∧ out.1.2.1.exit = some xp ∧
      eR.x + 1 ≤ ep.x ∧ ep.x ≤ eR.x + eR.width - 2 ∧
      eR.y + 1 ≤ ep.y ∧ ep.y ≤ eR.y + eR.height - 2 ∧
      xR.x + 1 ≤ xp.x ∧ xp.x ≤ xR.x + xR.width - 2 ∧
      xR.y + 1 ≤ xp.y ∧ xp.y ≤ xR.y + xR.height - 2 := by
  unfold entryExitPhase at h
  rw [if_pos h2] at h
  obtain ⟨eIdx, r1, hde, h⟩ := rbind_some_inv h
  obtain ⟨hev, hr1⟩ := rrand_inv hde
  have hlen1 : (0:Int) ≤ (rooms.length:Int) - 1 := by omega
  have hbe := randomInt_ok r 0 ((rooms.length:Int)-1) hok hlen1
  have h0e : 0 ≤ eIdx := by rw [hev]; exact hbe.1
  have h1e : eIdx ≤ (rooms.length:Int) - 1 := by rw [hev]; exact hbe.2.1
  have hok1 : RngOk r1 := by rw [hr1]; exact hbe.2.2
  try dsimp only at h
  rw [if_neg (not_lt.mpr h0e), if_pos h0e] at h
  have heP : eIdx.toNat < rooms.length := by omega
  obtain ⟨xIdx, r2, hdx, h⟩ := rbind_some_inv h
  obtain ⟨hxv, hr2⟩ := rrand_inv hdx
  have hlenE : (rooms.eraseIdx eIdx.toNat).length = rooms.length - 1 := by
    rw [List.length_eraseIdx, if_pos heP]
  have hlx : (0:Int) ≤ ((rooms.eraseIdx eIdx.toNat).length:Int) - 1 := by
    rw [hlenE]; omega
  have hbx := randomInt_ok r1 0 (((rooms.eraseIdx eIdx.toNat).length:Int)-1) hok1 hlx
  have h0x : 0 ≤ xIdx := by rw [hxv]; exact hbx.1
  have h1x : xIdx ≤ ((rooms.eraseIdx eIdx.toNat).length:Int) - 1 := by
    rw [hxv]; exact hbx.2.1
  have hok2 : RngOk r2 := by rw [hr2]; exact hbx.2.2
  rw [hlenE] at h1x
  have hxP : xIdx.toNat < (rooms.eraseIdx eIdx.toNat).length := by rw [hlenE]; omega
  have hgetE := List.get?_eq_get heP
  have hgetX := List.get?_eq_get hxP
  rw [if_pos h0x, hgetE, hgetX] at h
  try dsimp only at h
  have hmemE : rooms.get ⟨eIdx.toNat, heP⟩ ∈ rooms := rooms.get_mem eIdx.toNat heP
  have hE3 := hall _ hmemE
  have hmemX : (rooms.eraseIdx eIdx.toNat).get ⟨xIdx.toNat, hxP⟩ ∈ rooms :=
    List.eraseIdx_subset rooms eIdx.toNat
      ((rooms.eraseIdx eIdx.toNat).get_mem xIdx.toNat hxP)
  have hX3 := hall _ hmemX
  obtain ⟨ex, r3, hdex, h⟩ := rbind_some_inv h
  obtain ⟨hexv, hr3⟩ := rrand_inv hdex
  have hbex := randomInt_ok r2 _ _ hok2 (by omega : (rooms.get ⟨eIdx.toNat, heP⟩).x + 1 ≤
    (rooms.get ⟨eIdx.toNat, heP⟩).x + (rooms.get ⟨eIdx.toNat, heP⟩).width - 2)
  have hok3 : RngOk r3 := by rw [hr3]; exact hbex.2.2
  obtain ⟨ey, r4, hdey, h⟩ := rbind_some_inv h
  obtain ⟨heyv, hr4⟩ := rrand_inv hdey
  have hbey := randomInt_ok r3 _ _ hok3 (by omega : (rooms.get ⟨eIdx.toNat, heP⟩).y + 1 ≤
    (rooms.get ⟨eIdx.toNat, heP⟩).y + (rooms.get ⟨eIdx.toNat, heP⟩).height - 2)
  have hok4 : RngOk r4 := by rw [hr4]; exact hbey.2.2
  obtain ⟨xx, r5, hdxx, h⟩ := rbind_some_inv h
  obtain ⟨hxxv, hr5⟩ := rrand_inv hdxx
  have hbxx := randomInt_ok r4 _ _ hok4
    (by omega : ((rooms.eraseIdx eIdx.toNat).get ⟨xIdx.toNat, hxP⟩).x + 1 ≤
      ((rooms.eraseIdx eIdx.toNat).get ⟨xIdx.toNat, hxP⟩).x +
        ((rooms.eraseIdx eIdx.toNat).get ⟨xIdx.toNat, hxP⟩).width - 2)
  have hok5 : RngOk r5 := by rw [hr5]; exact hbxx.2.2
  obtain ⟨xy, r6, hdxy, h⟩ := rbind_some_inv h
  obtain ⟨hxyv, hr6⟩ := rrand_inv hdxy
  have hbxy := randomInt_ok r5 _ _ hok5
    (by omega : ((rooms.eraseIdx eIdx.toNat).get ⟨xIdx.toNat, hxP⟩).y + 1 ≤
      ((rooms.eraseIdx eIdx.toNat).get ⟨xIdx.toNat, hxP⟩).y +
        ((rooms.eraseIdx eIdx.toNat).get ⟨xIdx.toNat, hxP⟩).height - 2)
  obtain ⟨b2, r7, hwr1, h⟩ := rbind_some_inv h
  obtain ⟨xb3, r8, hwr2, h⟩ := rbind_some_inv h
  have hz := rpure_inv h
  have hxPlt : (if xIdx.toNat < eIdx.toNat then xIdx.toNat else xIdx.toNat + 1) <
      rooms.length := by
    by_cases hxe : xIdx.toNat < eIdx.toNat
    · rw [if_pos hxe]; omega
    · rw [if_neg hxe]; omega
  have hxPne : eIdx.toNat ≠
      (if xIdx.toNat < eIdx.toNat then xIdx.toNat else xIdx.toNat + 1) := by
    by_cases hxe : xIdx.toNat < eIdx.toNat
    · rw [if_pos hxe]; omega
    · rw [if_neg hxe]; omega
  have hroomsOut : out.1.1 =
      (rooms.set eIdx.toNat { rooms.get ⟨eIdx.toNat, heP⟩ with type := some RoomType.ENTRY }).set
        (if xIdx.toNat < eIdx.toNat then xIdx.toNat else xIdx.toNat + 1)
        { (rooms.eraseIdx eIdx.toNat).get ⟨xIdx.toNat, hxP⟩ with type := some RoomType.EXIT } :=
    congrArg (fun q => q.1.1) hz
  have hspE : out.1.2.1.entry = some ⟨ex, ey⟩ := congrArg (fun q => q.1.2.1.entry) hz
  have hspX : out.1.2.1.exit = some ⟨xx, xy⟩ := congrArg (fun q => q.1.2.1.exit) hz
  have hallE : ∀ x ∈ rooms, (fun rm => decide (rm.type = some RoomType.ENTRY)) x = false := by
    intro x hx
    simp [(hall x hx).1]
  have hallX : ∀ x ∈ rooms, (fun rm => decide (rm.type = some RoomType.EXIT)) x = false := by
    intro x hx
    simp [(hall x hx).1]
  refine ⟨?_, ?_, ?_⟩
  · rw [hroomsOut, ← List.countP_eq_length_filter,
      countP_set2 _ rooms hallE eIdx.toNat _ hxPne heP hxPlt]
    simp
  · rw [hroomsOut, ← List.countP_eq_length_filter,
      countP_set2 _ rooms hallX eIdx.toNat _ hxPne heP hxPlt]
    simp
  · refine ⟨eIdx.toNat, (if xIdx.toNat < eIdx.toNat then xIdx.toNat else xIdx.toNat + 1),
      { rooms.get ⟨eIdx.toNat, heP⟩ with type := some RoomType.ENTRY },
      { (rooms.eraseIdx eIdx.toNat).get ⟨xIdx.toNat, hxP⟩ with type := some RoomType.EXIT },
      ⟨ex, ey⟩, ⟨xx, xy⟩, hxPne, ?_, rfl, ?_, rfl, hspE, hspX, ?_, ?_, ?_, ?_, ?_, ?_, ?_, ?_⟩
    · rw [hroomsOut, List.get?_eq_getElem?, List.getElem?_set_ne hxPne.symm,
        List.getElem?_set]
      rw [if_pos rfl, if_pos heP]
    · rw [hroomsOut, List.get?_eq_getElem?, List.getElem?_set]
      rw [if_pos rfl]
      rw [if_pos (by simpa using hxPlt)]
    · show (rooms.get ⟨eIdx.toNat, heP⟩).x + 1 ≤ ex
      rw [hexv]; exact hbex.1
    · show ex ≤ (rooms.get ⟨eIdx.toNat, heP⟩).x + (rooms.get ⟨eIdx.toNat, heP⟩).width - 2
      rw [hexv]; exact hbex.2.1
    · show (rooms.get ⟨eIdx.toNat, heP⟩).y + 1 ≤ ey
      rw [heyv]; exact hbey.1
    · show ey ≤ (rooms.get ⟨eIdx.toNat, heP⟩).y + (rooms.get ⟨eIdx.toNat, heP⟩).height - 2
      rw [heyv]; exact hbey.2.1
    · show ((rooms.eraseIdx eIdx.toNat).get ⟨xIdx.toNat, hxP⟩).x + 1 ≤ xx
      rw [hxxv]; exact hbxx.1
    · show xx ≤ ((rooms.eraseIdx eIdx.toNat).get ⟨xIdx.toNat, hxP⟩).x +
        ((rooms.eraseIdx eIdx.toNat).get ⟨xIdx.toNat, hxP⟩).width - 2
      rw [hxxv]; exact hbxx.2.1
    · show ((rooms.eraseIdx eIdx.toNat).get ⟨xIdx.toNat, hxP⟩).y + 1 ≤ xy
      rw [hxyv]; exact hbxy.1
    · show xy ≤ ((rooms.eraseIdx eIdx.toNat).get ⟨xIdx.toNat, hxP⟩).y +
        ((rooms.eraseIdx eIdx.toNat).get ⟨xIdx.toNat, hxP⟩).height - 2
      rw [hxyv]; exact hbxy.2.1

/-- A successful `#createPaths` run ends on the PRNG state its connection
loop produced: the trailing stamping step draws nothing. -/
theorem createPaths_conn {mX mY plc : Int} {gl : List Grid} {b : Board} {r : Rng}
    {out : (List PointObj × List Conn × Board) × Rng}
    (h : createPaths mX mY plc gl b r = some out) :
    ∃ rA, connPhase plc gl out.1.1 rA = some (out.1.2.1, out.2) := by
  unfold createPaths at h
  obtain ⟨points, rA, hpts, h⟩ := rbind_some_inv h
  obtain ⟨bm, rA2, hmk, h⟩ := rbind_some_inv h
  obtain ⟨-, hrA2⟩ := rofOption_inv hmk
  obtain ⟨conns, rB, hcn, h⟩ := rbind_some_inv h
  obtain ⟨b3, rB2, hsp2, h⟩ := rbind_some_inv h
  obtain ⟨-, hrB2⟩ := rofOption_inv hsp2
  have hz := rpure_inv h
  have h11 : out.1.1 = points := congrArg (fun q => q.1.1) hz
  have h21 : out.1.2.1 = conns := congrArg (fun q => q.1.2.1) hz
  have h22 : out.2 = rB2 := congrArg (fun q => q.2) hz
  refine ⟨rA2, ?_⟩
  rw [h11, h21, h22, hrB2]
  exact hcn

/-- C7: every dungeon `regenerate` completes with at least two rooms — under
a nonnegative `pointLossChance` and the constructor-clamped size settings
(minimum sizes at least 3 and maxima at least the minima) — has exactly one
`ENTRY` room and exactly one `EXIT` room, at two distinct positions of the
room list, and the `specialPoints` entry and exit coordinates lie strictly
inside the bounds of their respective rooms. -/
theorem c7_entry_exit (s : Settings) (sp : SpecialPoints) (r r2 : Rng) (d : DState)
    (h : regenerate s sp r = some (d, r2))
    (hplc : 0 ≤ s.pointLossChance)
    (hmx : 3 ≤ s.minRoomSizeX) (hmy : 3 ≤ s.minRoomSizeY)
    (hxx : s.minRoomSizeX ≤ s.maxRoomSizeX) (hyy : s.minRoomSizeY ≤ s.maxRoomSizeY)
    (h2 : 2 ≤ d.roomList.length) :
    (d.roomList.filter (fun rm => rm.type = some RoomType.ENTRY)).length = 1 ∧
    (d.roomList.filter (fun rm => rm.type = some RoomType.EXIT)).length = 1 ∧
    ∃ ei xi eR xR ep xp, ei ≠ xi ∧
      d.roomList.get? ei = some eR ∧ eR.type = some RoomType.ENTRY ∧
      d.roomList.get? xi = some xR ∧ xR.type = some RoomType.EXIT ∧
      d.specialPoints.entry = some ep ∧ d.specialPoints.exit = some xp ∧
      eR.x + 1 ≤ ep.x ∧ ep.x ≤ eR.x + eR.width - 2 ∧
      eR.y + 1 ≤ ep.y ∧ ep.y ≤ eR.y + eR.height - 2 ∧
      xR.x + 1 ≤ xp.x ∧ xp.x ≤ xR.x + xR.width - 2 ∧
      xR.y + 1 ≤ xp.y ∧ xp.y ≤ xR.y + xR.height - 2 := by
  unfold regenerate at h
  obtain ⟨df, rI, hI, hfin⟩ := rbind_some_inv h
  have hd : d = df.1 := congrArg Prod.fst (rpure_inv hfin)
  unfold regenerateI at hI
  obtain ⟨rc0, ra, -, hI⟩ := rbind_some_inv hI
  try dsimp only at hI
  obtain ⟨pcb, rb, hcp, hI⟩ := rbind_some_inv hI
  try dsimp only at hI
  obtain ⟨rms, rcc, hcr, hI⟩ := rbind_some_inv hI
  try dsimp only at hI
  obtain ⟨b4, rd, -, hI⟩ := rbind_some_inv hI
  try dsimp only at hI
  obtain ⟨valid, re, -, hI⟩ := rbind_some_inv hI
  have hdf := rpure_inv hI
  have hrl : d.roomList = rms.2.1 := by
    rw [hd]
    exact congrArg (fun q => q.1.1.roomList) hdf
  have hdsp : d.specialPoints = rms.2.2.1 := by
    rw [hd]
    exact congrArg (fun q => q.1.1.specialPoints) hdf
  unfold createRooms at hcr
  obtain ⟨phase, rF, hfold, hcr⟩ := rbind_some_inv hcr
  try dsimp only at hcr
  obtain ⟨fin, rG, hee, hcr⟩ := rbind_some_inv hcr
  have hz := rpure_inv hcr
  have hfin1 : rms.2.1 = fin.1 := congrArg (fun q => q.1.2.1) hz
  have hfinsp : rms.2.2.1 = fin.2.1 := congrArg (fun q => q.1.2.2.1) hz
  have h2' : 2 ≤ phase.roomList.length := by
    by_contra hlt
    have hee' := hee
    unfold entryExitPhase at hee'
    rw [if_neg hlt] at hee'
    have hz2 := rpure_inv hee'
    have hfl : fin.1 = phase.roomList := congrArg (fun q => q.1.1) hz2
    rw [hrl, hfin1, hfl] at h2
    exact hlt h2
  have hcne : pcb.2.1 ≠ [] := by
    intro hnil
    rw [hnil] at hfold
    have hrl0 := roomFold_conns_nil s.colCount s.rowCount s.minRoomSizeX s.minRoomSizeY
      s.maxRoomSizeX s.maxRoomSizeY s.roomLossChance pcb.1 _ ⟨pcb.2.2, [], []⟩ rb
      (phase, rF) hfold
    have : phase.roomList = [] := hrl0
    rw [this] at h2'
    simp at h2'
  obtain ⟨rA, hconn⟩ := createPaths_conn hcp
  have hokb : RngOk rb := connPhase_ok s.pointLossChance hplc _ pcb.1 rA (pcb.2.1, rb)
    hconn hcne
  have hfold2 := roomFold_ok s.colCount s.rowCount s.minRoomSizeX s.minRoomSizeY
    s.maxRoomSizeX s.maxRoomSizeY s.roomLossChance pcb.1 pcb.2.1 hxx hyy _
    ⟨pcb.2.2, [], []⟩ rb (phase, rF) hfold hokb
    (by intro rm hm; exact absurd hm (List.not_mem_nil rm))
  have hallr : ∀ rm ∈ phase.roomList, rm.type = none ∧ 3 ≤ rm.width ∧ 3 ≤ rm.height := by
    intro rm hm
    obtain ⟨ht, hw, hh⟩ := hfold2.2 rm hm
    exact ⟨ht, by omega, by omega⟩
  have hprops := entryExitPhase_props phase.roomList sp phase.board rF (fin, rG) hee
    hfold2.1 h2' hallr
  rw [hrl, hfin1, hdsp, hfinsp]
  exact hprops

/-- Witness for C7: the concrete seeded run at seed 163170 with settings
`c8S` completes with two rooms, and the theorem instantiates on it. -/
theorem c7_witness :
    (([⟨3, 3, 3, 3, 0, true, some RoomType.EXIT⟩,
        ⟨2, 13, 3, 3, 1, true, some RoomType.ENTRY⟩] : List Room).filter
      (fun rm => rm.type = some RoomType.ENTRY)).length = 1 ∧
    (([⟨3, 3, 3, 3, 0, true, some RoomType.EXIT⟩,
        ⟨2, 13, 3, 3, 1, true, some RoomType.ENTRY⟩] : List Room).filter
      (fun rm => rm.type = some RoomType.EXIT)).length = 1 ∧
    ∃ ei xi eR xR ep xp, ei ≠ xi ∧
      ([⟨3, 3, 3, 3, 0, true, some RoomType.EXIT⟩,
        ⟨2, 13, 3, 3, 1, true, some RoomType.ENTRY⟩] : List Room).get? ei = some eR ∧
      eR.type = some RoomType.ENTRY ∧
      ([⟨3, 3, 3, 3, 0, true, some RoomType.EXIT⟩,
        ⟨2, 13, 3, 3, 1, true, some RoomType.ENTRY⟩] : List Room).get? xi = some xR ∧
      xR.type = some RoomType.EXIT ∧
      (some (⟨3, 14⟩ : Pt) = some ep) ∧ (some (⟨4, 4⟩ : Pt) = some xp) ∧
      eR.x + 1 ≤ ep.x ∧ ep.x ≤ eR.x + eR.width - 2 ∧
      eR.y + 1 ≤ ep.y ∧ ep.y ≤ eR.y + eR.height - 2 ∧
      xR.x + 1 ≤ xp.x ∧ xp.x ≤ xR.x + xR.width - 2 ∧
      xR.y + 1 ≤ xp.y ∧ xp.y ≤ xR.y + xR.height - 2 :=
  c7_entry_exit c8S ⟨none, none⟩ (seededRng 163170) (seededRng 201517)
    ⟨4, c8r1_b5, c8r1_gl, c8r1_pl, c8r1_cl,
      [⟨3, 3, 3, 3, 0, true, some RoomType.EXIT⟩,
        ⟨2, 13, 3, 3, 1, true, some RoomType.ENTRY⟩],
      ⟨some ⟨3, 14⟩, some ⟨4, 4⟩⟩, false⟩
    c8r1_run (by decide) (by decide) (by decide) (by decide) (by decide) (by decide)



/-! ### C10: interior-only boards -/

/-- The interior invariant of C10: every readable non-wall cell lies
strictly inside the board border. -/
def InteriorOnly (cc rc : Nat) (b : Board) : Prop :=
  ∀ x y t, b.read x y = some (some t) → t.isNonZero = true →
    1 ≤ x ∧ x ≤ (cc : Int) - 2 ∧ 1 ≤ y ∧ y ≤ (rc : Int) - 2

/-- Invariant preservation along an `Option`-valued fold. -/
theorem foldlM_inv {α β : Type} (f : β → α → Option β) (P : β → Prop) :
    ∀ (l : List α),
      (∀ b a, a ∈ l → ∀ b2, f b a = some b2 → P b → P b2) →
      ∀ b0 out, l.foldlM f b0 = some out → P b0 → P out
  | [], _, b0, out, h, h0 => by
    simp only [List.foldlM_nil] at h
    injection h with h
    rw [← h]
    exact h0
  | a :: l, hstep, b0, out, h, h0 => by
    rw [List.foldlM_cons] at h
    cases hfa : f b0 a with
    | none =>
      rw [hfa] at h
      have h2 : (none : Option β).bind (fun init => List.foldlM f init l) = some out := h
      rw [Option.none_bind] at h2
      exact Option.noConfusion h2
    | some b1 =>
      rw [hfa] at h
      have h2 : (some b1).bind (fun init => List.foldlM f init l) = some out := h
      rw [Option.some_bind] at h2
      exact foldlM_inv f P l
        (fun b a ha b2 hf hp => hstep b a (List.mem_cons_of_mem _ ha) b2 hf hp)
        b1 out h2 (hstep b0 a (List.mem_cons_self a l) b1 hfa h0)

/-- Invariant preservation along `rfoldl`, with membership of the traversed
element available to the step. -/
theorem rfoldl_inv_mem {α β : Type} {f : β → α → RandM β} (P : β → Rng → Prop) :
    ∀ (l : List α),
      (∀ acc x, x ∈ l → ∀ r out, f acc x r = some out → P acc r → P out.1 out.2) →
      ∀ (acc : β) (r : Rng) (out : β × Rng),
        rfoldl f l acc r = some out → P acc r → P out.1 out.2
  | [], _, acc, r, out, h, h0 => by
    have hz := rpure_inv h
    rw [hz]
    exact h0
  | a :: l, hstep, acc, r, out, h, h0 => by
    obtain ⟨b1, r1, hfa, h⟩ := rbind_some_inv h
    exact rfoldl_inv_mem P l
      (fun acc2 x hx r2 out2 hf hp => hstep acc2 x (List.mem_cons_of_mem _ hx) r2 out2 hf hp)
      b1 r1 out h (hstep acc a (List.mem_cons_self a l) r (b1, r1) hfa h0)

/-- A successful write does not change the number of columns. -/
theorem Board.write_length (b b2 : Board) (x y : Int) (v : TileVal)
    (hw : b.write x y v = some b2) : b2.length = b.length := by
  unfold Board.write at hw
  cases hc : b.col? x with
  | none => rw [hc] at hw; simp at hw
  | some c =>
    rw [hc] at hw
    injection hw with hw
    rw [← hw]
    exact List.length_set b x.toNat (c.write y v)

/-- Any read inside the column range yields a (possibly undefined) cell. -/
theorem Board.read_isSome (b : Board) (x y : Int) (h0 : 0 ≤ x)
    (h1 : x.toNat < b.length) : (b.read x y).isSome := by
  unfold Board.read Board.col?
  rw [if_pos h0]
  cases hg : List.get? b x.toNat with
  | none =>
    rw [List.get?_eq_getElem?] at hg
    rw [List.getElem?_eq_none_iff] at hg
    omega
  | some c => simp [hg]

/-- An interior write preserves the dimension count and the interior
invariant. -/
theorem interior_write (cc rc : Nat) (b b2 : Board) (x y : Int) (v : TileVal)
    (hlen : b.length = cc) (hint : InteriorOnly cc rc b)
    (hx1 : 1 ≤ x) (hx2 : x ≤ (cc : Int) - 2) (hy1 : 1 ≤ y) (hy2 : y ≤ (rc : Int) - 2)
    (hw : b.write x y v = some b2) :
    b2.length = cc ∧ InteriorOnly cc rc b2 := by
  refine ⟨(Board.write_length b b2 x y v hw).trans hlen, ?_⟩
  obtain ⟨hself, hother⟩ := Board.read_write b b2 x y v hw
  intro z w t hr ht
  by_cases hzw : z = x ∧ w = y
  · obtain ⟨hz, hw2⟩ := hzw
    rw [hz, hw2]
    exact ⟨hx1, hx2, hy1, hy2⟩
  · rw [hother z w hzw] at hr
    exact hint z w t hr ht

/-- An interior type-write preserves the dimension count and the interior
invariant. -/
theorem interior_writeType (cc rc : Nat) (b b2 : Board) (x y : Int) (v : TileVal)
    (hlen : b.length = cc) (hint : InteriorOnly cc rc b)
    (hx1 : 1 ≤ x) (hx2 : x ≤ (cc : Int) - 2) (hy1 : 1 ≤ y) (hy2 : y ≤ (rc : Int) - 2)
    (hw : b.writeType x y v = some b2) :
    b2.length = cc ∧ InteriorOnly cc rc b2 := by
  unfold Board.writeType at hw
  cases hr : b.read x y with
  | none => rw [hr] at hw; simp at hw
  | some cell =>
    rw [hr] at hw
    cases cell with
    | none => simp at hw
    | some t => exact interior_write cc rc b b2 x y v hlen hint hx1 hx2 hy1 hy2 hw

/-- The fresh board has the advertised number of columns. -/
theorem Board.init_length (cols rows : Nat) : (Board.init cols rows).length = cols := by
  simp [Board.init]

/-- Every defined cell of a fresh column is a wall. -/
theorem Column.init_read_num0 (rows : Nat) (y : Int) (t : TileVal)
    (h : (Column.init rows).read y = some t) : t = TileVal.num 0 := by
  unfold Column.init Column.read at h
  simp only [List.find?_nil] at h
  by_cases h0 : 0 ≤ y
  · rw [if_pos h0, List.get?_eq_getElem?] at h
    by_cases hlt : y.toNat < rows
    · rw [List.getElem?_replicate, if_pos hlt] at h
      injection h with h
      exact h.symm
    · have hn : (List.replicate rows (TileVal.num 0))[y.toNat]? = none := by
        rw [List.getElem?_eq_none_iff]
        simpa using not_lt.mp hlt
      rw [hn] at h
      simp at h
  · rw [if_neg h0] at h
    simp at h

/-- The fresh board satisfies the interior invariant vacuously: it holds no
non-wall tile. -/
theorem init_interior (cols rows : Nat) : InteriorOnly cols rows (Board.init cols rows) := by
  intro x y t hr ht
  exfalso
  unfold Board.read at hr
  cases hc : (Board.init cols rows).col? x with
  | none => rw [hc] at hr; simp at hr
  | some c =>
    rw [hc] at hr
    simp only [Option.map_some'] at hr
    injection hr with hr
    have hcinit : c = Column.init rows := by
      unfold Board.col? Board.init at hc
      by_cases h0 : 0 ≤ x
      · rw [if_pos h0, List.get?_eq_getElem?, List.getElem?_map] at hc
        cases hg : (List.range cols)[x.toNat]? with
        | none => rw [hg] at hc; simp at hc
        | some k =>
          rw [hg] at hc
          simp only [Option.map_some'] at hc
          injection hc with hc
          exact hc.symm
      · rw [if_neg h0] at hc; simp at hc
    rw [hcinit] at hr
    have := Column.init_read_num0 rows y t hr
    rw [this] at ht
    simp [TileVal.isNonZero] at ht

/-- Membership in a mapped range. -/
theorem leg_mem {α : Type} {n : Nat} {f : Nat → α} {q : α}
    (hq : q ∈ (List.range n).map f) : ∃ i, i < n ∧ q = f i := by
  simp only [List.mem_map, List.mem_range] at hq
  obtain ⟨i, hi, hq⟩ := hq
  exact ⟨i, hi, hq.symm⟩

/-- Every cell of a path returned by `#getPath` stays inside the bounding
box of its two endpoints, provided the destination has nonnegative
coordinates (the closing loop measures `Math.abs` of the destination). -/
theorem getPath_box (a b : Pt) (hbx : 0 ≤ b.x) (hby : 0 ≤ b.y) (path : List Pt)
    (h : getPath a b = some path) :
    ∀ q ∈ path, min a.x b.x ≤ q.x ∧ q.x ≤ max a.x b.x ∧
      min a.y b.y ≤ q.y ∧ q.y ≤ max a.y b.y := by
  obtain ⟨sx, sy⟩ := a
  obtain ⟨ex, ey⟩ := b
  simp only at hbx hby ⊢
  unfold getPath at h
  try dsimp only at h
  simp only [bind_pure_map, List.map_map] at h
  split at h
  · -- xDiff > yDiff
    rename_i hbr
    by_cases hy0 : ey - sy ≠ 0
    · rw [if_pos hy0] at h
      split at h
      · exact absurd h (by simp)
      · rename_i path2 heq
        split at heq
        · exact absurd heq (by simp)
        · rename_i lastP heq2
          injection heq with hp2
          have hlastPmem := List.mem_of_mem_getLast? heq2
          obtain ⟨i0, hi0, hq0⟩ := leg_mem hlastPmem
          have hq0b : lastP = if 0 < ex - sx then (⟨sx + (i0:Int), sy⟩ : Pt)
              else ⟨sx - (i0:Int), sy⟩ := hq0
          have hlastbox : min sx ex ≤ lastP.x ∧ lastP.x ≤ max sx ex ∧
              min sy ey ≤ lastP.y ∧ lastP.y ≤ max sy ey := by
            by_cases hxp : 0 < ex - sx
            · rw [if_pos hxp] at hq0b
              rw [hq0b]
              refine ⟨?_, ?_, ?_, ?_⟩ <;> dsimp only <;> omega
            · rw [if_neg hxp] at hq0b
              rw [hq0b]
              refine ⟨?_, ?_, ?_, ?_⟩ <;> dsimp only <;> omega
          have hbox2 : ∀ q ∈ path2, min sx ex ≤ q.x ∧ q.x ≤ max sx ex ∧
              min sy ey ≤ q.y ∧ q.y ≤ max sy ey := by
            rw [← hp2]
            intro q hq
            rw [List.mem_append] at hq
            cases hq with
            | inl hq =>
              obtain ⟨i, hi, hqe⟩ := leg_mem hq
              have hq2 : q = if 0 < ex - sx then (⟨sx + (i:Int), sy⟩ : Pt)
                  else ⟨sx - (i:Int), sy⟩ := hqe
              by_cases hxp : 0 < ex - sx
              · rw [if_pos hxp] at hq2
                rw [hq2]
                refine ⟨?_, ?_, ?_, ?_⟩ <;> dsimp only <;> omega
              · rw [if_neg hxp] at hq2
                rw [hq2]
                refine ⟨?_, ?_, ?_, ?_⟩ <;> dsimp only <;> omega
            | inr hq =>
              obtain ⟨i, hi, hqe⟩ := leg_mem hq
              have hq2 : q = if 0 < ey - sy then (⟨lastP.x, sy + ((i:Int) + 1)⟩ : Pt)
                  else ⟨lastP.x, sy - ((i:Int) + 1)⟩ := hqe
              by_cases hyp : 0 < ey - sy
              · rw [if_pos hyp] at hq2
                rw [hq2]
                refine ⟨?_, ?_, ?_, ?_⟩ <;> dsimp only <;> omega
              · rw [if_neg hyp] at hq2
                rw [hq2]
                refine ⟨?_, ?_, ?_, ?_⟩ <;> dsimp only <;> omega
          split at h
          · exact absurd h (by simp)
          · rename_i lastP2 heq3
            injection h with hp
            rw [← hp]
            have hlast2 := hbox2 lastP2 (List.mem_of_mem_getLast? heq3)
            intro q hq
            rw [List.mem_append] at hq
            cases hq with
            | inl hq => exact hbox2 q hq
            | inr hq =>
              obtain ⟨j, hj, hqe⟩ := leg_mem hq
              have hq2 : q = if 0 < ex - sx then (⟨lastP2.x + (j:Int) + 1, ey⟩ : Pt)
                  else ⟨lastP2.x + (j:Int) - 1, ey⟩ := hqe
              by_cases hxp : 0 < ex - sx
              · rw [if_pos hxp] at hq2
                rw [hq2]
                refine ⟨?_, ?_, ?_, ?_⟩ <;> dsimp only <;> omega
              · exact absurd hj (by omega)
    · rw [if_neg hy0] at h
      try dsimp only at h
      split at h
      · exact absurd h (by simp)
      · rename_i lastP2 heq3
        injection h with hp
        rw [← hp]
        have hlast2mem := List.mem_of_mem_getLast? heq3
        obtain ⟨i0, hi0, hq0⟩ := leg_mem hlast2mem
        have hq0b : lastP2 = if 0 < ex - sx then (⟨sx + (i0:Int), sy⟩ : Pt)
            else ⟨sx - (i0:Int), sy⟩ := hq0
        have hlast2 : min sx ex ≤ lastP2.x ∧ lastP2.x ≤ max sx ex ∧
            min sy ey ≤ lastP2.y ∧ lastP2.y ≤ max sy ey := by
          by_cases hxp : 0 < ex - sx
          · rw [if_pos hxp] at hq0b
            rw [hq0b]
            refine ⟨?_, ?_, ?_, ?_⟩ <;> dsimp only <;> omega
          · rw [if_neg hxp] at hq0b
            rw [hq0b]
            refine ⟨?_, ?_, ?_, ?_⟩ <;> dsimp only <;> omega
        intro q hq
        rw [List.mem_append] at hq
        cases hq with
        | inl hq =>
          obtain ⟨i, hi, hqe⟩ := leg_mem hq
          have hq2 : q = if 0 < ex - sx then (⟨sx + (i:Int), sy⟩ : Pt)
              else ⟨sx - (i:Int), sy⟩ := hqe
          by_cases hxp : 0 < ex - sx
          · rw [if_pos hxp] at hq2
            rw [hq2]
            refine ⟨?_, ?_, ?_, ?_⟩ <;> dsimp only <;> omega
          · rw [if_neg hxp] at hq2
            rw [hq2]
            refine ⟨?_, ?_, ?_, ?_⟩ <;> dsimp only <;> omega
        | inr hq =>
          obtain ⟨j, hj, hqe⟩ := leg_mem hq
          have hq2 : q = if 0 < ex - sx then (⟨lastP2.x + (j:Int) + 1, ey⟩ : Pt)
              else ⟨lastP2.x + (j:Int) - 1, ey⟩ := hqe
          by_cases hxp : 0 < ex - sx
          · rw [if_pos hxp] at hq2
            rw [hq2]
            refine ⟨?_, ?_, ?_, ?_⟩ <;> dsimp only <;> omega
          · exact absurd hj (by omega)
  · -- yDiff ≥ xDiff
    rename_i hbr
    by_cases hx0 : ex - sx ≠ 0
    · rw [if_pos hx0] at h
      split at h
      · exact absurd h (by simp)
      · rename_i path2 heq
        split at heq
        · exact absurd heq (by simp)
        · rename_i lastP heq2
          injection heq with hp2
          have hlastPmem := List.mem_of_mem_getLast? heq2
          obtain ⟨i0, hi0, hq0⟩ := leg_mem hlastPmem
          have hq0b : lastP = if 0 < ey - sy then (⟨sx, sy + (i0:Int)⟩ : Pt)
              else ⟨sx, sy - (i0:Int)⟩ := hq0
          have hlastbox : min sx ex ≤ lastP.x ∧ lastP.x ≤ max sx ex ∧
              min sy ey ≤ lastP.y ∧ lastP.y ≤ max sy ey := by
            by_cases hyp : 0 < ey - sy
            · rw [if_pos hyp] at hq0b
              rw [hq0b]
              refine ⟨?_, ?_, ?_, ?_⟩ <;> dsimp only <;> omega
            · rw [if_neg hyp] at hq0b
              rw [hq0b]
              refine ⟨?_, ?_, ?_, ?_⟩ <;> dsimp only <;> omega
          have hbox2 : ∀ q ∈ path2, min sx ex ≤ q.x ∧ q.x ≤ max sx ex ∧
              min sy ey ≤ q.y ∧ q.y ≤ max sy ey := by
            rw [← hp2]
            intro q hq
            rw [List.mem_append] at hq
            cases hq with
            | inl hq =>
              obtain ⟨i, hi, hqe⟩ := leg_mem hq
              have hq2 : q = if 0 < ey - sy then (⟨sx, sy + (i:Int)⟩ : Pt)
                  else ⟨sx, sy - (i:Int)⟩ := hqe
              by_cases hyp : 0 < ey - sy
              · rw [if_pos hyp] at hq2
                rw [hq2]
                refine ⟨?_, ?_, ?_, ?_⟩ <;> dsimp only <;> omega
              · rw [if_neg hyp] at hq2
                rw [hq2]
                refine ⟨?_, ?_, ?_, ?_⟩ <;> dsimp only <;> omega
            | inr hq =>
              obtain ⟨i, hi, hqe⟩ := leg_mem hq
              have hq2 : q = if 0 < ex - sx then (⟨sx + ((i:Int) + 1), lastP.y⟩ : Pt)
                  else ⟨sx - ((i:Int) + 1), lastP.y⟩ := hqe
              by_cases hxp : 0 < ex - sx
              · rw [if_pos hxp] at hq2
                rw [hq2]
                refine ⟨?_, ?_, ?_, ?_⟩ <;> dsimp only <;> omega
              · rw [if_neg hxp] at hq2
                rw [hq2]
                refine ⟨?_, ?_, ?_, ?_⟩ <;> dsimp only <;> omega
          split at h
          · exact absurd h (by simp)
          · rename_i lastP2 heq3
            injection h with hp
            rw [← hp]
            have hlast2 := hbox2 lastP2 (List.mem_of_mem_getLast? heq3)
            intro q hq
            rw [List.mem_append] at hq
            cases hq with
            | inl hq => exact hbox2 q hq
            | inr hq =>
              obtain ⟨j, hj, hqe⟩ := leg_mem hq
              have hq2 : q = if 0 < ey - sy then (⟨ex, lastP2.y + (j:Int) + 1⟩ : Pt)
                  else ⟨ex, lastP2.y + (j:Int) - 1⟩ := hqe
              by_cases hyp : 0 < ey - sy
              · rw [if_pos hyp] at hq2
                rw [hq2]
                refine ⟨?_, ?_, ?_, ?_⟩ <;> dsimp only <;> omega
              · exact absurd hj (by omega)
    · rw [if_neg hx0] at h
      try dsimp only at h
      split at h
      · exact absurd h (by simp)
      · rename_i lastP2 heq3
        injection h with hp
        rw [← hp]
        have hlast2mem := List.mem_of_mem_getLast? heq3
        obtain ⟨i0, hi0, hq0⟩ := leg_mem hlast2mem
        have hq0b : lastP2 = if 0 < ey - sy then (⟨sx, sy + (i0:Int)⟩ : Pt)
            else ⟨sx, sy - (i0:Int)⟩ := hq0
        have hlast2 : min sx ex ≤ lastP2.x ∧ lastP2.x ≤ max sx ex ∧
            min sy ey ≤ lastP2.y ∧ lastP2.y ≤ max sy ey := by
          by_cases hyp : 0 < ey - sy
          · rw [if_pos hyp] at hq0b
            rw [hq0b]
            refine ⟨?_, ?_, ?_, ?_⟩ <;> dsimp only <;> omega
          · rw [if_neg hyp] at hq0b
            rw [hq0b]
            refine ⟨?_, ?_, ?_, ?_⟩ <;> dsimp only <;> omega
        intro q hq
        rw [List.mem_append] at hq
        cases hq with
        | inl hq =>
          obtain ⟨i, hi, hqe⟩ := leg_mem hq
          have hq2 : q = if 0 < ey - sy then (⟨sx, sy + (i:Int)⟩ : Pt)
              else ⟨sx, sy - (i:Int)⟩ := hqe
          by_cases hyp : 0 < ey - sy
          · rw [if_pos hyp] at hq2
            rw [hq2]
            refine ⟨?_, ?_, ?_, ?_⟩ <;> dsimp only <;> omega
          · rw [if_neg hyp] at hq2
            rw [hq2]
            refine ⟨?_, ?_, ?_, ?_⟩ <;> dsimp only <;> omega
        | inr hq =>
          obtain ⟨j, hj, hqe⟩ := leg_mem hq
          have hq2 : q = if 0 < ey - sy then (⟨ex, lastP2.y + (j:Int) + 1⟩ : Pt)
              else ⟨ex, lastP2.y + (j:Int) - 1⟩ := hqe
          by_cases hyp : 0 < ey - sy
          · rw [if_pos hyp] at hq2
            rw [hq2]
            refine ⟨?_, ?_, ?_, ?_⟩ <;> dsimp only <;> omega
          · exact absurd hj (by omega)

/-- The connection loop preserves PRNG well-formedness unconditionally. -/
theorem connPhase_pres (plc : Int) (gl : List Grid) (pts : List PointObj)
    (r : Rng) (out : List Conn × Rng)
    (h : connPhase plc gl pts r = some out) (hok : RngOk r) : RngOk out.2 := by
  unfold connPhase at h
  refine rfoldl_inv (fun _ rr => RngOk rr) ?_ gl [] r out h hok
  intro acc grid r1 out1 hstep hinv
  refine rfoldl_inv (fun _ rr => RngOk rr) ?_ (getAdjacentGrids gl grid) acc r1 out1
    hstep hinv
  intro acc2 ag r2 out2 histep hinv2
  cases hA : pts.get? grid.index with
  | none =>
    rw [hA] at histep
    cases hB : pts.get? ag.index with
    | none => rw [hB] at histep; simp [rfailM] at histep
    | some p2 => rw [hB] at histep; simp [rfailM] at histep
  | some p1 =>
    rw [hA] at histep
    cases hB : pts.get? ag.index with
    | none => rw [hB] at histep; simp [rfailM] at histep
    | some p2 =>
      rw [hB] at histep
      obtain ⟨roll, r3, hr, hp⟩ := rbind_some_inv histep
      obtain ⟨-, hr3⟩ := rrand_inv hr
      have hx := rpure_inv hp
      rw [hx]
      rw [hr3]
      exact randomInt_pres r2 1 100 hinv2

/-- Every connection kept by the connection loop joins two points of the
point list. -/
theorem connPhase_mem (plc : Int) (gl : List Grid) (pts : List PointObj)
    (r : Rng) (out : List Conn × Rng) (h : connPhase plc gl pts r = some out) :
    ∀ c ∈ out.1, c.point1 ∈ pts ∧ c.point2 ∈ pts := by
  unfold connPhase at h
  refine rfoldl_inv (fun acc _ => ∀ c ∈ acc, c.point1 ∈ pts ∧ c.point2 ∈ pts) ?_
    gl [] r out h (by intro c hc; exact absurd hc (List.not_mem_nil c))
  intro acc grid r1 out1 hstep hinv
  refine rfoldl_inv (fun acc2 _ => ∀ c ∈ acc2, c.point1 ∈ pts ∧ c.point2 ∈ pts) ?_
    (getAdjacentGrids gl grid) acc r1 out1 hstep hinv
  intro acc2 ag r2 out2 histep hinv2
  cases hA : pts.get? grid.index with
  | none =>
    rw [hA] at histep
    cases hB : pts.get? ag.index with
    | none => rw [hB] at histep; simp [rfailM] at histep
    | some p2 => rw [hB] at histep; simp [rfailM] at histep
  | some p1 =>
    rw [hA] at histep
    cases hB : pts.get? ag.index with
    | none => rw [hB] at histep; simp [rfailM] at histep
    | some p2 =>
      rw [hB] at histep
      obtain ⟨roll, r3, hr, hp⟩ := rbind_some_inv histep
      have hx := rpure_inv hp
      rw [hx]
      by_cases hroll : roll > plc
      · rw [if_pos hroll]
        intro c hc
        rw [List.mem_append] at hc
        cases hc with
        | inl hc => exact hinv2 c hc
        | inr hc =>
          rw [List.mem_singleton] at hc
          rw [hc]
          exact ⟨List.get?_mem hA, List.get?_mem hB⟩
      · rw [if_neg hroll]
        exact hinv2

/-- The point-sampling loop keeps the PRNG well-formed and places every
point strictly inside the board border, for interior grids that are at
least twice the minimum room size. -/
theorem pointsPhase_box (cc rc : Nat) (mX mY : Int) (gl : List Grid) (r : Rng)
    (out : List PointObj × Rng) (h : pointsPhase mX mY gl r = some out)
    (hok : RngOk r) (hmx : 3 ≤ mX) (hmy : 3 ≤ mY)
    (hgrid : ∀ g ∈ gl, 0 ≤ g.x ∧ 0 ≤ g.y ∧ g.x + g.width ≤ (cc:Int) ∧
      g.y + g.height ≤ (rc:Int) ∧ mX ≤ g.width - mX ∧ mY ≤ g.height - mY) :
    RngOk out.2 ∧
      ∀ p ∈ out.1, 1 ≤ p.x ∧ p.x ≤ (cc:Int) - 2 ∧ 1 ≤ p.y ∧ p.y ≤ (rc:Int) - 2 := by
  unfold pointsPhase at h
  refine rfoldl_inv_mem (fun acc rr => RngOk rr ∧
    ∀ p ∈ acc, 1 ≤ p.x ∧ p.x ≤ (cc:Int) - 2 ∧ 1 ≤ p.y ∧ p.y ≤ (rc:Int) - 2)
    gl.enum ?_ [] r out h
    ⟨hok, by intro p hp; exact absurd hp (List.not_mem_nil p)⟩
  intro acc ig hig r1 out1 hstep hinv
  have hgmem : ig.2 ∈ gl := by
    obtain ⟨hlt, hget⟩ := List.mem_enum (show (ig.1, ig.2) ∈ gl.enum from hig)
    rw [hget]
    exact List.getElem_mem hlt
  obtain ⟨hg1, hg2, hg3, hg4, hg5, hg6⟩ := hgrid ig.2 hgmem
  obtain ⟨x, r2, hxd, hstep⟩ := rbind_some_inv hstep
  obtain ⟨hxv, hr2⟩ := rrand_inv hxd
  have hbx := randomInt_ok r1 (ig.2.x + mX) (ig.2.x + ig.2.width - mX) hinv.1 (by omega)
  have hok2 : RngOk r2 := by rw [hr2]; exact randomInt_pres r1 _ _ hinv.1
  obtain ⟨y, r3, hyd, hstep⟩ := rbind_some_inv hstep
  obtain ⟨hyv, hr3⟩ := rrand_inv hyd
  have hby := randomInt_ok r2 (ig.2.y + mY) (ig.2.y + ig.2.height - mY) hok2 (by omega)
  have hok3 : RngOk r3 := by rw [hr3]; exact randomInt_pres r2 _ _ hok2
  have hz := rpure_inv hstep
  rw [hz]
  refine ⟨hok3, ?_⟩
  intro p hp
  rw [List.mem_append] at hp
  cases hp with
  | inl hp => exact hinv.2 p hp
  | inr hp =>
    rw [List.mem_singleton] at hp
    rw [hp]
    have hx1 : ig.2.x + mX ≤ x := by rw [hxv]; exact hbx.1
    have hx2 : x ≤ ig.2.x + ig.2.width - mX := by rw [hxv]; exact hbx.2.1
    have hy1 : ig.2.y + mY ≤ y := by rw [hyv]; exact hby.1
    have hy2 : y ≤ ig.2.y + ig.2.height - mY := by rw [hyv]; exact hby.2.1
    refine ⟨?_, ?_, ?_, ?_⟩ <;> dsimp only <;> omega

/-- Placing the point markers keeps the board dimensions and the interior
invariant: every marker is strictly interior. -/
theorem placeMarkers_inv (cc rc : Nat) (b b2 : Board) (pts : List PointObj)
    (h : placeMarkers b pts = some b2) (hlen : b.length = cc)
    (hint : InteriorOnly cc rc b)
    (hpts : ∀ p ∈ pts, 1 ≤ p.x ∧ p.x ≤ (cc:Int) - 2 ∧ 1 ≤ p.y ∧ p.y ≤ (rc:Int) - 2) :
    b2.length = cc ∧ InteriorOnly cc rc b2 := by
  unfold placeMarkers at h
  refine foldlM_inv _ (fun bd => bd.length = cc ∧ InteriorOnly cc rc bd) pts ?_
    b b2 h ⟨hlen, hint⟩
  intro bd p hp bd2 hw hP
  obtain ⟨h1, h2, h3, h4⟩ := hpts p hp
  exact interior_write cc rc bd bd2 p.x p.y _ hP.1 hP.2 h1 h2 h3 h4 hw

/-- Stamping the connection paths keeps the board dimensions and the
interior invariant: both endpoints of every connection are interior, and
`#getPath` stays inside their bounding box. -/
theorem stampPaths_inv (cc rc : Nat) (b b2 : Board) (conns : List Conn)
    (h : stampPaths b conns = some b2) (hlen : b.length = cc)
    (hint : InteriorOnly cc rc b)
    (hcp : ∀ c ∈ conns,
      (1 ≤ c.point1.x ∧ c.point1.x ≤ (cc:Int) - 2 ∧
        1 ≤ c.point1.y ∧ c.point1.y ≤ (rc:Int) - 2) ∧
      (1 ≤ c.point2.x ∧ c.point2.x ≤ (cc:Int) - 2 ∧
        1 ≤ c.point2.y ∧ c.point2.y ≤ (rc:Int) - 2)) :
    b2.length = cc ∧ InteriorOnly cc rc b2 := by
  unfold stampPaths at h
  refine foldlM_inv _ (fun bd => bd.length = cc ∧ InteriorOnly cc rc bd) conns ?_
    b b2 h ⟨hlen, hint⟩
  intro bd c hc bd2 hw hP
  obtain ⟨hc1, hc2⟩ := hcp c hc
  cases hgp : getPath ⟨c.point1.x, c.point1.y⟩ ⟨c.point2.x, c.point2.y⟩ with
  | none => rw [hgp] at hw; exact absurd hw (by simp)
  | some path =>
    rw [hgp] at hw
    have hbox := getPath_box ⟨c.point1.x, c.point1.y⟩ ⟨c.point2.x, c.point2.y⟩
      (by dsimp only; omega) (by dsimp only; omega) path hgp
    refine foldlM_inv _ (fun bd => bd.length = cc ∧ InteriorOnly cc rc bd) path ?_
      bd bd2 hw hP
    intro bd3 q hq bd4 hwq hP3
    obtain ⟨hb1, hb2, hb3, hb4⟩ := hbox q hq
    refine interior_write cc rc bd3 bd4 q.x q.y _ hP3.1 hP3.2 ?_ ?_ ?_ ?_ hwq <;>
      simp only at hb1 hb2 hb3 hb4 <;> omega

/-- The rectangle of a room lies strictly inside the board border. -/
def RoomRect (cc rc : Nat) (rm : Room) : Prop :=
  1 ≤ rm.x ∧ rm.x + rm.width ≤ (cc:Int) - 1 ∧
    1 ≤ rm.y ∧ rm.y + rm.height ≤ (rc:Int) - 1

/-- Stamping never changes the column count. -/
theorem stampRoom_length (b b2 : Board) (rx ry : Int) (w h : Nat) (v : TileVal)
    (hst : stampRoom b rx ry w h v = some b2) : b2.length = b.length := by
  unfold stampRoom at hst
  refine foldlM_inv _ (fun bd => bd.length = b.length) _ ?_ b b2 hst rfl
  intro bd i hi bd2 hf hP
  refine foldlM_inv _ (fun bd => bd.length = b.length) _ ?_ bd bd2 hf hP
  intro bd3 j hj bd4 hwr hP3
  exact (Board.write_length _ _ _ _ _ hwr).trans hP3

/-- Stamping a rectangle strictly inside the border keeps the dimensions
and the interior invariant. -/
theorem stampRoom_int (cc rc : Nat) (b b2 : Board) (rx ry : Int) (w h : Nat)
    (v : TileVal) (hst : stampRoom b rx ry w h v = some b2)
    (hlen : b.length = cc) (hint : InteriorOnly cc rc b)
    (h1 : 1 ≤ rx) (h2 : rx + (w:Int) ≤ (cc:Int) - 1)
    (h3 : 1 ≤ ry) (h4 : ry + (h:Int) ≤ (rc:Int) - 1) :
    b2.length = cc ∧ InteriorOnly cc rc b2 := by
  unfold stampRoom at hst
  refine foldlM_inv _ (fun bd => bd.length = cc ∧ InteriorOnly cc rc bd) _ ?_
    b b2 hst ⟨hlen, hint⟩
  intro bd i hi bd2 hf hP
  simp only [List.pure_def, List.bind_eq_flatMap, List.mem_flatMap, List.mem_range,
    List.mem_singleton] at hi
  obtain ⟨n, hn, rfl⟩ := hi
  refine foldlM_inv _ (fun bd => bd.length = cc ∧ InteriorOnly cc rc bd) _ ?_
    bd bd2 hf hP
  intro bd3 j hj bd4 hwr hP3
  simp only [List.pure_def, List.bind_eq_flatMap, List.mem_flatMap, List.mem_range,
    List.mem_singleton] at hj
  obtain ⟨m, hm, rfl⟩ := hj
  refine interior_write cc rc bd3 bd4 _ _ v hP3.1 hP3.2 ?_ ?_ ?_ ?_ hwr <;> omega

/-- One step of the per-grid room loop, conditionally: the PRNG stays
well-formed, the column count is kept, and — provided every room kept so
far (including the one this step may stamp, all recorded in the room list)
lies strictly inside the border — so does every non-wall tile.  The proviso
is genuine: the 1000-attempt fallback can stamp a rectangle that touches
the border of a grid at the board edge. -/
theorem roomPhaseStep_cond (cc rc : Nat) (mX mY mxX mxY rlc : Int)
    (pts : List PointObj) (conns : List Conn) (hx : mX ≤ mxX) (hy : mY ≤ mxY)
    (hmx3 : 3 ≤ mX) (hmy3 : 3 ≤ mY)
    (acc : RoomPhaseOut) (ig : Nat × Grid) (r : Rng) (out : RoomPhaseOut × Rng)
    (h : roomPhaseStep cc rc mX mY mxX mxY rlc pts conns acc ig r = some out)
    (hP : RngOk r ∧ acc.board.length = cc ∧
      ((∀ rm ∈ acc.roomList, RoomRect cc rc rm) → InteriorOnly cc rc acc.board)) :
    RngOk out.2 ∧ out.1.board.length = cc ∧
      ((∀ rm ∈ out.1.roomList, RoomRect cc rc rm) → InteriorOnly cc rc out.1.board) := by
  obtain ⟨hok, hlen, hcond⟩ := hP
  obtain ⟨i, grid⟩ := ig
  unfold roomPhaseStep at h
  try dsimp only at h
  by_cases hvc : (conns.filter (fun c => c.point1.gridIndex = grid.index ∨
      c.point2.gridIndex = grid.index)).length = 0
  · rw [if_pos hvc] at h
    have hz := rpure_inv h
    rw [hz]
    exact ⟨hok, hlen, hcond⟩
  · rw [if_neg hvc] at h
    cases hpt : (pts.filter (fun p => p.gridIndex = grid.index)).head? with
    | none => rw [hpt] at h; simp [rfailM] at h
    | some point =>
      rw [hpt] at h
      try dsimp only at h
      obtain ⟨w, r1, hwd, h⟩ := rbind_some_inv h
      obtain ⟨hwv, hr1⟩ := rrand_inv hwd
      have hbw := randomInt_ok r mX mxX hok hx
      have hok1 : RngOk r1 := by rw [hr1]; exact randomInt_pres r mX mxX hok
      obtain ⟨hh, r2, hhd, h⟩ := rbind_some_inv h
      obtain ⟨hhv, hr2⟩ := rrand_inv hhd
      have hbh := randomInt_ok r1 mY mxY hok1 hy
      have hok2 : RngOk r2 := by rw [hr2]; exact randomInt_pres r1 mY mxY hok1
      have hwa : mX ≤ w := by rw [hwv]; exact hbw.1
      have hha : mY ≤ hh := by rw [hhv]; exact hbh.1
      obtain ⟨rx, r3, hxd, h⟩ := rbind_some_inv h
      obtain ⟨-, hr3⟩ := rrand_inv hxd
      have hok3 : RngOk r3 := by rw [hr3]; exact randomInt_pres r2 _ _ hok2
      obtain ⟨ry, r4, hyd, h⟩ := rbind_some_inv h
      obtain ⟨-, hr4⟩ := rrand_inv hyd
      have hok4 : RngOk r4 := by rw [hr4]; exact randomInt_pres r3 _ _ hok3
      obtain ⟨res, r5, hal, h⟩ := rbind_some_inv h
      obtain ⟨hresW, hresH, hok5⟩ := attemptLoop_ok acc.board cc rc mX mY mxX mxY
        grid point hx hy 1000 w hh rx ry r4 (res, r5) hal hok4 hwa hha
      simp only at hresW hresH hok5
      obtain ⟨dice, r6, hdd, h⟩ := rbind_some_inv h
      obtain ⟨-, hr6⟩ := rrand_inv hdd
      have hok6 : RngOk r6 := by rw [hr6]; exact randomInt_pres r5 1 100 hok5
      by_cases hdc : dice ≥ rlc
      · rw [if_pos hdc] at h
        obtain ⟨b2, r7, hst, h⟩ := rbind_some_inv h
        obtain ⟨hsteq, hr7⟩ := rofOption_inv hst
        have hz := rpure_inv h
        rw [hz]
        refine ⟨by rw [hr7]; exact hok6, ?_, ?_⟩
        · exact (stampRoom_length acc.board b2 _ _ _ _ _ hsteq).trans hlen
        · intro hall
          have hall_acc : ∀ rm ∈ acc.roomList, RoomRect cc rc rm := by
            intro rm hm
            exact hall rm (List.mem_append.mpr (Or.inl hm))
          have hint := hcond hall_acc
          have hrect := hall ⟨res.roomX, res.roomY, res.roomWidth, res.roomHeight, i,
            res.onPoint, none⟩ (List.mem_append.mpr (Or.inr (List.mem_singleton.mpr rfl)))
          obtain ⟨hc1, hc2, hc3, hc4⟩ := hrect
          simp only at hc1 hc2 hc3 hc4
          exact (stampRoom_int cc rc acc.board b2 res.roomX res.roomY
            res.roomWidth.toNat res.roomHeight.toNat _ hsteq hlen hint
            (by omega) (by omega) (by omega) (by omega)).2
      · rw [if_neg hdc] at h
        have hz := rpure_inv h
        rw [hz]
        exact ⟨hok6, hlen, hcond⟩

/-- The whole per-grid room loop, conditionally on the recorded room
rectangles being strictly interior. -/
theorem roomFold_cond (cc rc : Nat) (mX mY mxX mxY rlc : Int) (pts : List PointObj)
    (conns : List Conn) (l : List (Nat × Grid)) (hx : mX ≤ mxX) (hy : mY ≤ mxY)
    (hmx3 : 3 ≤ mX) (hmy3 : 3 ≤ mY)
    (acc : RoomPhaseOut) (r : Rng) (out : RoomPhaseOut × Rng)
    (h : rfoldl (roomPhaseStep cc rc mX mY mxX mxY rlc pts conns) l acc r = some out)
    (hok : RngOk r) (hlen : acc.board.length = cc)
    (hcond : (∀ rm ∈ acc.roomList, RoomRect cc rc rm) → InteriorOnly cc rc acc.board) :
    RngOk out.2 ∧ out.1.board.length = cc ∧
      ((∀ rm ∈ out.1.roomList, RoomRect cc rc rm) → InteriorOnly cc rc out.1.board) := by
  refine rfoldl_inv (fun a rr => RngOk rr ∧ a.board.length = cc ∧
    ((∀ rm ∈ a.roomList, RoomRect cc rc rm) → InteriorOnly cc rc a.board)) ?_
    l acc r out h ⟨hok, hlen, hcond⟩
  intro a x rr o hs hinv
  exact roomPhaseStep_cond cc rc mX mY mxX mxY rlc pts conns hx hy hmx3 hmy3
    a x rr o hs hinv

/-- The entry/exit promotion preserves the board dimensions and the interior
invariant: the special tiles are written strictly inside rooms that lie
strictly inside the border. -/
theorem entryExitPhase_int (cc rc : Nat) (rooms : List Room) (sp : SpecialPoints)
    (b : Board) (r : Rng) (out : (List Room × SpecialPoints × Board) × Rng)
    (h : entryExitPhase rooms sp b r = some out)
    (hok : RngOk r) (hlen : b.length = cc) (hint : InteriorOnly cc rc b)
    (hall : ∀ rm ∈ rooms, 3 ≤ rm.width ∧ 3 ≤ rm.height ∧
      1 ≤ rm.x ∧ rm.x + rm.width ≤ (cc:Int) - 1 ∧
      1 ≤ rm.y ∧ rm.y + rm.height ≤ (rc:Int) - 1) :
    out.1.2.2.length = cc ∧ InteriorOnly cc rc out.1.2.2 := by
  unfold entryExitPhase at h
  by_cases h2 : 2 ≤ rooms.length
  · rw [if_pos h2] at h
    obtain ⟨eIdx, r1, hde, h⟩ := rbind_some_inv h
    obtain ⟨hev, hr1⟩ := rrand_inv hde
    have hlen1 : (0:Int) ≤ (rooms.length:Int) - 1 := by omega
    have hbe := randomInt_ok r 0 ((rooms.length:Int)-1) hok hlen1
    have h0e : 0 ≤ eIdx := by rw [hev]; exact hbe.1
    have h1e : eIdx ≤ (rooms.length:Int) - 1 := by rw [hev]; exact hbe.2.1
    have hok1 : RngOk r1 := by rw [hr1]; exact hbe.2.2
    try dsimp only at h
    rw [if_neg (not_lt.mpr h0e), if_pos h0e] at h
    have heP : eIdx.toNat < rooms.length := by omega
    obtain ⟨xIdx, r2, hdx, h⟩ := rbind_some_inv h
    obtain ⟨hxv, hr2⟩ := rrand_inv hdx
    have hlenE : (rooms.eraseIdx eIdx.toNat).length = rooms.length - 1 := by
      rw [List.length_eraseIdx, if_pos heP]
    have hlx : (0:Int) ≤ ((rooms.eraseIdx eIdx.toNat).length:Int) - 1 := by
      rw [hlenE]; omega
    have hbx := randomInt_ok r1 0 (((rooms.eraseIdx eIdx.toNat).length:Int)-1) hok1 hlx
    have h0x : 0 ≤ xIdx := by rw [hxv]; exact hbx.1
    have hok2 : RngOk r2 := by rw [hr2]; exact hbx.2.2
    have h1x : xIdx ≤ ((rooms.eraseIdx eIdx.toNat).length:Int) - 1 := by
      rw [hxv]; exact hbx.2.1
    rw [hlenE] at h1x
    have hxP : xIdx.toNat < (rooms.eraseIdx eIdx.toNat).length := by rw [hlenE]; omega
    have hgetE := List.get?_eq_get heP
    have hgetX := List.get?_eq_get hxP
    rw [if_pos h0x, hgetE, hgetX] at h
    try dsimp only at h
    have hmemE : rooms.get ⟨eIdx.toNat, heP⟩ ∈ rooms := rooms.get_mem eIdx.toNat heP
    have hE3 := hall _ hmemE
    have hmemX : (rooms.eraseIdx eIdx.toNat).get ⟨xIdx.toNat, hxP⟩ ∈ rooms :=
      List.eraseIdx_subset rooms eIdx.toNat
        ((rooms.eraseIdx eIdx.toNat).get_mem xIdx.toNat hxP)
    have hX3 := hall _ hmemX
    obtain ⟨ex, r3, hdex, h⟩ := rbind_some_inv h
    obtain ⟨hexv, hr3⟩ := rrand_inv hdex
    have hbex := randomInt_ok r2 _ _ hok2 (by omega : (rooms.get ⟨eIdx.toNat, heP⟩).x + 1 ≤
      (rooms.get ⟨eIdx.toNat, heP⟩).x + (rooms.get ⟨eIdx.toNat, heP⟩).width - 2)
    have hok3 : RngOk r3 := by rw [hr3]; exact hbex.2.2
    obtain ⟨ey, r4, hdey, h⟩ := rbind_some_inv h
    obtain ⟨heyv, hr4⟩ := rrand_inv hdey
    have hbey := randomInt_ok r3 _ _ hok3 (by omega : (rooms.get ⟨eIdx.toNat, heP⟩).y + 1 ≤
      (rooms.get ⟨eIdx.toNat, heP⟩).y + (rooms.get ⟨eIdx.toNat, heP⟩).height - 2)
    have hok4 : RngOk r4 := by rw [hr4]; exact hbey.2.2
    obtain ⟨xx, r5, hdxx, h⟩ := rbind_some_inv h
    obtain ⟨hxxv, hr5⟩ := rrand_inv hdxx
    have hbxx := randomInt_ok r4 _ _ hok4
      (by omega : ((rooms.eraseIdx eIdx.toNat).get ⟨xIdx.toNat, hxP⟩).x + 1 ≤
        ((rooms.eraseIdx eIdx.toNat).get ⟨xIdx.toNat, hxP⟩).x +
          ((rooms.eraseIdx eIdx.toNat).get ⟨xIdx.toNat, hxP⟩).width - 2)
    have hok5 : RngOk r5 := by rw [hr5]; exact hbxx.2.2
    obtain ⟨xy, r6, hdxy, h⟩ := rbind_some_inv h
    obtain ⟨hxyv, hr6⟩ := rrand_inv hdxy
    have hbxy := randomInt_ok r5 _ _ hok5
      (by omega : ((rooms.eraseIdx eIdx.toNat).get ⟨xIdx.toNat, hxP⟩).y + 1 ≤
        ((rooms.eraseIdx eIdx.toNat).get ⟨xIdx.toNat, hxP⟩).y +
          ((rooms.eraseIdx eIdx.toNat).get ⟨xIdx.toNat, hxP⟩).height - 2)
    have hexa : (rooms.get ⟨eIdx.toNat, heP⟩).x + 1 ≤ ex := by rw [hexv]; exact hbex.1
    have hexb : ex ≤ (rooms.get ⟨eIdx.toNat, heP⟩).x +
        (rooms.get ⟨eIdx.toNat, heP⟩).width - 2 := by rw [hexv]; exact hbex.2.1
    have heya : (rooms.get ⟨eIdx.toNat, heP⟩).y + 1 ≤ ey := by rw [heyv]; exact hbey.1
    have heyb : ey ≤ (rooms.get ⟨eIdx.toNat, heP⟩).y +
        (rooms.get ⟨eIdx.toNat, heP⟩).height - 2 := by rw [heyv]; exact hbey.2.1
    have hxxa : ((rooms.eraseIdx eIdx.toNat).get ⟨xIdx.toNat, hxP⟩).x + 1 ≤ xx := by
      rw [hxxv]; exact hbxx.1
    have hxxb : xx ≤ ((rooms.eraseIdx eIdx.toNat).get ⟨xIdx.toNat, hxP⟩).x +
        ((rooms.eraseIdx eIdx.toNat).get ⟨xIdx.toNat, hxP⟩).width - 2 := by
      rw [hxxv]; exact hbxx.2.1
    have hxya : ((rooms.eraseIdx eIdx.toNat).get ⟨xIdx.toNat, hxP⟩).y + 1 ≤ xy := by
      rw [hxyv]; exact hbxy.1
    have hxyb : xy ≤ ((rooms.eraseIdx eIdx.toNat).get ⟨xIdx.toNat, hxP⟩).y +
        ((rooms.eraseIdx eIdx.toNat).get ⟨xIdx.toNat, hxP⟩).height - 2 := by
      rw [hxyv]; exact hbxy.2.1
    obtain ⟨b2, r7, hwr1, h⟩ := rbind_some_inv h
    obtain ⟨hw1eq, hr7⟩ := rofOption_inv hwr1
    obtain ⟨hlen2, hint2⟩ := interior_writeType cc rc b b2 ex ey TileVal.entryT hlen hint
      (by omega) (by omega) (by omega) (by omega) hw1eq
    obtain ⟨b3, r8, hwr2, h⟩ := rbind_some_inv h
    obtain ⟨hw2eq, hr8⟩ := rofOption_inv hwr2
    obtain ⟨hlen3, hint3⟩ := interior_writeType cc rc b2 b3 xx xy TileVal.exitT hlen2 hint2
      (by omega) (by omega) (by omega) (by omega) hw2eq
    have hz := rpure_inv h
    have hbeq : out.1.2.2 = b3 := congrArg (fun q => q.1.2.2) hz
    rw [hbeq]
    exact ⟨hlen3, hint3⟩
  · rw [if_neg h2] at h
    have hz := rpure_inv h
    have hbeq : out.1.2.2 = b := congrArg (fun q => q.1.2.2) hz
    rw [hbeq]
    exact ⟨hlen, hint⟩

/-- Every tile collected by `#addRandomPaths` is a corridor tile of the
board it scanned. -/
theorem pathableTiles_mem (b : Board) (tiles : List Pt) (h : pathableTiles b = some tiles) :
    ∀ p ∈ tiles, b.read p.x p.y = some (some TileVal.corr) := by
  unfold pathableTiles at h
  refine foldlM_inv _ (fun acc => ∀ p ∈ acc, b.read p.x p.y = some (some TileVal.corr))
    b.enum ?_ [] tiles h (by intro p hp; exact absurd hp (List.not_mem_nil p))
  intro acc xc hxc acc2 hf hP
  obtain ⟨hlt, hget⟩ := List.mem_enum (show (xc.1, xc.2) ∈ b.enum from hxc)
  have hcol : b.col? (xc.1 : Int) = some xc.2 := by
    unfold Board.col?
    rw [if_pos (by omega : (0:Int) ≤ (xc.1 : Int))]
    rw [List.get?_eq_getElem?]
    have : ((xc.1 : Int)).toNat = xc.1 := by omega
    rw [this, List.getElem?_eq_getElem hlt, hget]
  refine foldlM_inv _ (fun acc => ∀ p ∈ acc, b.read p.x p.y = some (some TileVal.corr))
    (List.range xc.2.len) ?_ acc acc2 hf hP
  intro acc3 y hy acc4 hfy hP3
  cases hread : xc.2.read (y : Int) with
  | none => rw [hread] at hfy; exact absurd hfy (by simp)
  | some t =>
    rw [hread] at hfy
    injection hfy with hfy
    rw [← hfy]
    by_cases htc : t = TileVal.corr
    · rw [if_pos htc]
      intro p hp
      rw [List.mem_append] at hp
      cases hp with
      | inl hp => exact hP3 p hp
      | inr hp =>
        rw [List.mem_singleton] at hp
        rw [hp]
        show b.read (xc.1 : Int) (y : Int) = some (some TileVal.corr)
        unfold Board.read
        rw [hcol]
        simp only [Option.map_some']
        rw [hread, htc]
    · rw [if_neg htc]
      exact hP3

/-- The random-path loop preserves the board dimensions and the interior
invariant: it only writes corridor tiles along paths between interior
corridor tiles. -/
theorem randomPathsLoop_int (cc rc : Nat) (tiles : List Pt)
    (htl : ∀ p ∈ tiles, 1 ≤ p.x ∧ p.x ≤ (cc:Int) - 2 ∧ 1 ≤ p.y ∧ p.y ≤ (rc:Int) - 2) :
    ∀ (fuel : Nat) (b : Board) (r : Rng) (out : Board × Rng),
      randomPathsLoop tiles fuel b r = some out →
      b.length = cc → InteriorOnly cc rc b →
      out.1.length = cc ∧ InteriorOnly cc rc out.1 := by
  intro fuel
  induction fuel with
  | zero =>
    intro b r out h hlen hint
    have hz := rpure_inv h
    rw [hz]
    exact ⟨hlen, hint⟩
  | succ n ih =>
    intro b r out h hlen hint
    simp only [randomPathsLoop] at h
    obtain ⟨si, r1, hsd, h⟩ := rbind_some_inv h
    obtain ⟨ei, r2, hed, h⟩ := rbind_some_inv h
    cases hs : (if 0 ≤ si then tiles.get? si.toNat else none) with
    | none =>
      rw [hs] at h
      cases he : (if 0 ≤ ei then tiles.get? ei.toNat else none) with
      | none => rw [he] at h; simp [rfailM] at h
      | some e => rw [he] at h; simp [rfailM] at h
    | some s =>
      rw [hs] at h
      cases he : (if 0 ≤ ei then tiles.get? ei.toNat else none) with
      | none => rw [he] at h; simp [rfailM] at h
      | some e =>
        rw [he] at h
        try dsimp only at h
        have hsmem : s ∈ tiles := by
          by_cases h0 : 0 ≤ si
          · rw [if_pos h0] at hs; exact List.get?_mem hs
          · rw [if_neg h0] at hs; exact absurd hs (by simp)
        have hemem : e ∈ tiles := by
          by_cases h0 : 0 ≤ ei
          · rw [if_pos h0] at he; exact List.get?_mem he
          · rw [if_neg h0] at he; exact absurd he (by simp)
        obtain ⟨hs1, hs2, hs3, hs4⟩ := htl s hsmem
        obtain ⟨he1, he2, he3, he4⟩ := htl e hemem
        by_cases hax : s.x = e.x ∨ s.y = e.y
        · rw [if_pos hax] at h
          exact ih b r2 out h hlen hint
        · rw [if_neg hax] at h
          cases hgp : getPath s e with
          | none => rw [hgp] at h; simp [rfailM] at h
          | some path =>
            rw [hgp] at h
            obtain ⟨b2, r3, hst, h⟩ := rbind_some_inv h
            obtain ⟨hsteq, hr3⟩ := rofOption_inv hst
            have hbox := getPath_box s e (by omega) (by omega) path hgp
            obtain ⟨hlen2, hint2⟩ : b2.length = cc ∧ InteriorOnly cc rc b2 := by
              refine foldlM_inv _ (fun bd => bd.length = cc ∧ InteriorOnly cc rc bd)
                path ?_ b b2 hsteq ⟨hlen, hint⟩
              intro bd q hq bd2 hwq hP
              obtain ⟨hb1, hb2, hb3, hb4⟩ := hbox q hq
              cases hrd : bd.read q.x q.y with
              | none => rw [hrd] at hwq; exact absurd hwq (by simp)
              | some cell =>
                rw [hrd] at hwq
                cases cell with
                | none => exact absurd hwq (by simp)
                | some t =>
                  try dsimp only at hwq
                  by_cases hlz : t.leZero = true
                  · rw [if_pos hlz] at hwq
                    refine interior_write cc rc bd bd2 q.x q.y _ hP.1 hP.2
                      ?_ ?_ ?_ ?_ hwq <;> omega
                  · rw [if_neg hlz] at hwq
                    injection hwq with hwq
                    rw [← hwq]
                    exact hP
            exact ih b2 r3 out h hlen2 hint2

/-- `#addRandomPaths` preserves the board dimensions and the interior
invariant. -/
theorem addRandomPaths_int (cc rc : Nat) (rpm : Int) (b : Board) (r : Rng)
    (out : Board × Rng) (h : addRandomPaths rpm b r = some out)
    (hlen : b.length = cc) (hint : InteriorOnly cc rc b) :
    out.1.length = cc ∧ InteriorOnly cc rc out.1 := by
  unfold addRandomPaths at h
  obtain ⟨pc, r1, hpd, h⟩ := rbind_some_inv h
  obtain ⟨tiles, r2, htd, h⟩ := rbind_some_inv h
  obtain ⟨hteq, hr2⟩ := rofOption_inv htd
  have htl : ∀ p ∈ tiles, 1 ≤ p.x ∧ p.x ≤ (cc:Int) - 2 ∧ 1 ≤ p.y ∧ p.y ≤ (rc:Int) - 2 := by
    intro p hp
    have hrd := pathableTiles_mem b tiles hteq p hp
    exact hint p.x p.y TileVal.corr hrd rfl
  exact randomPathsLoop_int cc rc tiles htl pc.toNat b r2 out h hlen hint

/-- An option-valued fold over a list is defined when every step is. -/
theorem foldlM_isSome {α β : Type} (f : β → α → Option β) :
    ∀ (l : List α), (∀ b a, a ∈ l → (f b a).isSome) →
      ∀ b0, (l.foldlM f b0).isSome
  | [], _, b0 => by simp [List.foldlM_nil]
  | a :: l, hf, b0 => by
    rw [List.foldlM_cons]
    cases hfa : f b0 a with
    | none =>
      have := hf b0 a (List.mem_cons_self a l)
      rw [hfa] at this
      simp at this
    | some b1 =>
      have h2 : ((some b1).bind (fun init => List.foldlM f init l)).isSome := by
        rw [Option.some_bind]
        exact foldlM_isSome f l
          (fun b a2 ha => hf b a2 (List.mem_cons_of_mem _ ha)) b1
      exact h2
  
/-- The eight-neighbour scan succeeds for every position whose column
neighbourhood exists. -/
theorem getAdjacentTiles_isSome (b : Board) (p : Pt)
    (h1 : 1 ≤ p.x) (h2 : p.x + 1 < (b.length : Int)) :
    (getAdjacentTiles b p).isSome := by
  unfold getAdjacentTiles
  refine foldlM_isSome _ adjOffsets ?_ []
  intro acc d hd
  have hdx : d.1 = -1 ∨ d.1 = 0 ∨ d.1 = 1 := by
    simp only [adjOffsets, List.mem_cons, List.not_mem_nil, or_false] at hd
    rcases hd with rfl | rfl | rfl | rfl | rfl | rfl | rfl | rfl <;> simp
  have hb : (b.read (p.x + d.1) (p.y + d.2)).isSome := by
    rcases hdx with h3 | h3 | h3 <;> rw [h3] <;>
      exact Board.read_isSome b _ _ (by omega) (by omega)
  cases hr : b.read (p.x + d.1) (p.y + d.2) with
  | none => rw [hr] at hb; simp at hb
  | some cell => simp

/-- The entry/exit promotion only retypes two rooms at their original
positions: if every room of its output rectangle-fits strictly inside the
border, so did every incoming room. -/
theorem entryExitPhase_rect (cc rc : Nat) (rooms : List Room) (sp : SpecialPoints)
    (b : Board) (r : Rng) (out : (List Room × SpecialPoints × Board) × Rng)
    (h : entryExitPhase rooms sp b r = some out)
    (hall2 : ∀ rm ∈ out.1.1, RoomRect cc rc rm) :
    ∀ rm ∈ rooms, RoomRect cc rc rm := by
  unfold entryExitPhase at h
  by_cases h2 : 2 ≤ rooms.length
  · rw [if_pos h2] at h
    obtain ⟨eIdx, r1, -, h⟩ := rbind_some_inv h
    try dsimp only at h
    obtain ⟨xIdx, r2, -, h⟩ := rbind_some_inv h
    try dsimp only at h
    cases hE : (if 0 ≤ eIdx then rooms.get? eIdx.toNat else none) with
    | none =>
      rw [hE] at h
      cases hX : (if 0 ≤ xIdx then
          (rooms.eraseIdx (if eIdx < 0 then (max 0 ((rooms.length : Int) + eIdx)).toNat
            else eIdx.toNat)).get? xIdx.toNat else none) with
      | none => rw [hX] at h; simp [rfailM] at h
      | some xR => rw [hX] at h; simp [rfailM] at h
    | some eR =>
      rw [hE] at h
      cases hX : (if 0 ≤ xIdx then
          (rooms.eraseIdx (if eIdx < 0 then (max 0 ((rooms.length : Int) + eIdx)).toNat
            else eIdx.toNat)).get? xIdx.toNat else none) with
      | none => rw [hX] at h; simp [rfailM] at h
      | some xR =>
        rw [hX] at h
        try dsimp only at h
        have h0e : 0 ≤ eIdx := by
          by_contra hc
          rw [if_neg hc] at hE
          simp at hE
        have h0x : 0 ≤ xIdx := by
          by_contra hc
          rw [if_neg hc] at hX
          simp at hX
        rw [if_pos h0e] at hE
        rw [if_pos h0x, if_neg (not_lt.mpr h0e)] at hX
        obtain ⟨ex, r3, -, h⟩ := rbind_some_inv h
        try dsimp only at h
        obtain ⟨ey, r4, -, h⟩ := rbind_some_inv h
        try dsimp only at h
        obtain ⟨xx, r5, -, h⟩ := rbind_some_inv h
        try dsimp only at h
        obtain ⟨xy, r6, -, h⟩ := rbind_some_inv h
        try dsimp only at h
        obtain ⟨b2, r7, -, h⟩ := rbind_some_inv h
        try dsimp only at h
        obtain ⟨b3, r8, -, h⟩ := rbind_some_inv h
        try dsimp only at h
        have hz := rpure_inv h
        have hout : out.1.1 =
            (rooms.set eIdx.toNat { eR with type := some RoomType.ENTRY }).set
              (if xIdx.toNat < eIdx.toNat then xIdx.toNat else xIdx.toNat + 1)
              { xR with type := some RoomType.EXIT } :=
          congrArg (fun q => q.1.1) hz
        have heP : eIdx.toNat < rooms.length := by
          rw [List.get?_eq_getElem?] at hE
          obtain ⟨hlt, -⟩ := List.getElem?_eq_some_iff.mp hE
          exact hlt
        have hxP : xIdx.toNat < (rooms.eraseIdx eIdx.toNat).length := by
          rw [List.get?_eq_getElem?] at hX
          obtain ⟨hlt, -⟩ := List.getElem?_eq_some_iff.mp hX
          exact hlt
        have hlenE : (rooms.eraseIdx eIdx.toNat).length = rooms.length - 1 := by
          rw [List.length_eraseIdx, if_pos heP]
        have hxPlt : (if xIdx.toNat < eIdx.toNat then xIdx.toNat else xIdx.toNat + 1)
            < rooms.length := by
          by_cases hc : xIdx.toNat < eIdx.toNat
          · rw [if_pos hc]; omega
          · rw [if_neg hc]; omega
        have hxPne : eIdx.toNat ≠
            (if xIdx.toNat < eIdx.toNat then xIdx.toNat else xIdx.toNat + 1) := by
          by_cases hc : xIdx.toNat < eIdx.toNat
          · rw [if_pos hc]; omega
          · rw [if_neg hc]; omega
        have hxRget : rooms[(if xIdx.toNat < eIdx.toNat then xIdx.toNat
            else xIdx.toNat + 1)]? = some xR := by
          simp only [List.get?_eq_getElem?, List.getElem?_eraseIdx] at hX
          by_cases hc : xIdx.toNat < eIdx.toNat
          · rw [if_pos hc]
            rw [if_pos hc] at hX
            exact hX
          · rw [if_neg hc]
            rw [if_neg hc] at hX
            exact hX
        intro rm hm
        obtain ⟨i, hi, hrm⟩ := List.getElem_of_mem hm
        have h1 : rooms[i]? = some rm := by
          rw [List.getElem?_eq_getElem hi, hrm]
        by_cases hie : i = eIdx.toNat
        · subst hie
          have hE2 : rooms[eIdx.toNat]? = some eR := by
            rw [← List.get?_eq_getElem?]
            exact hE
          have heq : rm = eR := by
            rw [h1] at hE2
            exact Option.some.inj hE2
          have hmem : { eR with type := some RoomType.ENTRY } ∈ out.1.1 := by
            rw [hout]
            refine List.getElem?_mem (n := eIdx.toNat) ?_
            rw [List.getElem?_set_ne hxPne.symm]
            exact List.getElem?_set_self heP
          have hrr := hall2 _ hmem
          rw [heq]
          exact hrr
        · by_cases hix : i = (if xIdx.toNat < eIdx.toNat then xIdx.toNat
              else xIdx.toNat + 1)
          · subst hix
            have heq : rm = xR := by
              rw [h1] at hxRget
              exact Option.some.inj hxRget
            have hmem : { xR with type := some RoomType.EXIT } ∈ out.1.1 := by
              rw [hout]
              refine List.getElem?_mem
                (n := (if xIdx.toNat < eIdx.toNat then xIdx.toNat else xIdx.toNat + 1)) ?_
              exact List.getElem?_set_self (by rw [List.length_set]; exact hxPlt)
            have hrr := hall2 _ hmem
            rw [heq]
            exact hrr
          · have hmem : rm ∈ out.1.1 := by
              rw [hout]
              refine List.getElem?_mem (n := i) ?_
              rw [List.getElem?_set_ne (fun hh => hix hh.symm),
                List.getElem?_set_ne (fun hh => hie hh.symm), h1]
            exact hall2 rm hmem
  · rw [if_neg h2] at h
    have hz := rpure_inv h
    have hout : out.1.1 = rooms := congrArg (fun q => q.1.1) hz
    rw [hout] at hall2
    exact hall2

/-- C10, amended: under a well-formed PRNG seed, the constructor-clamped
size settings, a grid partition contained in the board and at least twice
the minimum room size per dimension (as `#createGrid` yields whenever the
divisions work out), and provided every recorded room rectangle lies
strictly inside the border — which validated placements guarantee but the
1000-attempt fallback of `#createRooms` does not — every non-wall tile of a
completed attempt's board lies strictly inside the border
(`1 ≤ x ≤ colCount-2`, `1 ≤ y ≤ rowCount-2`), and `#getAdjacentTiles` is
defined at every non-wall tile, so the validator's flood fill never indexes
a nonexistent column.  Without these provisos non-wall tiles can land on
the border (see the counterexample: a point marker at `y = 0`). -/
theorem c10_interior (s : Settings) (sp : SpecialPoints) (r r2 : Rng) (d : DState)
    (h : regenerate s sp r = some (d, r2))
    (hok : RngOk r)
    (hmx : 3 ≤ s.minRoomSizeX) (hmy : 3 ≤ s.minRoomSizeY)
    (hxx : s.minRoomSizeX ≤ s.maxRoomSizeX) (hyy : s.minRoomSizeY ≤ s.maxRoomSizeY)
    (hgrid : ∀ g ∈ d.gridList, 0 ≤ g.x ∧ 0 ≤ g.y ∧
      g.x + g.width ≤ (s.colCount:Int) ∧ g.y + g.height ≤ (s.rowCount:Int) ∧
      s.minRoomSizeX ≤ g.width - s.minRoomSizeX ∧
      s.minRoomSizeY ≤ g.height - s.minRoomSizeY)
    (hrooms : ∀ rm ∈ d.roomList, RoomRect s.colCount s.rowCount rm) :
    d.board.length = s.colCount ∧
    InteriorOnly s.colCount s.rowCount d.board ∧
    (∀ (p : Pt) (t : TileVal), d.board.read p.x p.y = some (some t) →
      t.isNonZero = true → (getAdjacentTiles d.board p).isSome) := by
  unfold regenerate at h
  obtain ⟨df, rI, hI, hfin⟩ := rbind_some_inv h
  have hd : d = df.1 := congrArg Prod.fst (rpure_inv hfin)
  unfold regenerateI at hI
  obtain ⟨rc0, ra, hrcd, hI⟩ := rbind_some_inv hI
  obtain ⟨-, hra⟩ := rrand_inv hrcd
  have hokra : RngOk ra := by rw [hra]; exact randomInt_pres r _ _ hok
  try dsimp only at hI
  obtain ⟨pcb, rb, hcp, hI⟩ := rbind_some_inv hI
  try dsimp only at hI
  obtain ⟨rms, rcc, hcr, hI⟩ := rbind_some_inv hI
  try dsimp only at hI
  obtain ⟨b4, rd, harp, hI⟩ := rbind_some_inv hI
  try dsimp only at hI
  obtain ⟨valid, re, hval, hI⟩ := rbind_some_inv hI
  have hdf := rpure_inv hI
  have hdb : d.board = b4 := by
    rw [hd]
    exact congrArg (fun q => q.1.1.board) hdf
  have hdg : d.gridList = createGrid (adjustRoomCount rc0) s.rowCount s.colCount := by
    rw [hd]
    exact congrArg (fun q => q.1.1.gridList) hdf
  have hdrl : d.roomList = rms.2.1 := by
    rw [hd]
    exact congrArg (fun q => q.1.1.roomList) hdf
  rw [hdg] at hgrid
  rw [hdrl] at hrooms
  unfold createPaths at hcp
  obtain ⟨points, rA, hpts, hcp⟩ := rbind_some_inv hcp
  obtain ⟨bM, rA2, hmk, hcp⟩ := rbind_some_inv hcp
  obtain ⟨hmkeq, hrA2⟩ := rofOption_inv hmk
  obtain ⟨conns, rB, hcn, hcp⟩ := rbind_some_inv hcp
  obtain ⟨b3, rB2, hsp3, hcp⟩ := rbind_some_inv hcp
  obtain ⟨hspeq, hrB2⟩ := rofOption_inv hsp3
  have hzc := rpure_inv hcp
  have hpcb1 : pcb.1 = points := congrArg (fun q => q.1.1) hzc
  have hpcb21 : pcb.2.1 = conns := congrArg (fun q => q.1.2.1) hzc
  have hpcb22 : pcb.2.2 = b3 := congrArg (fun q => q.1.2.2) hzc
  have hrb : rb = rB2 := congrArg (fun q => q.2) hzc
  have hpp := pointsPhase_box s.colCount s.rowCount s.minRoomSizeX s.minRoomSizeY
    (createGrid (adjustRoomCount rc0) s.rowCount s.colCount) ra (points, rA) hpts
    hokra hmx hmy hgrid
  have hptbox := hpp.2
  obtain ⟨hlenm, hintm⟩ := placeMarkers_inv s.colCount s.rowCount
    (Board.init s.colCount s.rowCount) bM points hmkeq
    (Board.init_length s.colCount s.rowCount) (init_interior s.colCount s.rowCount)
    hptbox
  have hokA2 : RngOk rA2 := by rw [hrA2]; exact hpp.1
  have hokB := connPhase_pres s.pointLossChance
    (createGrid (adjustRoomCount rc0) s.rowCount s.colCount) points rA2 (conns, rB)
    hcn hokA2
  have hcm := connPhase_mem s.pointLossChance
    (createGrid (adjustRoomCount rc0) s.rowCount s.colCount) points rA2 (conns, rB) hcn
  obtain ⟨hlen3, hint3⟩ := stampPaths_inv s.colCount s.rowCount bM b3 conns hspeq
    hlenm hintm (by
      intro c hc
      obtain ⟨h1m, h2m⟩ := hcm c hc
      exact ⟨hptbox _ h1m, hptbox _ h2m⟩)
  rw [hpcb1, hpcb21, hpcb22, hrb] at hcr
  unfold createRooms at hcr
  obtain ⟨phase, rF, hfold, hcr⟩ := rbind_some_inv hcr
  try dsimp only at hcr
  obtain ⟨fin, rG, hee, hcr⟩ := rbind_some_inv hcr
  have hzr := rpure_inv hcr
  have hrms : rms.2.2.2 = fin.2.2 := congrArg (fun q => q.1.2.2.2) hzr
  have hrms1 : rms.2.1 = fin.1 := congrArg (fun q => q.1.2.1) hzr
  have hokB2 : RngOk rB2 := by rw [hrB2]; exact hokB
  have hsizes := roomFold_ok s.colCount s.rowCount s.minRoomSizeX s.minRoomSizeY
    s.maxRoomSizeX s.maxRoomSizeY s.roomLossChance points conns hxx hyy
    (createGrid (adjustRoomCount rc0) s.rowCount s.colCount).enum
    ⟨b3, [], []⟩ rB2 (phase, rF) hfold hokB2
    (by intro rm hm; exact absurd hm (List.not_mem_nil rm))
  rw [hrms1] at hrooms
  have hrect := entryExitPhase_rect s.colCount s.rowCount phase.roomList sp phase.board
    rF (fin, rG) hee hrooms
  have hcond := roomFold_cond s.colCount s.rowCount s.minRoomSizeX s.minRoomSizeY
    s.maxRoomSizeX s.maxRoomSizeY s.roomLossChance points conns
    (createGrid (adjustRoomCount rc0) s.rowCount s.colCount).enum hxx hyy hmx hmy
    ⟨b3, [], []⟩ rB2 (phase, rF) hfold hokB2 hlen3 (fun _ => hint3)
  have hintF : InteriorOnly s.colCount s.rowCount phase.board := hcond.2.2 hrect
  have heei := entryExitPhase_int s.colCount s.rowCount phase.roomList sp phase.board
    rF (fin, rG) hee hsizes.1 hcond.2.1 hintF (by
      intro rm hm
      obtain ⟨-, hw3, hh3⟩ := hsizes.2 rm hm
      obtain ⟨hr1, hr2, hr3, hr4⟩ := hrect rm hm
      exact ⟨by omega, by omega, hr1, hr2, hr3, hr4⟩)
  rw [hrms] at harp
  obtain ⟨hlen4, hint4⟩ := addRandomPaths_int s.colCount s.rowCount s.randomPathMax
    fin.2.2 rcc (b4, rd) harp heei.1 heei.2
  rw [hdb]
  refine ⟨hlen4, hint4, ?_⟩
  intro p t hread ht
  obtain ⟨hx1, hx2, hy1, hy2⟩ := hint4 p.x p.y t hread ht
  refine getAdjacentTiles_isSome b4 p hx1 ?_
  rw [hlen4]
  omega

/-- Witness for the amended C10: the concrete seeded run at seed 163170
satisfies every proviso and its board is interior-only. -/
theorem c10_witness :
    c8r1_b5.length = 20 ∧ InteriorOnly 20 20 c8r1_b5 ∧
    (∀ (p : Pt) (t : TileVal), c8r1_b5.read p.x p.y = some (some t) →
      t.isNonZero = true → (getAdjacentTiles c8r1_b5 p).isSome) :=
  c10_interior c8S ⟨none, none⟩ (seededRng 163170) (seededRng 201517)
    ⟨4, c8r1_b5, c8r1_gl, c8r1_pl, c8r1_cl,
      [⟨3, 3, 3, 3, 0, true, some RoomType.EXIT⟩,
        ⟨2, 13, 3, 3, 1, true, some RoomType.ENTRY⟩],
      ⟨some ⟨3, 14⟩, some ⟨4, 4⟩⟩, false⟩
    c8r1_run
    (by intro s hs; injection hs with hs; omega)
    (by decide) (by decide) (by decide) (by decide) (by decide)
    (by unfold RoomRect; decide)

def c10S : Settings := ⟨20, 20, 12, 12, 3, 3, 3, 3, 100, 20, 0⟩

def c10r1_gl : List Grid := [⟨0, 0, 3, 10, 0⟩, ⟨0, 10, 3, 10, 1⟩, ⟨3, 0, 3, 10, 2⟩, ⟨3, 10, 3, 10, 3⟩, ⟨6, 0, 3, 10, 4⟩, ⟨6, 10, 3, 10, 5⟩, ⟨9, 0, 3, 10, 6⟩, ⟨9, 10, 3, 10, 7⟩, ⟨12, 0, 3, 10, 8⟩, ⟨12, 10, 3, 10, 9⟩, ⟨15, 0, 3, 10, 10⟩, ⟨15, 10, 3, 10, 11⟩]

theorem c10r1_grc : adjustRoomCount 11 = 12 ∧ createGrid 12 20 20 = c10r1_gl := by
  constructor
  · decide
  · decide

theorem c10r1_rcd : (seededRng (-231504)).randomInt 12 12 = (11, (seededRng (-228287))) := by rfl

def c10r1_pl : List PointObj := [⟨4, 0, 0⟩, ⟨3, 9, 1⟩, ⟨7, 2, 2⟩, ⟨5, 15, 3⟩, ⟨7, 6, 4⟩, ⟨8, 16, 5⟩, ⟨10, 5, 6⟩, ⟨10, 16, 7⟩, ⟨14, 5, 8⟩, ⟨13, 16, 9⟩, ⟨17, 5, 10⟩, ⟨17, 17, 11⟩]

theorem c10r1_pts : pointsPhase 3 3 c10r1_gl (seededRng (-228287)) = some (c10r1_pl, (seededRng 205321)) := by
  unfold pointsPhase
  refine rfoldl_eval _ _ _ _ [⟨4, 0, 0⟩] _ _ (seededRng (-138513)) _ (by rfl) ?_
  refine rfoldl_eval _ _ _ _ [⟨4, 0, 0⟩, ⟨3, 9, 1⟩] _ _ (seededRng (-149779)) _ (by rfl) ?_
  refine rfoldl_eval _ _ _ _ [⟨4, 0, 0⟩, ⟨3, 9, 1⟩, ⟨7, 2, 2⟩] _ _ (seededRng (-5)) _ (by rfl) ?_
  refine rfoldl_eval _ _ _ _ [⟨4, 0, 0⟩, ⟨3, 9, 1⟩, ⟨7, 2, 2⟩, ⟨5, 15, 3⟩] _ _ (seededRng 123609) _ (by rfl) ?_
  refine rfoldl_eval _ _ _ _ [⟨4, 0, 0⟩, ⟨3, 9, 1⟩, ⟨7, 2, 2⟩, ⟨5, 15, 3⟩, ⟨7, 6, 4⟩] _ _ (seededRng 154823) _ (by rfl) ?_
  refine rfoldl_eval _ _ _ _ [⟨4, 0, 0⟩, ⟨3, 9, 1⟩, ⟨7, 2, 2⟩, ⟨5, 15, 3⟩, ⟨7, 6, 4⟩, ⟨8, 16, 5⟩] _ _ (seededRng 174277) _ (by rfl) ?_
  refine rfoldl_eval _ _ _ _ [⟨4, 0, 0⟩, ⟨3, 9, 1⟩, ⟨7, 2, 2⟩, ⟨5, 15, 3⟩, ⟨7, 6, 4⟩, ⟨8, 16, 5⟩, ⟨10, 5, 6⟩] _ _ (seededRng 124371) _ (by rfl) ?_
  refine rfoldl_eval _ _ _ _ [⟨4, 0, 0⟩, ⟨3, 9, 1⟩, ⟨7, 2, 2⟩, ⟨5, 15, 3⟩, ⟨7, 6, 4⟩, ⟨8, 16, 5⟩, ⟨10, 5, 6⟩, ⟨10, 16, 7⟩] _ _ (seededRng 146225) _ (by rfl) ?_
  refine rfoldl_eval _ _ _ _ [⟨4, 0, 0⟩, ⟨3, 9, 1⟩, ⟨7, 2, 2⟩, ⟨5, 15, 3⟩, ⟨7, 6, 4⟩, ⟨8, 16, 5⟩, ⟨10, 5, 6⟩, ⟨10, 16, 7⟩, ⟨14, 5, 8⟩] _ _ (seededRng 139039) _ (by rfl) ?_
  refine rfoldl_eval _ _ _ _ [⟨4, 0, 0⟩, ⟨3, 9, 1⟩, ⟨7, 2, 2⟩, ⟨5, 15, 3⟩, ⟨7, 6, 4⟩, ⟨8, 16, 5⟩, ⟨10, 5, 6⟩, ⟨10, 16, 7⟩, ⟨14, 5, 8⟩, ⟨13, 16, 9⟩] _ _ (seededRng 174813) _ (by rfl) ?_
  refine rfoldl_eval _ _ _ _ [⟨4, 0, 0⟩, ⟨3, 9, 1⟩, ⟨7, 2, 2⟩, ⟨5, 15, 3⟩, ⟨7, 6, 4⟩, ⟨8, 16, 5⟩, ⟨10, 5, 6⟩, ⟨10, 16, 7⟩, ⟨14, 5, 8⟩, ⟨13, 16, 9⟩, ⟨17, 5, 10⟩] _ _ (seededRng 135467) _ (by rfl) ?_
  refine rfoldl_eval _ _ _ _ c10r1_pl _ _ (seededRng 205321) _ (by rfl) ?_
  rfl

def c10r1_b1 : Board :=
  [⟨20, [], List.replicate 20 (TileVal.num 0)⟩,
   ⟨20, [], List.replicate 20 (TileVal.num 0)⟩,
   ⟨20, [], List.replicate 20 (TileVal.num 0)⟩,
   ⟨20, [(9, (TileVal.num 2))], List.replicate 20 (TileVal.num 0)⟩,
   ⟨20, [(0, (TileVal.num 1))], List.replicate 20 (TileVal.num 0)⟩,
   ⟨20, [(15, (TileVal.num 4))], List.replicate 20 (TileVal.num 0)⟩,
   ⟨20, [], List.replicate 20 (TileVal.num 0)⟩,
   ⟨20, [(6, (TileVal.num 5)), (2, (TileVal.num 3))], List.replicate 20 (TileVal.num 0)⟩,
   ⟨20, [(16, (TileVal.num 6))], List.replicate 20 (TileVal.num 0)⟩,
   ⟨20, [], List.replicate 20 (TileVal.num 0)⟩,
   ⟨20, [(16, (TileVal.num 8)), (5, (TileVal.num 7))], List.replicate 20 (TileVal.num 0)⟩,
   ⟨20, [], List.replicate 20 (TileVal.num 0)⟩,
   ⟨20, [], List.replicate 20 (TileVal.num 0)⟩,
   ⟨20, [(16, (TileVal.num 10))], List.replicate 20 (TileVal.num 0)⟩,
   ⟨20, [(5, (TileVal.num 9))], List.replicate 20 (TileVal.num 0)⟩,
   ⟨20, [], List.replicate 20 (TileVal.num 0)⟩,
   ⟨20, [], List.replicate 20 (TileVal.num 0)⟩,
   ⟨20, [(17, (TileVal.num 12)), (5, (TileVal.num 11))], List.replicate 20 (TileVal.num 0)⟩,
   ⟨20, [], List.replicate 20 (TileVal.num 0)⟩,
   ⟨20, [], List.replicate 20 (TileVal.num 0)⟩]

theorem c10r1_mark : placeMarkers (Board.init 20 20) c10r1_pl = some c10r1_b1 := by rfl

def c10r1_cl : List Conn := []

theorem c10r1_conn : connPhase 100 c10r1_gl c10r1_pl (seededRng 205321) = some (c10r1_cl, (seededRng 167993)) := by
  unfold connPhase
  refine rfoldl_eval _ _ _ _ [] _ _ (seededRng 119415) _ (by rfl) ?_
  refine rfoldl_eval _ _ _ _ [] _ _ (seededRng 82132) _ (by rfl) ?_
  refine rfoldl_eval _ _ _ _ [] _ _ (seededRng 149226) _ (by rfl) ?_
  refine rfoldl_eval _ _ _ _ [] _ _ (seededRng 217603) _ (by rfl) ?_
  refine rfoldl_eval _ _ _ _ [] _ _ (seededRng 35937) _ (by rfl) ?_
  refine rfoldl_eval _ _ _ _ [] _ _ (seededRng 9094) _ (by rfl) ?_
  refine rfoldl_eval _ _ _ _ [] _ _ (seededRng 110028) _ (by rfl) ?_
  refine rfoldl_eval _ _ _ _ [] _ _ (seededRng 20365) _ (by rfl) ?_
  refine rfoldl_eval _ _ _ _ [] _ _ (seededRng 2139) _ (by rfl) ?_
  refine rfoldl_eval _ _ _ _ [] _ _ (seededRng 115336) _ (by rfl) ?_
  refine rfoldl_eval _ _ _ _ [] _ _ (seededRng 167993) _ (by rfl) ?_
  refine rfoldl_eval _ _ _ _ c10r1_cl _ _ (seededRng 167993) _ (by rfl) ?_
  rfl

def c10r1_b2 : Board :=
  [⟨20, [], List.replicate 20 (TileVal.num 0)⟩,
   ⟨20, [], List.replicate 20 (TileVal.num 0)⟩,
   ⟨20, [], List.replicate 20 (TileVal.num 0)⟩,
   ⟨20, [(9, (TileVal.num 2))], List.replicate 20 (TileVal.num 0)⟩,
   ⟨20, [(0, (TileVal.num 1))], List.replicate 20 (TileVal.num 0)⟩,
   ⟨20, [(15, (TileVal.num 4))], List.replicate 20 (TileVal.num 0)⟩,
   ⟨20, [], List.replicate 20 (TileVal.num 0)⟩,
   ⟨20, [(6, (TileVal.num 5)), (2, (TileVal.num 3))], List.replicate 20 (TileVal.num 0)⟩,
   ⟨20, [(16, (TileVal.num 6))], List.replicate 20 (TileVal.num 0)⟩,
   ⟨20, [], List.replicate 20 (TileVal.num 0)⟩,
   ⟨20, [(16, (TileVal.num 8)), (5, (TileVal.num 7))], List.replicate 20 (TileVal.num 0)⟩,
   ⟨20, [], List.replicate 20 (TileVal.num 0)⟩,
   ⟨20, [], List.replicate 20 (TileVal.num 0)⟩,
   ⟨20, [(16, (TileVal.num 10))], List.replicate 20 (TileVal.num 0)⟩,
   ⟨20, [(5, (TileVal.num 9))], List.replicate 20 (TileVal.num 0)⟩,
   ⟨20, [], List.replicate 20 (TileVal.num 0)⟩,
   ⟨20, [], List.replicate 20 (TileVal.num 0)⟩,
   ⟨20, [(17, (TileVal.num 12)), (5, (TileVal.num 11))], List.replicate 20 (TileVal.num 0)⟩,
   ⟨20, [], List.replicate 20 (TileVal.num 0)⟩,
   ⟨20, [], List.replicate 20 (TileVal.num 0)⟩]

theorem c10r1_paths : stampPaths c10r1_b1 c10r1_cl = some c10r1_b2 := by
  unfold stampPaths
  rfl

theorem c10r1_cp : createPaths 3 3 100 c10r1_gl (Board.init 20 20) (seededRng (-228287)) =
    some ((c10r1_pl, c10r1_cl, c10r1_b2), (seededRng 167993)) :=
  createPaths_run c10r1_pts c10r1_mark c10r1_conn c10r1_paths

theorem c10r1_rp : rfoldl (roomPhaseStep 20 20 3 3 3 3 20 c10r1_pl c10r1_cl)
    (c10r1_gl.enum) ⟨c10r1_b2, [], []⟩ (seededRng 167993) = some ((⟨c10r1_b2, [], []⟩ : RoomPhaseOut), (seededRng 167993)) := by
  refine rfoldl_eval _ _ _ _ (⟨c10r1_b2, [], []⟩ : RoomPhaseOut) _ _ (seededRng 167993) _ (by rfl) ?_
  refine rfoldl_eval _ _ _ _ (⟨c10r1_b2, [], []⟩ : RoomPhaseOut) _ _ (seededRng 167993) _ (by rfl) ?_
  refine rfoldl_eval _ _ _ _ (⟨c10r1_b2, [], []⟩ : RoomPhaseOut) _ _ (seededRng 167993) _ (by rfl) ?_
  refine rfoldl_eval _ _ _ _ (⟨c10r1_b2, [], []⟩ : RoomPhaseOut) _ _ (seededRng 167993) _ (by rfl) ?_
  refine rfoldl_eval _ _ _ _ (⟨c10r1_b2, [], []⟩ : RoomPhaseOut) _ _ (seededRng 167993) _ (by rfl) ?_
  refine rfoldl_eval _ _ _ _ (⟨c10r1_b2, [], []⟩ : RoomPhaseOut) _ _ (seededRng 167993) _ (by rfl) ?_
  refine rfoldl_eval _ _ _ _ (⟨c10r1_b2, [], []⟩ : RoomPhaseOut) _ _ (seededRng 167993) _ (by rfl) ?_
  refine rfoldl_eval _ _ _ _ (⟨c10r1_b2, [], []⟩ : RoomPhaseOut) _ _ (seededRng 167993) _ (by rfl) ?_
  refine rfoldl_eval _ _ _ _ (⟨c10r1_b2, [], []⟩ : RoomPhaseOut) _ _ (seededRng 167993) _ (by rfl) ?_
  refine rfoldl_eval _ _ _ _ (⟨c10r1_b2, [], []⟩ : RoomPhaseOut) _ _ (seededRng 167993) _ (by rfl) ?_
  refine rfoldl_eval _ _ _ _ (⟨c10r1_b2, [], []⟩ : RoomPhaseOut) _ _ (seededRng 167993) _ (by rfl) ?_
  refine rfoldl_eval _ _ _ _ (⟨c10r1_b2, [], []⟩ : RoomPhaseOut) _ _ (seededRng 167993) _ (by rfl) ?_
  rfl

theorem c10r1_ee : entryExitPhase [] ⟨none, none⟩ c10r1_b2 (seededRng 167993) =
    some (([], ⟨none, none⟩, c10r1_b2), (seededRng 167993)) := by rfl

theorem c10r1_cr : createRooms 20 20 3 3 3 3 20 c10r1_gl c10r1_pl c10r1_cl c10r1_b2 ⟨none, none⟩ (seededRng 167993) =
    some (((⟨c10r1_b2, [], []⟩ : RoomPhaseOut), [], ⟨none, none⟩, c10r1_b2), (seededRng 167993)) :=
  createRooms_run c10r1_rp c10r1_ee

theorem c10r1_arp : addRandomPaths 0 c10r1_b2 (seededRng 167993) = some (c10r1_b2, (seededRng 42750)) := by rfl

theorem c10r1_val : validateDungeon 20 20 c10r1_b2 c10r1_pl 12 0 (seededRng 42750) =
    some (false, (seededRng 157927)) := by rfl

theorem c10r1_run : regenerate c10S ⟨none, none⟩ (seededRng (-231504)) = some (⟨12, c10r1_b2, c10r1_gl, c10r1_pl, c10r1_cl, [], ⟨none, none⟩, false⟩, (seededRng 157927)) :=
  regenerate_run
    (regenerateI_run c10r1_rcd c10r1_grc.1 c10r1_grc.2 c10r1_cp c10r1_cr c10r1_arp c10r1_val)

/-- Counterexample to C10: with 12 rooms requested on a 20×20 board and
seed -231504, the attempt completes (all connections are lost, so no rooms
are stamped and validation simply fails), yet the board holds the
un-overwritten point marker `{ type: 1 }` at (4, 0) — on the border row
`y = 0` — even though the maximum room size (3×3) does not exceed any
grid's dimensions (3×10).  The marker landed outside its grid because the
sampling range `randomInt(grid.x + minRoomSizeX, grid.x + grid.width -
minRoomSizeX)` is inverted for 3-wide grids. -/
theorem c10_counterexample :
    regenerate c10S ⟨none, none⟩ (seededRng (-231504)) =
      some (⟨12, c10r1_b2, c10r1_gl, c10r1_pl, c10r1_cl, [], ⟨none, none⟩, false⟩,
        (seededRng 157927)) ∧
    (∀ g ∈ c10r1_gl, c10S.maxRoomSizeX ≤ g.width ∧ c10S.maxRoomSizeY ≤ g.height) ∧
    c10r1_b2.read 4 0 = some (some (TileVal.num 1)) ∧
    (TileVal.num 1).isNonZero = true ∧
    ¬ (1 ≤ (0 : Int)) :=
  ⟨c10r1_run, by decide, by rfl, rfl, by decide⟩


end DG
